import Mathlib

/-!
# Simple C semantic checker: type model, scope chain, operator rules and parser

A shallow embedding of `Type.h`, `checker.h`, `checker.cpp` and `parser.cpp`.

* `Ty` embeds `class Type` (the data members declared in `Type.h`).
* The member functions of `Type` are only declared in `Type.h`; their bodies
  are not among the sources and are modelled from section 3 of the
  specification.  The same holds for `Scope`, `Symbol` and `report`.
* The token codes `INT`, `CHAR`, `VOID` come from `tokens.h`, which is not
  among the sources either; they are taken as a parameter (`Tokens`).
* `unsigned` arithmetic is arithmetic on `Nat` modulo `2 ^ 32`.
* A rule that reports diagnostics returns the list of diagnostics it reported,
  in order; a `bool &lvalue` parameter becomes an argument and a result.
* The parser works on the list of lexemes that `lexan` will return; every
  parsing function takes a fuel that bounds its recursion depth and returns in
  `Except Halt`: a syntax error ends the run.
-/

namespace SimpleC

/-! ## Token codes and diagnostics -/

/-- The three specifier token codes declared in `tokens.h` (not among the
sources), taken as a parameter of the development. -/
structure Tokens where
  INT : Int
  CHAR : Int
  VOID : Int
  deriving DecidableEq, Repr

/-- The specifier codes are pairwise different and none of them is `0`, the
value of `_specifier` in a default-constructed `Type`. -/
def Tokens.Distinct (tk : Tokens) : Prop :=
  tk.INT ≠ tk.CHAR ∧ tk.INT ≠ tk.VOID ∧ tk.CHAR ≠ tk.VOID ∧
  tk.INT ≠ 0 ∧ tk.CHAR ≠ 0 ∧ tk.VOID ≠ 0

instance (tk : Tokens) : Decidable tk.Distinct := by
  unfold Tokens.Distinct; infer_instance

/-- A concrete assignment of token codes, used to evaluate the rules. -/
def sampleTokens : Tokens := { INT := 273, CHAR := 259, VOID := 285 }

/-- One call of `report(format, argument)`: the template and the string put in
place of its `%s`. -/
structure Diag where
  format : String
  argument : String
  deriving DecidableEq, Repr

/-- Modelled from the spec: `report` is declared in `lexer.h`, which is not
among the sources; it is "a reporting call taking a template string with
`%`-style placeholders and the substitution arguments".  The call is recorded
as it is made. -/
def report (format argument : String) : Diag := ⟨format, argument⟩

def redefined : String := "redefinition of '%s'"
def redeclared : String := "redeclaration of '%s'"
def conflicting : String := "conflicting types for '%s'"
def undeclared : String := "'%s' undeclared"
def void_object : String := "'%s' has type void"
def bad_unary : String := "invalid operand to unary %s"
def bad_binary : String := "invalid operands to binary %s"
def bad_lvalue : String := "lvalue required in expression"

/-! ## The type model (`Type.h`) -/

/-- The anonymous `enum { ARRAY, ERROR, FUNCTION, SCALAR }` of `class Type`. -/
inductive Kind where
  | ARRAY | ERROR | FUNCTION | SCALAR
  deriving DecidableEq, Repr

/-- The data members of `class Type`: `_specifier`, `_indirection`, `_length`,
`_parameters` (a null pointer is `none`) and `_kind`. -/
inductive Ty where
  | mk (specifier : Int) (indirection : Nat) (length : Nat)
       (parameters : Option (List Ty)) (kind : Kind)

namespace Ty

def specifier : Ty → Int
  | mk s _ _ _ _ => s

def indirection : Ty → Nat
  | mk _ i _ _ _ => i

def length : Ty → Nat
  | mk _ _ l _ _ => l

def parameters : Ty → Option (List Ty)
  | mk _ _ _ p _ => p

def kind : Ty → Kind
  | mk _ _ _ _ k => k

/-- The value `2 ^ 32`: `unsigned` is a 32-bit machine integer. -/
def UMAX : Nat := 4294967296

/-- The `unsigned` members hold values below `2 ^ 32`. -/
def InRange (t : Ty) : Prop := t.indirection < UMAX ∧ t.length < UMAX

instance (t : Ty) : Decidable t.InRange := by
  unfold InRange; infer_instance

/-- The constructor `Type()`: the default member initialisers of `Type.h` with kind `ERROR`
(spec: "a default-constructed Type is the distinguished error type"). -/
def error : Ty := mk 0 0 0 none Kind.ERROR

/-- The constructor `Type(int specifier, unsigned indirection = 0)`: a scalar type. -/
def scalar (specifier : Int) (indirection : Nat) : Ty :=
  mk specifier indirection 0 none Kind.SCALAR

/-- The constructor `Type(int specifier, unsigned indirection, unsigned length)`: an array. -/
def array (specifier : Int) (indirection length : Nat) : Ty :=
  mk specifier indirection length none Kind.ARRAY

/-- The constructor `Type(int specifier, unsigned indirection, Parameters *parameters)`:
a function type; `none` is the null pointer (unspecified parameter list). -/
def function (specifier : Int) (indirection : Nat) (parameters : Option (List Ty)) : Ty :=
  mk specifier indirection 0 parameters Kind.FUNCTION

mutual
/-- Modelled from the spec: `Type::operator==` (body not among the sources).
"Two Types are equal iff kind, specifier, indirection match and, for Array,
length matches, and for Function, parameters match element-wise"; "equality is
structural, and unspecified is simply one more representable parameter-list
value". -/
def eq : Ty → Ty → Bool
  | mk s1 i1 l1 p1 k1, mk s2 i2 l2 p2 k2 =>
    decide (k1 = k2) && decide (s1 = s2) && decide (i1 = i2) &&
    (if k1 = Kind.ARRAY then decide (l1 = l2) else true) &&
    (if k1 = Kind.FUNCTION then eqParams p1 p2 else true)
/-- Comparison of two parameter-list pointers by what they point to. -/
def eqParams : Option (List Ty) → Option (List Ty) → Bool
  | none, none => true
  | some xs, some ys => eqList xs ys
  | _, _ => false
/-- Element-wise comparison of two parameter lists. -/
def eqList : List Ty → List Ty → Bool
  | [], [] => true
  | x :: xs, y :: ys => eq x y && eqList xs ys
  | _, _ => false
end

/-- Modelled from the spec: `Type::operator!=`, the negation of `operator==`. -/
def ne (a b : Ty) : Bool := !(eq a b)

def isArray (t : Ty) : Bool := decide (t.kind = Kind.ARRAY)

def isScalar (t : Ty) : Bool := decide (t.kind = Kind.SCALAR)

def isFunction (t : Ty) : Bool := decide (t.kind = Kind.FUNCTION)

def isError (t : Ty) : Bool := decide (t.kind = Kind.ERROR)

/-- Modelled from the spec: `Type::isInteger` (body not among the sources),
"true for Char/Int scalars with zero indirection". -/
def isInteger (tk : Tokens) (t : Ty) : Bool :=
  decide (t.kind = Kind.SCALAR) &&
  (decide (t.specifier = tk.CHAR) || decide (t.specifier = tk.INT)) &&
  decide (t.indirection = 0)

/-- Modelled from the spec: `Type::isPointer` (body not among the sources),
"true for any Type with indirection > 0, or for Array". -/
def isPointer (t : Ty) : Bool :=
  decide (0 < t.indirection) || decide (t.kind = Kind.ARRAY)

/-- Modelled from the spec: `Type::isValue` (body not among the sources),
"true for any non-Error, non-Function type usable as an expression value,
i.e. Scalar or Array or pointer". -/
def isValue (t : Ty) : Bool :=
  decide (t.kind ≠ Kind.ERROR) && decide (t.kind ≠ Kind.FUNCTION)

/-- Modelled from the spec: `Type::promote` (body not among the sources).
"Array types decay to a pointer to their element type (indirection + 1, kind
becomes Scalar, length dropped); Char scalars with zero indirection widen to
Int; all other types are unchanged."  The addition is `unsigned`. -/
def promote (tk : Tokens) (t : Ty) : Ty :=
  if t.kind = Kind.ARRAY then
    scalar t.specifier ((t.indirection + 1) % UMAX)
  else if t.kind = Kind.SCALAR ∧ t.specifier = tk.CHAR ∧ t.indirection = 0 then
    scalar tk.INT 0
  else
    t

/-- Modelled from the spec: `Type::isCompatibleWith` (body not among the
sources).  "Two value types are compatible for equality comparison iff both
promote to the same specifier and indirection." -/
def isCompatibleWith (tk : Tokens) (this that : Ty) : Bool :=
  this.isValue && that.isValue &&
  decide ((this.promote tk).specifier = (that.promote tk).specifier) &&
  decide ((this.promote tk).indirection = (that.promote tk).indirection)

end Ty

/-! ## Operator rules (`checker.cpp`, lines 182-315) -/

/-- The rule `checkMultiplicative` (checker.cpp:182). -/
def checkMultiplicative (tk : Tokens) (left right : Ty) (op : String) : Ty × List Diag :=
  if (left.promote tk).isInteger tk && (right.promote tk).isInteger tk then
    (left, [])
  else
    (Ty.error, [report bad_binary op])

/-- The rule `checkEquality` (checker.cpp:192). -/
def checkEquality (tk : Tokens) (left right : Ty) (op : String) : Ty × List Diag :=
  if left.isCompatibleWith tk right then
    (Ty.scalar tk.INT 0, [])
  else
    (Ty.error, [report bad_binary op])

/-- The rule `checkRelational` (checker.cpp:201). -/
def checkRelational (tk : Tokens) (left right : Ty) (op : String) : Ty × List Diag :=
  let l := left.promote tk
  let r := right.promote tk
  if l.isValue && r.isValue && decide (l.specifier = r.specifier) then
    (Ty.scalar tk.INT 0, [])
  else
    (Ty.error, [report bad_binary op])

/-- The rule `checkLogical` (checker.cpp:216). -/
def checkLogical (tk : Tokens) (left right : Ty) (op : String) : Ty × List Diag :=
  let l := left.promote tk
  let r := right.promote tk
  if l.isValue && r.isValue then
    (Ty.scalar tk.INT 0, [])
  else
    (Ty.error, [report bad_binary op])

/-- The rule `checkPostfix` (checker.cpp:228).  On success the promoted operand `o`
itself is returned (line 236). -/
def checkPostfix (tk : Tokens) (operand expr : Ty) : Ty × List Diag :=
  let o := operand.promote tk
  let e := expr.promote tk
  if o.isPointer && decide (o.specifier ≠ tk.VOID) &&
      (decide (e.specifier = tk.INT) && decide (e.indirection = 0)) then
    (o, [])
  else
    (Ty.error, [report bad_binary "[]"])

/-- The rule `checkAdditive` (checker.cpp:242). -/
def checkAdditive (tk : Tokens) (left right : Ty) (op : String) : Ty × List Diag :=
  let l := left.promote tk
  let r := right.promote tk
  if l.isPointer && decide (l.specifier ≠ tk.VOID) then
    if r.isInteger tk then
      (Ty.scalar l.specifier l.indirection, [])
    else if decide (op = "-") && r.isPointer && decide (r.specifier = l.specifier) then
      (Ty.scalar tk.INT 0, [])
    else
      (Ty.error, [report bad_binary op])
  else if l.isInteger tk then
    if r.isInteger tk then
      (Ty.scalar tk.INT 0, [])
    else if decide (op = "+") && r.isPointer && decide (r.specifier ≠ tk.VOID) then
      (Ty.scalar r.specifier r.indirection, [])
    else
      (Ty.error, [report bad_binary op])
  else
    (Ty.error, [report bad_binary op])

/-- The rule `checkDeref` (checker.cpp:265).  The results are the returned type, the
value of `lvalue` on return and the diagnostics.  `o.indirection() - 1` is an
`unsigned` subtraction. -/
def checkDeref (tk : Tokens) (operand : Ty) (lvalue : Bool) : Ty × Bool × List Diag :=
  let o := operand.promote tk
  if o.isPointer && decide (o.specifier ≠ tk.VOID) then
    (Ty.scalar o.specifier ((o.indirection + Ty.UMAX - 1) % Ty.UMAX), true, [])
  else
    (Ty.error, lvalue, [report bad_unary "*"])

/-- The rule `checkAddr` (checker.cpp:277).  `operand.indirection() + 1` is an
`unsigned` addition. -/
def checkAddr (operand : Ty) (lvalue : Bool) : Ty × Bool × List Diag :=
  if lvalue then
    (Ty.scalar operand.specifier ((operand.indirection + 1) % Ty.UMAX), false, [])
  else
    (Ty.error, lvalue, [report bad_unary "&"])

/-- The rule `checkNot` (checker.cpp:287). -/
def checkNot (tk : Tokens) (operand : Ty) (_lvalue : Bool) : Ty × Bool × List Diag :=
  if operand.isValue then
    (Ty.scalar tk.INT 0, false, [])
  else
    (Ty.error, false, [report bad_unary "!"])

/-- The rule `checkNeg` (checker.cpp:296). -/
def checkNeg (tk : Tokens) (operand : Ty) (_lvalue : Bool) : Ty × Bool × List Diag :=
  if (operand.promote tk).isInteger tk then
    (Ty.scalar tk.INT 0, false, [])
  else
    (Ty.error, false, [report bad_unary "-"])

/-- The rule `checkSizeof` (checker.cpp:307). -/
def checkSizeof (tk : Tokens) (operand : Ty) (_lvalue : Bool) : Ty × Bool × List Diag :=
  if operand.isValue then
    (Ty.scalar tk.INT 0, false, [])
  else
    (Ty.error, false, [report bad_unary "sizeof"])

/-! ## Symbols and scopes (`Symbol.h`, `Scope.h`: not among the sources) -/

/-- Modelled from the spec: `Symbol` (declared in `Symbol.h`, not among the
sources): "`name` (string) + `type` (Type).  Immutable after construction". -/
structure Symbol where
  name : String
  type : Ty

/-- Modelled from the spec: `Scope` (declared in `Scope.h`, not among the
sources): "a mapping from name to Symbol, plus a back-reference to its
immediately enclosing Scope (null for the outermost scope)".  A `Scope *` is
the position of the scope in the store of allocated scopes; `none` is the null
pointer.  The symbols are kept in insertion order. -/
structure Scope where
  enclosing : Option Nat
  symbols : List Symbol

namespace Scope

/-- Modelled from the spec: `Scope::find`, "returns the symbol bound to `name`
in that scope only, or none". -/
def find (sc : Scope) (name : String) : Option Symbol :=
  sc.symbols.find? (fun s => decide (s.name = name))

/-- Modelled from the spec: `Scope::insert`, "adds a symbol" to the scope; the
absence of a symbol of that name is "checked by callers via `find`, not
enforced internally". -/
def insert (sc : Scope) (symbol : Symbol) : Scope :=
  { sc with symbols := sc.symbols ++ [symbol] }

/-- Modelled from the spec: `Scope::remove`, "deletes the binding for `name`
from a scope". -/
def remove (sc : Scope) (name : String) : Scope :=
  { sc with symbols := sc.symbols.eraseP (fun s => decide (s.name = name)) }

end Scope

/-- Modelled from the spec: `Scope::lookup`, "returns the symbol bound to
`name` in that scope, or (if absent) searches the enclosing scope recursively,
or (if no scope defines it) none".  The search starts at the scope pointer
`start` and visits at most `fuel` scopes: the outer `none` means that the walk
did not finish (or met a pointer to no allocated scope), `some none` that no
scope of the chain binds `name`. -/
def lookupFrom (scopes : List Scope) : Nat → Option Nat → String → Option (Option Symbol)
  | _, none, _ => some none
  | 0, some _, _ => none
  | fuel + 1, some i, name =>
    match scopes[i]? with
    | none => none
    | some sc =>
      match sc.find name with
      | some symbol => some (some symbol)
      | none => lookupFrom scopes fuel sc.enclosing name

/-! ## The checker state and the declaration entry points (`checker.cpp`, lines 26-180) -/

/-- The state of the checker: the scopes allocated so far (by `new Scope`, in
order of allocation), the file-level variables `outermost` and `toplevel`, the
diagnostics reported so far and the lines written to `cout` (the declared name
and its type). -/
structure Checker where
  scopes : List Scope
  outermost : Option Nat
  toplevel : Option Nat
  reports : List Diag
  printed : List (String × Ty)

namespace Checker

/-- The state before `main` runs: both pointers are null. -/
def init : Checker :=
  { scopes := [], outermost := none, toplevel := none, reports := [], printed := [] }

/-- The effect of `report(format, argument)` on the state. -/
def report (st : Checker) (format argument : String) : Checker :=
  { st with reports := st.reports ++ [SimpleC.report format argument] }

/-- The effect of `cout << name << ": " << type << endl` on the state. -/
def print (st : Checker) (name : String) (type : Ty) : Checker :=
  { st with printed := st.printed ++ [(name, type)] }

/-- The scope a `Scope *` points to. -/
def scopeAt (st : Checker) (p : Option Nat) : Option Scope :=
  match p with
  | none => none
  | some i => st.scopes[i]?

/-- Replace the scope at position `i` of the store. -/
def setScope (st : Checker) (i : Nat) (sc : Scope) : Checker :=
  { st with scopes := st.scopes.set i sc }

/-- The call `toplevel->lookup(name)`; the walk may visit every allocated scope. -/
def lookup (st : Checker) (name : String) : Option (Option Symbol) :=
  match st.toplevel with
  | none => none
  | some top => lookupFrom st.scopes st.scopes.length (some top) name

end Checker

/-- The function `openScope` (checker.cpp:46): returns the new top-level scope. -/
def openScope (st : Checker) : Option Nat × Checker :=
  let st1 : Checker :=
    { st with scopes := st.scopes ++ [{ enclosing := st.toplevel, symbols := [] }],
              toplevel := some st.scopes.length }
  let st2 : Checker :=
    if st1.outermost = none then { st1 with outermost := st1.toplevel } else st1
  (st2.toplevel, st2)

/-- The function `closeScope` (checker.cpp:64): returns the scope that was removed.  The
result is `none` when `toplevel` points to no scope. -/
def closeScope (st : Checker) : Option (Option Nat × Checker) :=
  match st.toplevel with
  | none => none
  | some top =>
    match st.scopes[top]? with
    | none => none
    | some sc => some (some top, { st with toplevel := sc.enclosing })

/-- The function `defineFunction` (checker.cpp:81).  The result is `none` when `outermost`
points to no scope. -/
def defineFunction (name : String) (type : Ty) (st : Checker) : Option (Symbol × Checker) :=
  let st0 := st.print name type
  match st0.outermost with
  | none => none
  | some out =>
    match st0.scopes[out]? with
    | none => none
    | some sc =>
      let symbol : Symbol := { name := name, type := type }
      match sc.find name with
      | some old =>
        let st1 :=
          if old.type.isFunction && old.type.parameters.isSome then
            st0.report redefined name
          else if type.ne old.type then
            st0.report conflicting name
          else st0
        some (symbol, st1.setScope out ((sc.remove name).insert symbol))
      | none =>
        some (symbol, st0.setScope out (sc.insert symbol))

/-- The function `declareFunction` (checker.cpp:112).  The result is `none` when
`outermost` points to no scope. -/
def declareFunction (name : String) (type : Ty) (st : Checker) : Option (Symbol × Checker) :=
  let st0 := st.print name type
  match st0.outermost with
  | none => none
  | some out =>
    match st0.scopes[out]? with
    | none => none
    | some sc =>
      match sc.find name with
      | none =>
        let symbol : Symbol := { name := name, type := type }
        some (symbol, st0.setScope out (sc.insert symbol))
      | some symbol =>
        if type.ne symbol.type then
          some (symbol, st0.report conflicting name)
        else
          some (symbol, st0)

/-- The function `declareVariable` (checker.cpp:139).  The result is `none` when `toplevel`
points to no scope. -/
def declareVariable (tk : Tokens) (name : String) (type : Ty) (st : Checker) :
    Option (Symbol × Checker) :=
  let st0 := st.print name type
  match st0.toplevel with
  | none => none
  | some top =>
    match st0.scopes[top]? with
    | none => none
    | some sc =>
      match sc.find name with
      | none =>
        let st1 :=
          if type.specifier = tk.VOID ∧ type.indirection = 0 then
            st0.report void_object name
          else st0
        let symbol : Symbol := { name := name, type := type }
        some (symbol, st1.setScope top (sc.insert symbol))
      | some symbol =>
        if st0.outermost ≠ st0.toplevel then
          some (symbol, st0.report redeclared name)
        else if type.ne symbol.type then
          some (symbol, st0.report conflicting name)
        else
          some (symbol, st0)

/-- The function `checkIdentifier` (checker.cpp:169).  The result is `none` when `toplevel`
points to no scope or the lookup does not finish. -/
def checkIdentifier (name : String) (st : Checker) : Option (Symbol × Checker) :=
  match st.toplevel with
  | none => none
  | some top =>
    match st.scopes[top]? with
    | none => none
    | some sc =>
      match st.lookup name with
      | none => none
      | some (some symbol) => some (symbol, st)
      | some none =>
        let st1 := st.report undeclared name
        let symbol : Symbol := { name := name, type := Ty.error }
        some (symbol, st1.setScope top (sc.insert symbol))

/-! ## Invariants of the scope store -/

/-- The data-model invariant of a scope: "uniqueness of name within this scope
only". -/
def Scope.Unique (sc : Scope) : Prop := (sc.symbols.map Symbol.name).Nodup

/-- Every enclosing pointer refers to a scope allocated earlier: `new Scope(toplevel)`
links a new scope to one that exists already. -/
def Ordered (scopes : List Scope) : Prop :=
  ∀ (i : Nat) (sc : Scope), scopes[i]? = some sc → ∀ j : Nat, sc.enclosing = some j → j < i

/-- The state `st2` differs from `st1` in its scopes at most by one symbol
called `name` added to the scope at position `top`: both scope pointers and
every other scope of the store are the same, and the scope at `top` has the
same enclosing scope and either the same symbols or the same symbols followed
by one new symbol called `name`, which it did not bind before. -/
def Checker.SameButTop (st1 st2 : Checker) (top : Nat) (name : String) : Prop :=
  st2.toplevel = st1.toplevel ∧ st2.outermost = st1.outermost ∧
  st2.scopes.length = st1.scopes.length ∧
  (∀ i : Nat, i ≠ top → st2.scopes[i]? = st1.scopes[i]?) ∧
  ∃ sc1 sc2 : Scope, st1.scopes[top]? = some sc1 ∧ st2.scopes[top]? = some sc2 ∧
    sc2.enclosing = sc1.enclosing ∧
    (sc2.symbols = sc1.symbols ∨
      ∃ type : Ty, sc1.find name = none ∧
        sc2.symbols = sc1.symbols ++ [{ name := name, type := type }])

/-- The scope pointers of `c2` are those of `c1`, and every scope allocated in
`c1` is still in the store of `c2` with the same enclosing scope: whatever was
opened between `c1` and `c2` has been closed again, and the scopes allocated
meanwhile come after the old ones in the store. -/
def Checker.Balanced (c1 c2 : Checker) : Prop :=
  c2.toplevel = c1.toplevel ∧ c2.outermost = c1.outermost ∧
  c1.scopes.length ≤ c2.scopes.length ∧
  ∀ i : Nat, i < c1.scopes.length →
    (c2.scopes[i]?).map Scope.enclosing = (c1.scopes[i]?).map Scope.enclosing

/-! ## Sample states -/

/-- The state after `void v;` at file level: one scope, outermost and
top-level, that binds `v` to `Type(Void,0)`. -/
def voidBoundState : Checker :=
  { scopes := [{ enclosing := none,
                 symbols := [{ name := "v", type := Ty.scalar sampleTokens.VOID 0 }] }],
    outermost := some 0, toplevel := some 0,
    reports := [report void_object "v"],
    printed := [("v", Ty.scalar sampleTokens.VOID 0)] }

/-- A state inside a block: the outermost scope and a nested top-level scope
that binds `x` to `Type(Int,0)`. -/
def nestedState : Checker :=
  { scopes := [{ enclosing := none, symbols := [] },
               { enclosing := some 0,
                 symbols := [{ name := "x", type := Ty.scalar sampleTokens.INT 0 }] }],
    outermost := some 0, toplevel := some 1,
    reports := [],
    printed := [("x", Ty.scalar sampleTokens.INT 0)] }

/-! ## The parser (`parser.cpp`): tokens and state -/

/-- Modelled from the spec: the token categories returned by `lexan` (`lexer.h`
and `tokens.h` are not among the sources): "identifier, integer literal, string
literal, and fixed keyword/punctuation codes for `int`, `char`, `void`,
`return`, `while`, `for`, `if`, `else`, `sizeof`, multi-character operators
(`<=`, `>=`, `==`, `!=`, `&&`, `||`), single-character punctuation/operators,
and an end-of-input sentinel".  A single-character token is the character
itself (`ch`). -/
inductive Token where
  | ch (c : Char)
  | ID | NUM | STRING
  | INT | CHAR | VOID
  | RETURN | WHILE | FOR | IF | ELSE | SIZEOF
  | OR | AND | EQL | NEQ | LEQ | GEQ
  | DONE
  deriving DecidableEq, Repr

/-- One result of `lexan(lexbuf)`: the token category and the text put in
`lexbuf`. -/
structure Lexeme where
  token : Token
  text : String
  deriving DecidableEq, Repr

/-- What the parser takes from outside the sources: the token codes, the C
library function `strtoul(s, NULL, 0)` and the indeterminate value read from
an uninitialised local `Type left` (indexed by the number of lexemes not yet
consumed when it is read). -/
structure Env where
  tk : Tokens
  strtoul : String → Nat
  indeterminate : Nat → Ty

/-- How a run of the parser stops without returning: `exit(EXIT_FAILURE)` after
a syntax error (with the report made), a null pointer dereference in the
checker, or the end of the fuel of the embedding. -/
inductive Halt where
  | syntaxError (d : Diag)
  | undefined
  | fuel

/-- The state of the parser: the lexemes not yet consumed, the head being the
lookahead (`lookahead` and `lexbuf` of parser.cpp:17-18), and the state of the
checker. -/
structure Parser where
  input : List Lexeme
  checker : Checker

namespace Parser

/-- The variable `lookahead`; `lexan` returns `DONE` at the end of the input. -/
def lookahead (p : Parser) : Token :=
  match p.input with
  | [] => Token.DONE
  | l :: _ => l.token

/-- The variable `lexbuf`. -/
def lexbuf (p : Parser) : String :=
  match p.input with
  | [] => ""
  | l :: _ => l.text

/-- The function `error` (parser.cpp:30): report a syntax error and exit. -/
def error {α : Type} (p : Parser) : Except Halt α :=
  if p.lookahead = Token.DONE then
    Except.error (Halt.syntaxError (report "syntax error at end of file" ""))
  else
    Except.error (Halt.syntaxError (report "syntax error at '%s'" p.lexbuf))

/-- The function `match` (parser.cpp:49). -/
def matchToken (p : Parser) (t : Token) : Except Halt Parser :=
  if p.lookahead ≠ t then p.error
  else Except.ok { p with input := p.input.tail }

/-- The function `number` (parser.cpp:64); the result is an `unsigned`. -/
def number (env : Env) (p : Parser) : Except Halt (Nat × Parser) :=
  let buf := p.lexbuf
  match p.matchToken Token.NUM with
  | Except.error h => Except.error h
  | Except.ok p1 => Except.ok (env.strtoul buf % Ty.UMAX, p1)

/-- The function `identifier` (parser.cpp:81). -/
def identifier (p : Parser) : Except Halt (String × Parser) :=
  let buf := p.lexbuf
  match p.matchToken Token.ID with
  | Except.error h => Except.error h
  | Except.ok p1 => Except.ok (buf, p1)

/-- A call of a declaration entry point of the checker on the checker state. -/
def check {α : Type} (p : Parser) (f : Checker → Option (α × Checker)) :
    Except Halt (α × Parser) :=
  match f p.checker with
  | none => Except.error Halt.undefined
  | some (a, c) => Except.ok (a, { p with checker := c })

/-- The reports made by an operator rule, added to the checker state. -/
def reported (p : Parser) (ds : List Diag) : Parser :=
  { p with checker := { p.checker with reports := p.checker.reports ++ ds } }

end Parser

/-- The function `isSpecifier` (parser.cpp:98). -/
def isSpecifier (token : Token) : Bool :=
  decide (token = Token.INT) || decide (token = Token.CHAR) || decide (token = Token.VOID)

/-- The `int` value of a specifier token, as stored in a `Type`. -/
def specifierCode (tk : Tokens) (token : Token) : Int :=
  match token with
  | Token.INT => tk.INT
  | Token.CHAR => tk.CHAR
  | Token.VOID => tk.VOID
  | _ => 0

/-- The function `specifier` (parser.cpp:116). -/
def specifier (env : Env) (p : Parser) : Except Halt (Int × Parser) :=
  if isSpecifier p.lookahead then
    let typespec := specifierCode env.tk p.lookahead
    match p.matchToken p.lookahead with
    | Except.error h => Except.error h
    | Except.ok p1 => Except.ok (typespec, p1)
  else p.error

/-- The function `pointers` (parser.cpp:141): count the leading `*` tokens with
an `unsigned` counter. -/
def pointersFrom : List Lexeme → Nat → Nat × List Lexeme
  | [], count => (count, [])
  | l :: rest, count =>
    if l.token = Token.ch '*' then pointersFrom rest ((count + 1) % Ty.UMAX)
    else (count, l :: rest)

/-- The function `pointers` (parser.cpp:141). -/
def pointers (p : Parser) : Nat × Parser :=
  ((pointersFrom p.input 0).1, { p with input := (pointersFrom p.input 0).2 })

/-! ## The parser: expressions (parser.cpp:251-597) -/

mutual

/-- The function `primaryExpression` (parser.cpp:251).  The parameter list of a
call is the local `params`; the `Type` returned points to it. -/
def primaryExpression (env : Env) : Nat → Bool → Parser → Except Halt (Ty × Bool × Parser)
  | 0, _, _ => Except.error Halt.fuel
  | fuel + 1, lvalue, p =>
    if p.lookahead = Token.ch '(' then do
      let p ← p.matchToken (Token.ch '(')
      let (expr, _, p) ← expression env fuel lvalue p
      let p ← p.matchToken (Token.ch ')')
      pure (expr, false, p)
    else if p.lookahead = Token.STRING then do
      let p ← p.matchToken Token.STRING
      pure (Ty.array env.tk.CHAR 0 0, false, p)
    else if p.lookahead = Token.NUM then do
      let p ← p.matchToken Token.NUM
      pure (Ty.scalar env.tk.INT 0, false, p)
    else if p.lookahead = Token.ID then do
      let (name, p) ← p.identifier
      let (id, p) ← p.check (checkIdentifier name)
      let expr := id.type
      if p.lookahead = Token.ch '(' then do
        let p ← p.matchToken (Token.ch '(')
        let (params, lvalue, p) ←
          if p.lookahead ≠ Token.ch ')' then do
            let (arg, _, p) ← expression env fuel true p
            remainingArguments env fuel [arg] p
          else pure ([], true, p)
        let p ← p.matchToken (Token.ch ')')
        pure (Ty.function expr.specifier expr.indirection (some params), lvalue, p)
      else pure (expr, true, p)
    else p.error

/-- The loop `while (lookahead == ',')` of `primaryExpression` (parser.cpp:284);
`lvalue` is false after every argument. -/
def remainingArguments (env : Env) :
    Nat → List Ty → Parser → Except Halt (List Ty × Bool × Parser)
  | 0, _, _ => Except.error Halt.fuel
  | fuel + 1, params, p =>
    if p.lookahead = Token.ch ',' then do
      let p ← p.matchToken (Token.ch ',')
      let (arg, _, p) ← expression env fuel false p
      remainingArguments env fuel (params ++ [arg]) p
    else pure (params, false, p)

/-- The function `postfixExpression` (parser.cpp:314). -/
def postfixExpression (env : Env) : Nat → Bool → Parser → Except Halt (Ty × Bool × Parser)
  | 0, _, _ => Except.error Halt.fuel
  | fuel + 1, lvalue, p => do
    let (expr, lvalue, p) ← primaryExpression env fuel lvalue p
    postfixLoop env fuel expr lvalue p

/-- The loop `while (lookahead == '[')` of `postfixExpression`. -/
def postfixLoop (env : Env) : Nat → Ty → Bool → Parser → Except Halt (Ty × Bool × Parser)
  | 0, _, _, _ => Except.error Halt.fuel
  | fuel + 1, expr, lvalue, p =>
    if p.lookahead = Token.ch '[' then do
      let p ← p.matchToken (Token.ch '[')
      let (index_expr, _, p) ← expression env fuel lvalue p
      let p ← p.matchToken (Token.ch ']')
      let r := checkPostfix env.tk expr index_expr
      postfixLoop env fuel r.1 true (p.reported r.2)
    else pure (expr, lvalue, p)

/-- The function `prefixExpression` (parser.cpp:343). -/
def prefixExpression (env : Env) : Nat → Bool → Parser → Except Halt (Ty × Bool × Parser)
  | 0, _, _ => Except.error Halt.fuel
  | fuel + 1, lvalue, p =>
    if p.lookahead = Token.ch '!' then do
      let p ← p.matchToken (Token.ch '!')
      let (expr, lvalue, p) ← prefixExpression env fuel lvalue p
      let r := checkNot env.tk expr lvalue
      pure (r.1, r.2.1, p.reported r.2.2)
    else if p.lookahead = Token.ch '-' then do
      let p ← p.matchToken (Token.ch '-')
      let (expr, lvalue, p) ← prefixExpression env fuel lvalue p
      let r := checkNeg env.tk expr lvalue
      pure (r.1, r.2.1, p.reported r.2.2)
    else if p.lookahead = Token.ch '*' then do
      let p ← p.matchToken (Token.ch '*')
      let (expr, lvalue, p) ← prefixExpression env fuel lvalue p
      let r := checkDeref env.tk expr lvalue
      pure (r.1, r.2.1, p.reported r.2.2)
    else if p.lookahead = Token.ch '&' then do
      let p ← p.matchToken (Token.ch '&')
      let (expr, lvalue, p) ← prefixExpression env fuel lvalue p
      let r := checkAddr expr lvalue
      pure (r.1, r.2.1, p.reported r.2.2)
    else if p.lookahead = Token.SIZEOF then do
      let p ← p.matchToken Token.SIZEOF
      let (expr, lvalue, p) ← prefixExpression env fuel lvalue p
      let r := checkSizeof env.tk expr lvalue
      pure (r.1, r.2.1, p.reported r.2.2)
    else postfixExpression env fuel lvalue p

/-- The function `multiplicativeExpression` (parser.cpp:393). -/
def multiplicativeExpression (env : Env) :
    Nat → Bool → Parser → Except Halt (Ty × Bool × Parser)
  | 0, _, _ => Except.error Halt.fuel
  | fuel + 1, lvalue, p => do
    let (left, lvalue, p) ← prefixExpression env fuel lvalue p
    multiplicativeLoop env fuel left lvalue p

/-- The loop `while (1)` of `multiplicativeExpression`.  Each branch declares a
new local `Type left = checkMultiplicative(left, right, op)` (parser.cpp:401,
407, 413): the `left` passed to the rule is that new, uninitialised object,
and the result is stored in it, so the outer `left` keeps its value. -/
def multiplicativeLoop (env : Env) :
    Nat → Ty → Bool → Parser → Except Halt (Ty × Bool × Parser)
  | 0, _, _, _ => Except.error Halt.fuel
  | fuel + 1, left, lvalue, p =>
    if p.lookahead = Token.ch '*' then do
      let p ← p.matchToken (Token.ch '*')
      let (right, _, p) ← prefixExpression env fuel lvalue p
      let r := checkMultiplicative env.tk (env.indeterminate p.input.length) right "*"
      multiplicativeLoop env fuel left false (p.reported r.2)
    else if p.lookahead = Token.ch '/' then do
      let p ← p.matchToken (Token.ch '/')
      let (right, _, p) ← prefixExpression env fuel lvalue p
      let r := checkMultiplicative env.tk (env.indeterminate p.input.length) right "/"
      multiplicativeLoop env fuel left false (p.reported r.2)
    else if p.lookahead = Token.ch '%' then do
      let p ← p.matchToken (Token.ch '%')
      let (right, _, p) ← prefixExpression env fuel lvalue p
      let r := checkMultiplicative env.tk (env.indeterminate p.input.length) right "%"
      multiplicativeLoop env fuel left false (p.reported r.2)
    else pure (left, lvalue, p)

/-- The function `additiveExpression` (parser.cpp:435). -/
def additiveExpression (env : Env) : Nat → Bool → Parser → Except Halt (Ty × Bool × Parser)
  | 0, _, _ => Except.error Halt.fuel
  | fuel + 1, lvalue, p => do
    let (left, lvalue, p) ← multiplicativeExpression env fuel lvalue p
    additiveLoop env fuel left lvalue p

/-- The loop `while (1)` of `additiveExpression`.  Each branch declares a new
local `Type left = checkAdditive(left, right, op)` (parser.cpp:443, 449), as in
`multiplicativeExpression`. -/
def additiveLoop (env : Env) : Nat → Ty → Bool → Parser → Except Halt (Ty × Bool × Parser)
  | 0, _, _, _ => Except.error Halt.fuel
  | fuel + 1, left, lvalue, p =>
    if p.lookahead = Token.ch '+' then do
      let p ← p.matchToken (Token.ch '+')
      let (right, _, p) ← multiplicativeExpression env fuel lvalue p
      let r := checkAdditive env.tk (env.indeterminate p.input.length) right "+"
      additiveLoop env fuel left false (p.reported r.2)
    else if p.lookahead = Token.ch '-' then do
      let p ← p.matchToken (Token.ch '-')
      let (right, _, p) ← multiplicativeExpression env fuel lvalue p
      let r := checkAdditive env.tk (env.indeterminate p.input.length) right "-"
      additiveLoop env fuel left false (p.reported r.2)
    else pure (left, lvalue, p)

/-- The function `relationalExpression` (parser.cpp:476). -/
def relationalExpression (env : Env) : Nat → Bool → Parser → Except Halt (Ty × Bool × Parser)
  | 0, _, _ => Except.error Halt.fuel
  | fuel + 1, lvalue, p => do
    let (left, lvalue, p) ← additiveExpression env fuel lvalue p
    relationalLoop env fuel left lvalue p

/-- The loop `while (1)` of `relationalExpression`.  Each branch declares a new
local `Type left = checkRelational(left, right, op)` (parser.cpp:484, 490, 496,
502), as in `multiplicativeExpression`; the branch for `>` passes the spelling
"<" (parser.cpp:490). -/
def relationalLoop (env : Env) : Nat → Ty → Bool → Parser → Except Halt (Ty × Bool × Parser)
  | 0, _, _, _ => Except.error Halt.fuel
  | fuel + 1, left, lvalue, p =>
    if p.lookahead = Token.ch '<' then do
      let p ← p.matchToken (Token.ch '<')
      let (right, _, p) ← additiveExpression env fuel lvalue p
      let r := checkRelational env.tk (env.indeterminate p.input.length) right "<"
      relationalLoop env fuel left false (p.reported r.2)
    else if p.lookahead = Token.ch '>' then do
      let p ← p.matchToken (Token.ch '>')
      let (right, _, p) ← additiveExpression env fuel lvalue p
      let r := checkRelational env.tk (env.indeterminate p.input.length) right "<"
      relationalLoop env fuel left false (p.reported r.2)
    else if p.lookahead = Token.LEQ then do
      let p ← p.matchToken Token.LEQ
      let (right, _, p) ← additiveExpression env fuel lvalue p
      let r := checkRelational env.tk (env.indeterminate p.input.length) right "<="
      relationalLoop env fuel left false (p.reported r.2)
    else if p.lookahead = Token.GEQ then do
      let p ← p.matchToken Token.GEQ
      let (right, _, p) ← additiveExpression env fuel lvalue p
      let r := checkRelational env.tk (env.indeterminate p.input.length) right ">="
      relationalLoop env fuel left false (p.reported r.2)
    else pure (left, lvalue, p)

/-- The function `equalityExpression` (parser.cpp:524). -/
def equalityExpression (env : Env) : Nat → Bool → Parser → Except Halt (Ty × Bool × Parser)
  | 0, _, _ => Except.error Halt.fuel
  | fuel + 1, lvalue, p => do
    let (left, lvalue, p) ← relationalExpression env fuel lvalue p
    equalityLoop env fuel left lvalue p

/-- The loop `while (1)` of `equalityExpression`: here the result of the rule is
assigned to `left` (parser.cpp:532, 537). -/
def equalityLoop (env : Env) : Nat → Ty → Bool → Parser → Except Halt (Ty × Bool × Parser)
  | 0, _, _, _ => Except.error Halt.fuel
  | fuel + 1, left, lvalue, p =>
    if p.lookahead = Token.EQL then do
      let p ← p.matchToken Token.EQL
      let (right, _, p) ← relationalExpression env fuel lvalue p
      let r := checkEquality env.tk left right "=="
      equalityLoop env fuel r.1 false (p.reported r.2)
    else if p.lookahead = Token.NEQ then do
      let p ← p.matchToken Token.NEQ
      let (right, _, p) ← relationalExpression env fuel lvalue p
      let r := checkEquality env.tk left right "!="
      equalityLoop env fuel r.1 false (p.reported r.2)
    else pure (left, lvalue, p)

/-- The function `logicalAndExpression` (parser.cpp:560). -/
def logicalAndExpression (env : Env) : Nat → Bool → Parser → Except Halt (Ty × Bool × Parser)
  | 0, _, _ => Except.error Halt.fuel
  | fuel + 1, lvalue, p => do
    let (left, lvalue, p) ← equalityExpression env fuel lvalue p
    logicalAndLoop env fuel left lvalue p

/-- The loop `while (lookahead == AND)` of `logicalAndExpression`. -/
def logicalAndLoop (env : Env) : Nat → Ty → Bool → Parser → Except Halt (Ty × Bool × Parser)
  | 0, _, _, _ => Except.error Halt.fuel
  | fuel + 1, left, lvalue, p =>
    if p.lookahead = Token.AND then do
      let p ← p.matchToken Token.AND
      let (right, _, p) ← equalityExpression env fuel lvalue p
      let r := checkLogical env.tk left right "&&"
      logicalAndLoop env fuel r.1 false (p.reported r.2)
    else pure (left, lvalue, p)

/-- The function `expression` (parser.cpp:586). -/
def expression (env : Env) : Nat → Bool → Parser → Except Halt (Ty × Bool × Parser)
  | 0, _, _ => Except.error Halt.fuel
  | fuel + 1, lvalue, p => do
    let (left, lvalue, p) ← logicalAndExpression env fuel lvalue p
    expressionLoop env fuel left lvalue p

/-- The loop `while (lookahead == OR)` of `expression`. -/
def expressionLoop (env : Env) : Nat → Ty → Bool → Parser → Except Halt (Ty × Bool × Parser)
  | 0, _, _, _ => Except.error Halt.fuel
  | fuel + 1, left, lvalue, p =>
    if p.lookahead = Token.OR then do
      let p ← p.matchToken Token.OR
      let (right, _, p) ← logicalAndExpression env fuel lvalue p
      let r := checkLogical env.tk left right "||"
      expressionLoop env fuel r.1 false (p.reported r.2)
    else pure (left, lvalue, p)

end

/-! ## The parser: declarations and statements (parser.cpp:166-230, 613-708) -/

/-- The function `declarator` (parser.cpp:166).  The argument `number()` is
evaluated before `declareVariable` is called. -/
def declarator (env : Env) (typespec : Int) (p : Parser) : Except Halt Parser := do
  let (indirection, p) := pointers p
  let (name, p) ← p.identifier
  if p.lookahead = Token.ch '[' then do
    let p ← p.matchToken (Token.ch '[')
    let (length, p) ← p.number env
    let (_, p) ← p.check (declareVariable env.tk name (Ty.array typespec indirection length))
    p.matchToken (Token.ch ']')
  else do
    let (_, p) ← p.check (declareVariable env.tk name (Ty.scalar typespec indirection))
    pure p

/-- The loop `while (lookahead == ',')` of `declaration` (parser.cpp:207). -/
def declaratorList (env : Env) (typespec : Int) : Nat → Parser → Except Halt Parser
  | 0, _ => Except.error Halt.fuel
  | fuel + 1, p =>
    if p.lookahead = Token.ch ',' then do
      let p ← p.matchToken (Token.ch ',')
      let p ← declarator env typespec p
      declaratorList env typespec fuel p
    else pure p

/-- The function `declaration` (parser.cpp:199). -/
def declaration (env : Env) (fuel : Nat) (p : Parser) : Except Halt Parser := do
  let (typespec, p) ← specifier env p
  let p ← declarator env typespec p
  let p ← declaratorList env typespec fuel p
  p.matchToken (Token.ch ';')

/-- The function `declarations` (parser.cpp:226). -/
def declarations (env : Env) : Nat → Parser → Except Halt Parser
  | 0, _ => Except.error Halt.fuel
  | fuel + 1, p =>
    if isSpecifier p.lookahead then do
      let p ← declaration env fuel p
      declarations env fuel p
    else pure p

/-- The function `assignment` (parser.cpp:630). -/
def assignment (env : Env) (fuel : Nat) (lvalue : Bool) (p : Parser) :
    Except Halt (Bool × Parser) := do
  let (_, lvalue, p) ← expression env fuel lvalue p
  if p.lookahead = Token.ch '=' then do
    let p ← p.matchToken (Token.ch '=')
    let (_, lvalue, p) ← expression env fuel lvalue p
    pure (lvalue, p)
  else pure (lvalue, p)

mutual

/-- The function `statement` (parser.cpp:657). -/
def statement (env : Env) : Nat → Parser → Except Halt Parser
  | 0, _ => Except.error Halt.fuel
  | fuel + 1, p =>
    if p.lookahead = Token.ch '{' then do
      let p ← p.matchToken (Token.ch '{')
      let p := { p with checker := (openScope p.checker).2 }
      let p ← declarations env fuel p
      let p ← statements env fuel p
      let (_, p) ← p.check closeScope
      p.matchToken (Token.ch '}')
    else if p.lookahead = Token.RETURN then do
      let p ← p.matchToken Token.RETURN
      let (_, _, p) ← expression env fuel false p
      p.matchToken (Token.ch ';')
    else if p.lookahead = Token.WHILE then do
      let p ← p.matchToken Token.WHILE
      let p ← p.matchToken (Token.ch '(')
      let (_, _, p) ← expression env fuel false p
      let p ← p.matchToken (Token.ch ')')
      statement env fuel p
    else if p.lookahead = Token.FOR then do
      let p ← p.matchToken Token.FOR
      let p ← p.matchToken (Token.ch '(')
      let (lvalue, p) ← assignment env fuel false p
      let p ← p.matchToken (Token.ch ';')
      let (_, lvalue, p) ← expression env fuel lvalue p
      let p ← p.matchToken (Token.ch ';')
      let (_, p) ← assignment env fuel lvalue p
      let p ← p.matchToken (Token.ch ')')
      statement env fuel p
    else if p.lookahead = Token.IF then do
      let p ← p.matchToken Token.IF
      let p ← p.matchToken (Token.ch '(')
      let (_, _, p) ← expression env fuel false p
      let p ← p.matchToken (Token.ch ')')
      let p ← statement env fuel p
      if p.lookahead = Token.ELSE then do
        let p ← p.matchToken Token.ELSE
        statement env fuel p
      else pure p
    else do
      let (_, p) ← assignment env fuel false p
      p.matchToken (Token.ch ';')

/-- The function `statements` (parser.cpp:613). -/
def statements (env : Env) : Nat → Parser → Except Halt Parser
  | 0, _ => Except.error Halt.fuel
  | fuel + 1, p =>
    if p.lookahead ≠ Token.ch '}' then do
      let p ← statement env fuel p
      statements env fuel p
    else pure p

end

/-! ## The parser: global declarations and functions (parser.cpp:721-923) -/

/-- The function `parameter` (parser.cpp:721). -/
def parameter (env : Env) (p : Parser) : Except Halt (Ty × Parser) := do
  let (typespec, p) ← specifier env p
  let (indirection, p) := pointers p
  let (name, p) ← p.identifier
  let type := Ty.scalar typespec indirection
  let (_, p) ← p.check (declareVariable env.tk name type)
  pure (type, p)

/-- The loop `while (lookahead == ',')` of `parameters` (parser.cpp:784). -/
def remainingParameters (env : Env) : Nat → List Ty → Parser → Except Halt (List Ty × Parser)
  | 0, _, _ => Except.error Halt.fuel
  | fuel + 1, params, p =>
    if p.lookahead = Token.ch ',' then do
      let p ← p.matchToken (Token.ch ',')
      let (type, p) ← parameter env p
      remainingParameters env fuel (params ++ [type]) p
    else pure (params, p)

/-- The part of `parameters` after the first specifier (parser.cpp:777-789). -/
def parametersAfterSpecifier (env : Env) (fuel : Nat) (typespec : Int) (p : Parser) :
    Except Halt (List Ty × Parser) := do
  let (indirection, p) := pointers p
  let (name, p) ← p.identifier
  let type := Ty.scalar typespec indirection
  let (_, p) ← p.check (declareVariable env.tk name type)
  remainingParameters env fuel [type] p

/-- The function `parameters` (parser.cpp:756). -/
def parameters (env : Env) (fuel : Nat) (p : Parser) : Except Halt (List Ty × Parser) :=
  if p.lookahead = Token.VOID then do
    let p ← p.matchToken Token.VOID
    if p.lookahead = Token.ch ')' then pure ([], p)
    else parametersAfterSpecifier env fuel env.tk.VOID p
  else do
    let (typespec, p) ← specifier env p
    parametersAfterSpecifier env fuel typespec p

/-- The function `globalDeclarator` (parser.cpp:806). -/
def globalDeclarator (env : Env) (typespec : Int) (p : Parser) : Except Halt Parser := do
  let (indirection, p) := pointers p
  let (name, p) ← p.identifier
  if p.lookahead = Token.ch '(' then do
    let p ← p.matchToken (Token.ch '(')
    let (_, p) ← p.check (declareFunction name (Ty.function typespec indirection none))
    p.matchToken (Token.ch ')')
  else if p.lookahead = Token.ch '[' then do
    let p ← p.matchToken (Token.ch '[')
    let (length, p) ← p.number env
    let (_, p) ← p.check (declareVariable env.tk name (Ty.array typespec indirection length))
    p.matchToken (Token.ch ']')
  else do
    let (_, p) ← p.check (declareVariable env.tk name (Ty.scalar typespec indirection))
    pure p

/-- The function `remainingDeclarators` (parser.cpp:840). -/
def remainingDeclarators (env : Env) (typespec : Int) : Nat → Parser → Except Halt Parser
  | 0, _ => Except.error Halt.fuel
  | fuel + 1, p =>
    if p.lookahead = Token.ch ',' then do
      let p ← p.matchToken (Token.ch ',')
      let p ← globalDeclarator env typespec p
      remainingDeclarators env typespec fuel p
    else p.matchToken (Token.ch ';')

/-- The function `globalOrFunction` (parser.cpp:863).  In the definition of a
function `parameters()` is evaluated, as an argument, before `defineFunction`
is called. -/
def globalOrFunction (env : Env) (fuel : Nat) (p : Parser) : Except Halt Parser := do
  let (typespec, p) ← specifier env p
  let (indirection, p) := pointers p
  let (name, p) ← p.identifier
  if p.lookahead = Token.ch '[' then do
    let p ← p.matchToken (Token.ch '[')
    let (length, p) ← p.number env
    let (_, p) ← p.check (declareVariable env.tk name (Ty.array typespec indirection length))
    let p ← p.matchToken (Token.ch ']')
    remainingDeclarators env typespec fuel p
  else if p.lookahead = Token.ch '(' then do
    let p ← p.matchToken (Token.ch '(')
    if p.lookahead = Token.ch ')' then do
      let (_, p) ← p.check (declareFunction name (Ty.function typespec indirection none))
      let p ← p.matchToken (Token.ch ')')
      remainingDeclarators env typespec fuel p
    else do
      let p := { p with checker := (openScope p.checker).2 }
      let (params, p) ← parameters env fuel p
      let (_, p) ← p.check (defineFunction name (Ty.function typespec indirection (some params)))
      let p ← p.matchToken (Token.ch ')')
      let p ← p.matchToken (Token.ch '{')
      let p ← declarations env fuel p
      let p ← statements env fuel p
      let (_, p) ← p.check closeScope
      p.matchToken (Token.ch '}')
  else do
    let (_, p) ← p.check (declareVariable env.tk name (Ty.scalar typespec indirection))
    remainingDeclarators env typespec fuel p

/-- The loop `while (lookahead != DONE)` of `main` (parser.cpp:918). -/
def translationUnit (env : Env) (inner : Nat) : Nat → Parser → Except Halt Parser
  | 0, _ => Except.error Halt.fuel
  | fuel + 1, p =>
    if p.lookahead ≠ Token.DONE then do
      let p ← globalOrFunction env inner p
      translationUnit env inner fuel p
    else pure p

/-- The function `main` (parser.cpp:912) on the lexemes of the standard input,
started in the initial checker state: `openScope()`, the loop, `closeScope()`. -/
def main (env : Env) (fuel : Nat) (input : List Lexeme) : Except Halt Parser := do
  let p : Parser := { input := input, checker := (openScope Checker.init).2 }
  let p ← translationUnit env fuel fuel p
  let (_, p) ← p.check closeScope
  pure p

/-! ## Scope balance of parsing functions -/

/-- An expression-level parsing function leaves the scopes balanced. -/
def KeepsExpression (f : Bool → Parser → Except Halt (Ty × Bool × Parser)) : Prop :=
  ∀ (c : Checker) (lvalue : Bool) (p : Parser) (r : Ty × Bool × Parser),
    c.Balanced p.checker → f lvalue p = Except.ok r → c.Balanced r.2.2.checker

/-- The loop of an expression level leaves the scopes balanced. -/
def KeepsLoop (f : Ty → Bool → Parser → Except Halt (Ty × Bool × Parser)) : Prop :=
  ∀ (c : Checker) (left : Ty) (lvalue : Bool) (p : Parser) (r : Ty × Bool × Parser),
    c.Balanced p.checker → f left lvalue p = Except.ok r → c.Balanced r.2.2.checker

/-- The argument loop of a call leaves the scopes balanced. -/
def KeepsArguments (f : List Ty → Parser → Except Halt (List Ty × Bool × Parser)) : Prop :=
  ∀ (c : Checker) (params : List Ty) (p : Parser) (r : List Ty × Bool × Parser),
    c.Balanced p.checker → f params p = Except.ok r → c.Balanced r.2.2.checker

/-- A statement-level parsing function leaves the scopes balanced, provided the
outermost scope exists. -/
def KeepsScopes (f : Parser → Except Halt Parser) : Prop :=
  ∀ (c : Checker) (p r : Parser),
    c.outermost ≠ none → c.Balanced p.checker → f p = Except.ok r → c.Balanced r.checker

/-! ## Sample programs -/

/-- An environment with the sample token codes. -/
def sampleEnv (strtoul : String → Nat) (indeterminate : Nat → Ty) : Env :=
  { tk := sampleTokens, strtoul := strtoul, indeterminate := indeterminate }

/-- The lexemes of `* p + 1 ; }`. -/
def rightHandSide : List Lexeme :=
  [⟨Token.ch '*', "*"⟩, ⟨Token.ID, "p"⟩, ⟨Token.ch '+', "+"⟩, ⟨Token.NUM, "1"⟩,
   ⟨Token.ch ';', ";"⟩, ⟨Token.ch '}', "\x7d"⟩]

/-- The lexemes of `a = * p + 1 ; }`. -/
def assignmentStatement : List Lexeme :=
  ⟨Token.ID, "a"⟩ :: ⟨Token.ch '=', "="⟩ :: rightHandSide

/-- The lexemes of `int f ( void ) { a = * p + 1 ; }`. -/
def functionDefinition : List Lexeme :=
  ⟨Token.INT, "int"⟩ :: ⟨Token.ID, "f"⟩ :: ⟨Token.ch '(', "("⟩ :: ⟨Token.VOID, "void"⟩ ::
  ⟨Token.ch ')', ")"⟩ :: ⟨Token.ch '{', "\x7b"⟩ :: assignmentStatement

/-- The lexemes of `int * p ;` followed by the function definition. -/
def secondDeclaration : List Lexeme :=
  ⟨Token.INT, "int"⟩ :: ⟨Token.ch '*', "*"⟩ :: ⟨Token.ID, "p"⟩ :: ⟨Token.ch ';', ";"⟩ ::
  functionDefinition

/-- The lexemes of the translation unit
`int a; int *p; int f(void) { a = *p + 1; }`. -/
def translationUnitInput : List Lexeme :=
  ⟨Token.INT, "int"⟩ :: ⟨Token.ID, "a"⟩ :: ⟨Token.ch ';', ";"⟩ :: secondDeclaration

/-- The checker state after `int a;` at file level. -/
def afterFirstDeclaration : Checker :=
  { scopes := [{ enclosing := none,
                 symbols := [⟨"a", Ty.scalar sampleTokens.INT 0⟩] }],
    outermost := some 0, toplevel := some 0, reports := [],
    printed := [("a", Ty.scalar sampleTokens.INT 0)] }

/-- The checker state after `int a; int *p;` at file level. -/
def globalsState : Checker :=
  { scopes := [{ enclosing := none,
                 symbols := [⟨"a", Ty.scalar sampleTokens.INT 0⟩,
                             ⟨"p", Ty.scalar sampleTokens.INT 1⟩] }],
    outermost := some 0, toplevel := some 0, reports := [],
    printed := [("a", Ty.scalar sampleTokens.INT 0), ("p", Ty.scalar sampleTokens.INT 1)] }

/-- The checker state in the body of `int f(void)` after `int a; int *p;`. -/
def bodyState : Checker :=
  { scopes := [{ enclosing := none,
                 symbols := [⟨"a", Ty.scalar sampleTokens.INT 0⟩,
                             ⟨"p", Ty.scalar sampleTokens.INT 1⟩,
                             ⟨"f", Ty.function sampleTokens.INT 0 (some [])⟩] },
               { enclosing := some 0, symbols := [] }],
    outermost := some 0, toplevel := some 1, reports := [],
    printed := [("a", Ty.scalar sampleTokens.INT 0), ("p", Ty.scalar sampleTokens.INT 1),
                ("f", Ty.function sampleTokens.INT 0 (some []))] }

/-- A checker state inside a function body where `a` is an `int`, `p` and `q`
are `int *` and `b` is a function declared `int b()`. -/
def pointerState : Checker :=
  { scopes := [{ enclosing := none,
                 symbols := [⟨"a", Ty.scalar sampleTokens.INT 0⟩,
                             ⟨"p", Ty.scalar sampleTokens.INT 1⟩,
                             ⟨"q", Ty.scalar sampleTokens.INT 1⟩,
                             ⟨"b", Ty.function sampleTokens.INT 0 none⟩] },
               { enclosing := some 0, symbols := [] }],
    outermost := some 0, toplevel := some 1, reports := [], printed := [] }

/-- The lexemes of `p - q ;`. -/
def pointerDifference : List Lexeme :=
  [⟨Token.ID, "p"⟩, ⟨Token.ch '-', "-"⟩, ⟨Token.ID, "q"⟩, ⟨Token.ch ';', ";"⟩]

/-- The lexemes of `p - q - a ;`. -/
def differenceChain : List Lexeme :=
  [⟨Token.ID, "p"⟩, ⟨Token.ch '-', "-"⟩, ⟨Token.ID, "q"⟩, ⟨Token.ch '-', "-"⟩,
   ⟨Token.ID, "a"⟩, ⟨Token.ch ';', ";"⟩]

/-- The lexemes of `p < q ;`. -/
def pointerComparison : List Lexeme :=
  [⟨Token.ID, "p"⟩, ⟨Token.ch '<', "<"⟩, ⟨Token.ID, "q"⟩, ⟨Token.ch ';', ";"⟩]

/-- The lexemes of `p * a ;`. -/
def pointerProduct : List Lexeme :=
  [⟨Token.ID, "p"⟩, ⟨Token.ch '*', "*"⟩, ⟨Token.ID, "a"⟩, ⟨Token.ch ';', ";"⟩]

/-- The lexemes of `a > b ;`. -/
def greaterThan : List Lexeme :=
  [⟨Token.ID, "a"⟩, ⟨Token.ch '>', ">"⟩, ⟨Token.ID, "b"⟩, ⟨Token.ch ';', ";"⟩]

/-- The lexemes of `b ( ) ;`. -/
def callNoArguments : List Lexeme :=
  [⟨Token.ID, "b"⟩, ⟨Token.ch '(', "("⟩, ⟨Token.ch ')', ")"⟩, ⟨Token.ch ';', ";"⟩]

/-- The lexemes of `& b ( ) ;`. -/
def addressOfCall : List Lexeme := ⟨Token.ch '&', "&"⟩ :: callNoArguments

/-- The lexemes of `& b ( a ) ;`. -/
def addressOfCallWithArgument : List Lexeme :=
  [⟨Token.ch '&', "&"⟩, ⟨Token.ID, "b"⟩, ⟨Token.ch '(', "("⟩, ⟨Token.ID, "a"⟩,
   ⟨Token.ch ')', ")"⟩, ⟨Token.ch ';', ";"⟩]

/-- The lexemes of `! b ( ) ;`. -/
def notCall : List Lexeme := ⟨Token.ch '!', "!"⟩ :: callNoArguments

/-- The lexemes of `- b ( ) ;`. -/
def negatedCall : List Lexeme := ⟨Token.ch '-', "-"⟩ :: callNoArguments

/-- The lexemes of the compound statement `{ int x ; }`. -/
def compoundStatement : List Lexeme :=
  [⟨Token.ch '{', "\x7b"⟩, ⟨Token.INT, "int"⟩, ⟨Token.ID, "x"⟩, ⟨Token.ch ';', ";"⟩,
   ⟨Token.ch '}', "\x7d"⟩]

/-- The checker state after the compound statement `{ int x ; }` parsed in
`bodyState`: the scope of the block, which binds `x`, is in the store but not
on the chain of the top-level scope. -/
def afterCompound : Checker :=
  { bodyState with
    scopes := bodyState.scopes ++
      [{ enclosing := some 1, symbols := [⟨"x", Ty.scalar sampleTokens.INT 0⟩] }],
    printed := bodyState.printed ++ [("x", Ty.scalar sampleTokens.INT 0)] }

/-! ## Facts about the type model -/

theorem Ty.isPointer_isInteger (tk : Tokens) (t : Ty) (hp : t.isPointer = true) :
    t.isInteger tk = false := by
  cases t with
  | mk s i l p k =>
    simp only [Ty.isPointer, Ty.isInteger, Ty.indirection, Ty.kind, Ty.specifier,
      Bool.or_eq_true, decide_eq_true_eq] at hp ⊢
    rcases hp with h | h
    · have : i ≠ 0 := by omega
      simp [this]
    · simp [h]

theorem Ty.scalar_ne_error (s : Int) (i : Nat) : Ty.scalar s i ≠ Ty.error := by
  intro h
  simp [Ty.scalar, Ty.error] at h

theorem Ty.promote_kind_ne_array (tk : Tokens) (t : Ty) :
    (t.promote tk).kind ≠ Kind.ARRAY := by
  unfold Ty.promote
  split_ifs with h1 h2
  · simp [Ty.scalar, Ty.kind]
  · simp [Ty.scalar, Ty.kind]
  · exact h1

theorem Ty.promote_indirection_lt (tk : Tokens) (t : Ty) (h : t.indirection < Ty.UMAX) :
    (t.promote tk).indirection < Ty.UMAX := by
  unfold Ty.promote
  split_ifs with h1 h2
  · simp only [Ty.scalar, Ty.indirection]
    exact Nat.mod_lt _ (by decide)
  · simp [Ty.scalar, Ty.indirection, Ty.UMAX]
  · exact h

theorem Ty.promote_isPointer_pos (tk : Tokens) (t : Ty)
    (h : (t.promote tk).isPointer = true) : 0 < (t.promote tk).indirection := by
  have hk := Ty.promote_kind_ne_array tk t
  simp only [Ty.isPointer, Bool.or_eq_true, decide_eq_true_eq] at h
  rcases h with h | h
  · exact h
  · exact absurd h hk

theorem Ty.promote_error (tk : Tokens) : Ty.error.promote tk = Ty.error := by
  simp [Ty.promote, Ty.error, Ty.kind]

theorem Ty.isInteger_error (tk : Tokens) : Ty.error.isInteger tk = false := by
  simp [Ty.isInteger, Ty.error, Ty.kind]

theorem Ty.isPointer_error : Ty.error.isPointer = false := by
  simp [Ty.isPointer, Ty.error, Ty.kind, Ty.indirection]

theorem Ty.isValue_error : Ty.error.isValue = false := by
  simp [Ty.isValue, Ty.error, Ty.kind]

theorem Ty.promote_scalar_int (tk : Tokens) (i : Nat) :
    (Ty.scalar tk.INT i).promote tk = Ty.scalar tk.INT i := by
  unfold Ty.promote
  split_ifs with h1 h2
  · simp [Ty.scalar, Ty.kind] at h1
  · have : i = 0 := by simpa [Ty.scalar, Ty.indirection] using h2.2.2
    rw [this]
  · rfl

theorem Ty.promote_scalar_char_zero (tk : Tokens) :
    (Ty.scalar tk.CHAR 0).promote tk = Ty.scalar tk.INT 0 := by
  simp [Ty.promote, Ty.scalar, Ty.kind, Ty.indirection, Ty.specifier]

/-! ## The additive rule -/

/-- C1: with `l = left.promote()` and `r = right.promote()`, `checkAdditive`
returns `Type(l.specifier, l.indirection)` when `l` is a non-void pointer and
`r` an integer, `Type(Int)` when `l` is a non-void pointer, the operator is
`-` and `r` is a pointer with the specifier of `l`, `Type(Int)` when both are
integers, `Type(r.specifier, r.indirection)` when `l` is an integer, the
operator is `+` and `r` is a non-void pointer, all without a diagnostic; in
every other case it returns the error type and reports one
"invalid operands to binary op".  `(Int,1) + (Int,0)` is `(Int,1)`,
`(Int,1) - (Int,1)` is `(Int,0)` and `(Int,1) - (Char,1)` fails. -/
theorem checkAdditive_cases (tk : Tokens) (hd : tk.Distinct) (left right : Ty) (op : String)
    (l r : Ty)
    (hl : l = left.promote tk) (hr : r = right.promote tk) :
    (l.isPointer = true ∧ l.specifier ≠ tk.VOID ∧ r.isInteger tk = true →
      checkAdditive tk left right op = (Ty.scalar l.specifier l.indirection, [])) ∧
    (l.isPointer = true ∧ l.specifier ≠ tk.VOID ∧ op = "-" ∧ r.isPointer = true ∧
        r.specifier = l.specifier →
      checkAdditive tk left right op = (Ty.scalar tk.INT 0, [])) ∧
    (l.isInteger tk = true ∧ r.isInteger tk = true →
      checkAdditive tk left right op = (Ty.scalar tk.INT 0, [])) ∧
    (l.isInteger tk = true ∧ op = "+" ∧ r.isPointer = true ∧ r.specifier ≠ tk.VOID →
      checkAdditive tk left right op = (Ty.scalar r.specifier r.indirection, [])) ∧
    (¬ (l.isPointer = true ∧ l.specifier ≠ tk.VOID ∧ r.isInteger tk = true) ∧
      ¬ (l.isPointer = true ∧ l.specifier ≠ tk.VOID ∧ op = "-" ∧ r.isPointer = true ∧
          r.specifier = l.specifier) ∧
      ¬ (l.isInteger tk = true ∧ r.isInteger tk = true) ∧
      ¬ (l.isInteger tk = true ∧ op = "+" ∧ r.isPointer = true ∧ r.specifier ≠ tk.VOID) →
      checkAdditive tk left right op = (Ty.error, [report bad_binary op])) ∧
    checkAdditive tk (Ty.scalar tk.INT 1) (Ty.scalar tk.INT 0) "+" = (Ty.scalar tk.INT 1, []) ∧
    checkAdditive tk (Ty.scalar tk.INT 1) (Ty.scalar tk.INT 1) "-" = (Ty.scalar tk.INT 0, []) ∧
    checkAdditive tk (Ty.scalar tk.INT 1) (Ty.scalar tk.CHAR 1) "-" =
      (Ty.error, [report bad_binary "-"]) := by
  obtain ⟨hic, hiv, hcv, hi0, hc0, hv0⟩ := hd
  subst hl hr
  refine ⟨?_, ?_, ?_, ?_, ?_, ?_, ?_, ?_⟩
  · rintro ⟨h1, h2, h3⟩
    simp [checkAdditive, h1, h2, h3]
  · rintro ⟨h1, h2, h3, h4, h5⟩
    have h6 := Ty.isPointer_isInteger tk _ h4
    simp [checkAdditive, h1, h2, h3, h4, h5, h6]
  · rintro ⟨h1, h2⟩
    have h3 : (left.promote tk).isPointer = false := by
      cases h : (left.promote tk).isPointer
      · rfl
      · rw [Ty.isPointer_isInteger tk _ h] at h1; cases h1
    simp [checkAdditive, h1, h2, h3]
  · rintro ⟨h1, h2, h3, h4⟩
    have h5 : (left.promote tk).isPointer = false := by
      cases h : (left.promote tk).isPointer
      · rfl
      · rw [Ty.isPointer_isInteger tk _ h] at h1; cases h1
    have h6 := Ty.isPointer_isInteger tk _ h3
    simp [checkAdditive, h1, h2, h3, h4, h5, h6]
  · rintro ⟨n1, n2, n3, n4⟩
    unfold checkAdditive
    simp only []
    split_ifs with a b c d e f <;> simp_all
  · simp [checkAdditive, Ty.promote, Ty.scalar, Ty.kind, Ty.specifier, Ty.indirection,
      Ty.isPointer, Ty.isInteger, hiv]
  · simp [checkAdditive, Ty.promote, Ty.scalar, Ty.kind, Ty.specifier, Ty.indirection,
      Ty.isPointer, Ty.isInteger, hiv]
  · simp [checkAdditive, Ty.promote, Ty.scalar, Ty.kind, Ty.specifier, Ty.indirection,
      Ty.isPointer, Ty.isInteger, hiv, hic, Ne.symm hic, Ty.error]

theorem checkAdditive_cases_witness :
    checkAdditive sampleTokens (Ty.array 259 0 5) (Ty.scalar 259 0) "-" = (Ty.scalar 259 1, []) :=
  (checkAdditive_cases sampleTokens (by decide) (Ty.array 259 0 5) (Ty.scalar 259 0) "-"
    _ _ rfl rfl).1 ⟨by rfl, by decide, by rfl⟩

/-! ## Subscript, dereference and address-of -/

theorem checkPostfix_success (tk : Tokens) (operand index : Ty)
    (h : (checkPostfix tk operand index).1 ≠ Ty.error) :
    (checkPostfix tk operand index).1 = operand.promote tk ∧
    0 < (checkPostfix tk operand index).1.indirection := by
  unfold checkPostfix at h ⊢
  simp only [] at h ⊢
  split_ifs at h ⊢ with hc
  · simp only [Bool.and_eq_true] at hc
    exact ⟨rfl, Ty.promote_isPointer_pos tk operand hc.1.1⟩
  · exact absurd rfl h

/-- C2: evaluation of `checkPostfix` where the claim fails.  Subscripting an
`int *` (or an `int[5]` array) with an `int` returns the promoted operand
`Type(Int,1)` itself, without a diagnostic, and not the pointed-to type
`Type(Int,0)`. -/
theorem checkPostfix_returns_operand :
    checkPostfix sampleTokens (Ty.scalar sampleTokens.INT 1) (Ty.scalar sampleTokens.INT 0) =
      (Ty.scalar sampleTokens.INT 1, []) ∧
    checkPostfix sampleTokens (Ty.array sampleTokens.INT 0 5) (Ty.scalar sampleTokens.INT 0) =
      (Ty.scalar sampleTokens.INT 1, []) ∧
    (checkPostfix sampleTokens (Ty.scalar sampleTokens.INT 1) (Ty.scalar sampleTokens.INT 0)).1 ≠
      Ty.scalar sampleTokens.INT 0 := by
  refine ⟨by rfl, by rfl, ?_⟩
  intro h
  simp [checkPostfix, Ty.promote, Ty.scalar, Ty.kind, Ty.specifier, Ty.indirection,
    Ty.isPointer, sampleTokens] at h

theorem checkDeref_of_pointer (tk : Tokens) (operand : Ty) (lvalue : Bool)
    (hr : operand.InRange)
    (hp : (operand.promote tk).isPointer = true ∧ (operand.promote tk).specifier ≠ tk.VOID) :
    checkDeref tk operand lvalue =
      (Ty.scalar (operand.promote tk).specifier ((operand.promote tk).indirection - 1),
        true, []) ∧ 1 ≤ (operand.promote tk).indirection := by
  obtain ⟨h1, h2⟩ := hp
  have hpos := Ty.promote_isPointer_pos tk operand h1
  have hlt := Ty.promote_indirection_lt tk operand hr.1
  have harith : ((operand.promote tk).indirection + Ty.UMAX - 1) % Ty.UMAX =
      (operand.promote tk).indirection - 1 := by
    unfold Ty.UMAX at hlt ⊢
    omega
  refine ⟨?_, hpos⟩
  simp [checkDeref, h1, h2, harith]

theorem checkDeref_of_not_pointer (tk : Tokens) (operand : Ty) (lvalue : Bool)
    (hp : ¬ ((operand.promote tk).isPointer = true ∧ (operand.promote tk).specifier ≠ tk.VOID)) :
    checkDeref tk operand lvalue = (Ty.error, lvalue, [report bad_unary "*"]) := by
  unfold checkDeref
  simp only []
  split_ifs with hc
  · simp only [Bool.and_eq_true, decide_eq_true_eq] at hc
    exact absurd hc hp
  · rfl

/-- C3: `checkDeref` succeeds exactly when `operand.promote()` is a pointer
whose specifier is not `Void`; then it returns `Type(s, n-1)` for the promoted
specifier `s` and indirection `n`, sets the lvalue flag and reports nothing;
otherwise it returns the error type and reports one
"invalid operand to unary *".  On `Type(Int,2)` the result is `Type(Int,1)`
with the flag set, on `Type(Int,0)` the error type. -/
theorem checkDeref_cases (tk : Tokens) (hd : tk.Distinct) (operand : Ty) (lvalue : Bool)
    (hr : operand.InRange) (o : Ty) (ho : o = operand.promote tk) :
    (o.isPointer = true ∧ o.specifier ≠ tk.VOID →
      checkDeref tk operand lvalue = (Ty.scalar o.specifier (o.indirection - 1), true, []) ∧
      1 ≤ o.indirection) ∧
    (¬ (o.isPointer = true ∧ o.specifier ≠ tk.VOID) →
      checkDeref tk operand lvalue = (Ty.error, lvalue, [report bad_unary "*"])) ∧
    ((checkDeref tk operand lvalue).1 ≠ Ty.error ↔
      (o.isPointer = true ∧ o.specifier ≠ tk.VOID)) ∧
    checkDeref tk (Ty.scalar tk.INT 2) lvalue = (Ty.scalar tk.INT 1, true, []) ∧
    checkDeref tk (Ty.scalar tk.INT 0) lvalue = (Ty.error, lvalue, [report bad_unary "*"]) := by
  obtain ⟨hic, hiv, hcv, hi0, hc0, hv0⟩ := hd
  subst ho
  refine ⟨checkDeref_of_pointer tk operand lvalue hr,
    checkDeref_of_not_pointer tk operand lvalue, ?_, ?_, ?_⟩
  · constructor
    · intro hne
      by_contra hc
      rw [checkDeref_of_not_pointer tk operand lvalue hc] at hne
      exact hne rfl
    · intro hc
      rw [(checkDeref_of_pointer tk operand lvalue hr hc).1]
      exact Ty.scalar_ne_error _ _
  · have hp : (Ty.scalar tk.INT 2).promote tk = Ty.scalar tk.INT 2 := by
      simp [Ty.promote, Ty.scalar, Ty.kind, Ty.indirection]
    have hin : (Ty.scalar tk.INT 2).InRange := by
      simp [Ty.InRange, Ty.scalar, Ty.indirection, Ty.length, Ty.UMAX]
    have h := (checkDeref_of_pointer tk (Ty.scalar tk.INT 2) lvalue hin
      (by rw [hp]; simp [Ty.isPointer, Ty.scalar, Ty.indirection, Ty.specifier, hiv])).1
    rw [hp] at h
    exact h
  · have hp : (Ty.scalar tk.INT 0).promote tk = Ty.scalar tk.INT 0 := by
      simp [Ty.promote, Ty.scalar, Ty.kind, Ty.indirection, Ty.specifier]
    exact checkDeref_of_not_pointer tk (Ty.scalar tk.INT 0) lvalue
      (by rw [hp]; simp [Ty.isPointer, Ty.scalar, Ty.indirection, Ty.kind])

theorem checkDeref_cases_witness :
    checkDeref sampleTokens (Ty.array 259 1 8) false = (Ty.scalar 259 1, true, []) ∧
    1 ≤ ((Ty.array 259 1 8).promote sampleTokens).indirection :=
  (checkDeref_cases sampleTokens (by decide) (Ty.array 259 1 8) false (by decide) _ rfl).1
    ⟨by rfl, by decide⟩

/-- C4: called with the lvalue flag false, `checkAddr` returns the error type,
reports "invalid operand to unary &" and leaves the flag false; called with
the flag true it returns `Type(operand.specifier, operand.indirection + 1)`
(an `unsigned` addition on the unpromoted operand), reports nothing and clears
the flag. -/
theorem checkAddr_cases (operand : Ty) :
    checkAddr operand false = (Ty.error, false, [report bad_unary "&"]) ∧
    checkAddr operand true =
      (Ty.scalar operand.specifier ((operand.indirection + 1) % Ty.UMAX), false, []) ∧
    (operand.indirection + 1 < Ty.UMAX →
      checkAddr operand true =
        (Ty.scalar operand.specifier (operand.indirection + 1), false, [])) := by
  refine ⟨by simp [checkAddr], by simp [checkAddr], ?_⟩
  intro h
  simp [checkAddr, Nat.mod_eq_of_lt h]

theorem checkAddr_cases_witness :
    checkAddr (Ty.array 259 0 4) true = (Ty.scalar 259 1, false, []) :=
  (checkAddr_cases (Ty.array 259 0 4)).2.2 (by decide)

/-! ## Multiplicative, relational and equality rules -/

/-- C5: `checkMultiplicative` returns `left` itself, unpromoted, and reports
nothing when `left.promote()` and `right.promote()` are both integers (so
`Char * Int` has type `Char`); otherwise it returns the error type and reports
one "invalid operands to binary op". -/
theorem checkMultiplicative_cases (tk : Tokens) (left right : Ty) (op : String) :
    (((left.promote tk).isInteger tk = true ∧ (right.promote tk).isInteger tk = true) →
      checkMultiplicative tk left right op = (left, [])) ∧
    (¬ ((left.promote tk).isInteger tk = true ∧ (right.promote tk).isInteger tk = true) →
      checkMultiplicative tk left right op = (Ty.error, [report bad_binary op])) ∧
    checkMultiplicative tk (Ty.scalar tk.CHAR 0) (Ty.scalar tk.INT 0) op =
      (Ty.scalar tk.CHAR 0, []) := by
  refine ⟨?_, ?_, ?_⟩
  · rintro ⟨h1, h2⟩
    simp [checkMultiplicative, h1, h2]
  · intro h
    unfold checkMultiplicative
    split_ifs with hc
    · simp only [Bool.and_eq_true] at hc
      exact absurd hc h
    · rfl
  · have h1 : ((Ty.scalar tk.CHAR 0).promote tk).isInteger tk = true := by
      rw [Ty.promote_scalar_char_zero]
      simp [Ty.scalar, Ty.kind, Ty.indirection, Ty.specifier, Ty.isInteger]
    have h2 : ((Ty.scalar tk.INT 0).promote tk).isInteger tk = true := by
      rw [Ty.promote_scalar_int]
      simp [Ty.scalar, Ty.kind, Ty.indirection, Ty.specifier, Ty.isInteger]
    simp [checkMultiplicative, h1, h2]

theorem checkMultiplicative_cases_witness :
    checkMultiplicative sampleTokens (Ty.scalar 259 0) (Ty.scalar 273 0) "%" =
      (Ty.scalar 259 0, []) :=
  (checkMultiplicative_cases sampleTokens (Ty.scalar 259 0) (Ty.scalar 273 0) "%").1
    ⟨by rfl, by rfl⟩

/-- C6: `checkRelational` returns `Type(Int)` and reports nothing exactly when
`left.promote()` and `right.promote()` are both value types with the same
specifier (indirection is not compared); in every other case it returns the
error type and reports one "invalid operands to binary op". -/
theorem checkRelational_cases (tk : Tokens) (left right : Ty) (op : String) :
    (checkRelational tk left right op = (Ty.scalar tk.INT 0, []) ↔
      ((left.promote tk).isValue = true ∧ (right.promote tk).isValue = true ∧
        (left.promote tk).specifier = (right.promote tk).specifier)) ∧
    (¬ ((left.promote tk).isValue = true ∧ (right.promote tk).isValue = true ∧
        (left.promote tk).specifier = (right.promote tk).specifier) →
      checkRelational tk left right op = (Ty.error, [report bad_binary op])) ∧
    checkRelational tk (Ty.scalar tk.INT 2) (Ty.scalar tk.INT 0) op =
      (Ty.scalar tk.INT 0, []) := by
  have hfail : ¬ ((left.promote tk).isValue = true ∧ (right.promote tk).isValue = true ∧
        (left.promote tk).specifier = (right.promote tk).specifier) →
      checkRelational tk left right op = (Ty.error, [report bad_binary op]) := by
    intro h
    unfold checkRelational
    simp only []
    split_ifs with hc
    · simp only [Bool.and_eq_true, decide_eq_true_eq] at hc
      exact absurd ⟨hc.1.1, hc.1.2, hc.2⟩ h
    · rfl
  refine ⟨⟨?_, ?_⟩, hfail, ?_⟩
  · intro h
    by_contra hc
    rw [hfail hc] at h
    have := congrArg Prod.fst h
    exact Ty.scalar_ne_error _ _ this.symm
  · rintro ⟨h1, h2, h3⟩
    simp [checkRelational, h1, h2, h3]
  · simp only [checkRelational, Ty.promote_scalar_int]
    simp [Ty.isValue, Ty.scalar, Ty.kind, Ty.specifier]

theorem checkRelational_cases_witness :
    checkRelational sampleTokens (Ty.scalar 285 0) (Ty.scalar 259 1) "<" =
      (Ty.error, [report bad_binary "<"]) :=
  (checkRelational_cases sampleTokens (Ty.scalar 285 0) (Ty.scalar 259 1) "<").2.1
    (by decide)

/-- C7: `checkEquality` returns `Type(Int)` and reports nothing exactly when
`left.isCompatibleWith(right)`, that is when both are value types whose
promotions have the same specifier and the same indirection; otherwise it
returns the error type and reports one "invalid operands to binary op". -/
theorem checkEquality_cases (tk : Tokens) (left right : Ty) (op : String) :
    (checkEquality tk left right op = (Ty.scalar tk.INT 0, []) ↔
      left.isCompatibleWith tk right = true) ∧
    (left.isCompatibleWith tk right = true ↔
      (left.isValue = true ∧ right.isValue = true ∧
        (left.promote tk).specifier = (right.promote tk).specifier ∧
        (left.promote tk).indirection = (right.promote tk).indirection)) ∧
    (¬ (left.isCompatibleWith tk right = true) →
      checkEquality tk left right op = (Ty.error, [report bad_binary op])) := by
  have hfail : ¬ (left.isCompatibleWith tk right = true) →
      checkEquality tk left right op = (Ty.error, [report bad_binary op]) := by
    intro h
    simp [checkEquality, h]
  refine ⟨⟨?_, ?_⟩, ?_, hfail⟩
  · intro h
    by_contra hc
    rw [hfail hc] at h
    have := congrArg Prod.fst h
    exact Ty.scalar_ne_error _ _ this.symm
  · intro h
    simp [checkEquality, h]
  · simp [Ty.isCompatibleWith, and_assoc]

theorem checkEquality_cases_witness :
    checkEquality sampleTokens (Ty.scalar 273 1) (Ty.scalar 259 1) "==" =
      (Ty.error, [report bad_binary "=="]) :=
  (checkEquality_cases sampleTokens (Ty.scalar 273 1) (Ty.scalar 259 1) "==").2.2
    (by decide)

/-! ## Propagation of the error type -/

/-- C8, where the claim fails: called on the error type with the lvalue flag
true, `checkAddr` returns the scalar `Type(0, 1)`, which is not the error
type, and reports nothing. -/
theorem checkAddr_error_lvalue :
    checkAddr Ty.error true = (Ty.scalar 0 1, false, []) ∧
    (checkAddr Ty.error true).1 ≠ Ty.error ∧
    (checkAddr Ty.error true).2.2 = [] := by
  refine ⟨by rfl, ?_, by rfl⟩
  intro h
  simp [checkAddr, Ty.scalar, Ty.error, Ty.specifier, Ty.indirection] at h

/-- C8 as amended: for each of `checkMultiplicative`, `checkAdditive`,
`checkRelational`, `checkEquality`, `checkLogical`, `checkPostfix`,
`checkDeref`, `checkNot`, `checkNeg` and `checkSizeof`, whatever the other
operand, the operator spelling and the incoming lvalue flag, an operand of the
error type makes the rule return the error type and report one diagnostic;
`checkAddr` does so when the incoming lvalue flag is false. -/
theorem error_sticky (tk : Tokens) (h0 : tk.INT ≠ 0) (other : Ty) (op : String)
    (lvalue : Bool) :
    checkMultiplicative tk Ty.error other op = (Ty.error, [report bad_binary op]) ∧
    checkMultiplicative tk other Ty.error op = (Ty.error, [report bad_binary op]) ∧
    checkAdditive tk Ty.error other op = (Ty.error, [report bad_binary op]) ∧
    checkAdditive tk other Ty.error op = (Ty.error, [report bad_binary op]) ∧
    checkRelational tk Ty.error other op = (Ty.error, [report bad_binary op]) ∧
    checkRelational tk other Ty.error op = (Ty.error, [report bad_binary op]) ∧
    checkEquality tk Ty.error other op = (Ty.error, [report bad_binary op]) ∧
    checkEquality tk other Ty.error op = (Ty.error, [report bad_binary op]) ∧
    checkLogical tk Ty.error other op = (Ty.error, [report bad_binary op]) ∧
    checkLogical tk other Ty.error op = (Ty.error, [report bad_binary op]) ∧
    checkPostfix tk Ty.error other = (Ty.error, [report bad_binary "[]"]) ∧
    checkPostfix tk other Ty.error = (Ty.error, [report bad_binary "[]"]) ∧
    checkDeref tk Ty.error lvalue = (Ty.error, lvalue, [report bad_unary "*"]) ∧
    checkAddr Ty.error false = (Ty.error, false, [report bad_unary "&"]) ∧
    checkNot tk Ty.error lvalue = (Ty.error, false, [report bad_unary "!"]) ∧
    checkNeg tk Ty.error lvalue = (Ty.error, false, [report bad_unary "-"]) ∧
    checkSizeof tk Ty.error lvalue = (Ty.error, false, [report bad_unary "sizeof"]) := by
  have hs : Ty.error.specifier = 0 := rfl
  refine ⟨?_, ?_, ?_, ?_, ?_, ?_, ?_, ?_, ?_, ?_, ?_, ?_, ?_, ?_, ?_, ?_, ?_⟩
  · simp [checkMultiplicative, Ty.promote_error, Ty.isInteger_error]
  · simp [checkMultiplicative, Ty.promote_error, Ty.isInteger_error]
  · simp [checkAdditive, Ty.promote_error, Ty.isInteger_error, Ty.isPointer_error]
  · unfold checkAdditive
    simp only [Ty.promote_error, Ty.isInteger_error, Ty.isPointer_error]
    split_ifs <;> simp_all
  · simp [checkRelational, Ty.promote_error, Ty.isValue_error]
  · simp [checkRelational, Ty.promote_error, Ty.isValue_error]
  · simp [checkEquality, Ty.isCompatibleWith, Ty.isValue_error]
  · simp [checkEquality, Ty.isCompatibleWith, Ty.isValue_error]
  · simp [checkLogical, Ty.promote_error, Ty.isValue_error]
  · simp [checkLogical, Ty.promote_error, Ty.isValue_error]
  · simp [checkPostfix, Ty.promote_error, Ty.isPointer_error]
  · simp [checkPostfix, Ty.promote_error, hs, Ne.symm h0]
  · simp [checkDeref, Ty.promote_error, Ty.isPointer_error]
  · simp [checkAddr]
  · simp [checkNot, Ty.isValue_error]
  · simp [checkNeg, Ty.promote_error, Ty.isInteger_error]
  · simp [checkSizeof, Ty.isValue_error]

theorem error_sticky_witness :
    checkPostfix sampleTokens (Ty.scalar 273 1) Ty.error =
      (Ty.error, [report bad_binary "[]"]) :=
  (error_sticky sampleTokens (by decide) (Ty.scalar 273 1) "+" true).2.2.2.2.2.2.2.2.2.2.2.1

/-! ## Declaring variables -/

theorem Scope.find_insert_of_find_none (sc : Scope) (symbol : Symbol)
    (h : sc.find symbol.name = none) : (sc.insert symbol).find symbol.name = some symbol := by
  unfold Scope.find at h ⊢
  simp [Scope.insert, List.find?_append, h]

theorem declareVariable_of_find_some (tk : Tokens) (name : String) (type : Ty) (st : Checker)
    (top : Nat) (sc : Scope) (symbol : Symbol)
    (htop : st.toplevel = some top) (hsc : st.scopes[top]? = some sc)
    (hfind : sc.find name = some symbol) :
    ∃ st', declareVariable tk name type st = some (symbol, st') ∧
      st'.scopes = st.scopes ∧ st'.toplevel = st.toplevel ∧ st'.outermost = st.outermost ∧
      st'.reports = st.reports ++
        (if st.outermost ≠ st.toplevel then [report redeclared name]
         else if type.ne symbol.type = true then [report conflicting name]
         else []) := by
  by_cases h1 : st.outermost = st.toplevel
  · by_cases h2 : type.ne symbol.type = true
    · refine ⟨(st.print name type).report conflicting name, ?_, rfl, rfl, rfl, ?_⟩
      · simp [declareVariable, Checker.print, htop, hsc, hfind, h2, ← h1]
        simp [h1, htop]
      · simp [Checker.report, Checker.print, h1, h2]
    · refine ⟨st.print name type, ?_, rfl, rfl, rfl, ?_⟩
      · simp [declareVariable, Checker.print, htop, hsc, hfind, h2, ← h1]
        simp [h1, htop]
      · simp [Checker.print, h1, h2]
  · refine ⟨(st.print name type).report redeclared name, ?_, rfl, rfl, rfl, ?_⟩
    · rw [htop] at h1
      simp [declareVariable, Checker.print, htop, hsc, hfind, h1]
    · simp [Checker.report, Checker.print, h1]

/-- C9: when `name` is already bound in the current top-level scope,
`declareVariable(name, type)` reports exactly "redeclaration of 'name'" if the
top-level scope is not the outermost scope (whether or not the types match),
exactly "conflicting types for 'name'" if it is the outermost scope and `type`
differs from the bound type, and nothing if it is the outermost scope and the
types are equal; in all three cases no scope changes and the existing symbol
is returned. -/
theorem declareVariable_bound (tk : Tokens) (name : String) (type : Ty) (st : Checker)
    (top : Nat) (sc : Scope) (symbol : Symbol)
    (htop : st.toplevel = some top) (hsc : st.scopes[top]? = some sc)
    (hfind : sc.find name = some symbol) :
    ∃ st', declareVariable tk name type st = some (symbol, st') ∧
      st'.scopes = st.scopes ∧ st'.toplevel = st.toplevel ∧ st'.outermost = st.outermost ∧
      st'.reports = st.reports ++
        (if st.outermost ≠ st.toplevel then [report redeclared name]
         else if type.ne symbol.type = true then [report conflicting name]
         else []) :=
  declareVariable_of_find_some tk name type st top sc symbol htop hsc hfind

theorem declareVariable_bound_witness :
    ∃ st', declareVariable sampleTokens "x" (Ty.scalar sampleTokens.INT 0) nestedState =
        some ({ name := "x", type := Ty.scalar sampleTokens.INT 0 }, st') ∧
      st'.scopes = nestedState.scopes ∧ st'.toplevel = nestedState.toplevel ∧
      st'.outermost = nestedState.outermost ∧
      st'.reports = nestedState.reports ++
        (if nestedState.outermost ≠ nestedState.toplevel then [report redeclared "x"]
         else if (Ty.scalar sampleTokens.INT 0).ne (Ty.scalar sampleTokens.INT 0) = true then
           [report conflicting "x"]
         else []) :=
  declareVariable_bound sampleTokens "x" (Ty.scalar sampleTokens.INT 0) nestedState 1
    { enclosing := some 0, symbols := [{ name := "x", type := Ty.scalar sampleTokens.INT 0 }] }
    { name := "x", type := Ty.scalar sampleTokens.INT 0 } rfl rfl rfl

/-- C10, where the claim fails: `voidBoundState` is the state reached from the
initial state by `openScope()` and `declareVariable("v", Type(Void,0))`; it has
an open top-level scope and one report.  A second
`declareVariable("v", Type(Void,0))` in that state reports nothing: the
reports are the same single one afterwards. -/
theorem declareVariable_void_bound_silent :
    (declareVariable sampleTokens "v" (Ty.scalar sampleTokens.VOID 0)
        (openScope Checker.init).2).map (fun r => r.2) = some voidBoundState ∧
    voidBoundState.toplevel = some 0 ∧
    voidBoundState.reports = [report void_object "v"] ∧
    (declareVariable sampleTokens "v" (Ty.scalar sampleTokens.VOID 0) voidBoundState).map
        (fun r => r.2.reports) = some [report void_object "v"] := by
  refine ⟨by rfl, rfl, rfl, by rfl⟩

/-- C10 as amended: in a state with an open top-level scope,
`declareVariable(v, Type(Void,0))` returns a symbol, and afterwards `lookup(v)`
from the top-level scope finds that symbol; when `v` was not yet bound in the
top-level scope the call reports exactly "'v' has type void" and the symbol
found has the type `Type(Void,0)`. -/
theorem declareVariable_void (tk : Tokens) (v : String) (st : Checker)
    (top : Nat) (sc : Scope)
    (htop : st.toplevel = some top) (hsc : st.scopes[top]? = some sc) :
    ∃ symbol st', declareVariable tk v (Ty.scalar tk.VOID 0) st = some (symbol, st') ∧
      st'.toplevel = st.toplevel ∧
      st'.lookup v = some (some symbol) ∧
      (sc.find v = none →
        st'.reports = st.reports ++ [report void_object v] ∧
        symbol = { name := v, type := Ty.scalar tk.VOID 0 }) := by
  have hlt : top < st.scopes.length := by
    rcases List.getElem?_eq_some_iff.1 hsc with ⟨h, _⟩
    exact h
  cases hfind : sc.find v with
  | some symbol =>
    obtain ⟨st', h1, h2, h3, h4, h5⟩ :=
      declareVariable_of_find_some tk v (Ty.scalar tk.VOID 0) st top sc symbol htop hsc hfind
    refine ⟨symbol, st', h1, h3, ?_, ?_⟩
    · unfold Checker.lookup
      rw [h3, htop, h2]
      obtain ⟨n, hn⟩ : ∃ n, st.scopes.length = n + 1 := ⟨st.scopes.length - 1, by omega⟩
      rw [hn]
      simp [lookupFrom, hsc, hfind]
    · intro h
      cases h
  | none =>
    refine ⟨{ name := v, type := Ty.scalar tk.VOID 0 },
      (((st.print v (Ty.scalar tk.VOID 0)).report void_object v).setScope top
        (sc.insert { name := v, type := Ty.scalar tk.VOID 0 })), ?_, ?_, ?_, ?_⟩
    · simp [declareVariable, Checker.print, htop, hsc, hfind, Ty.scalar, Ty.specifier,
        Ty.indirection]
    · rfl
    · unfold Checker.lookup
      simp only [Checker.setScope, Checker.report, Checker.print, htop, List.length_set]
      obtain ⟨n, hn⟩ : ∃ n, st.scopes.length = n + 1 := ⟨st.scopes.length - 1, by omega⟩
      rw [hn]
      have hf := Scope.find_insert_of_find_none sc { name := v, type := Ty.scalar tk.VOID 0 } hfind
      simp only [] at hf
      simp [lookupFrom, hlt, hf]
    · intro _
      exact ⟨rfl, rfl⟩

theorem declareVariable_void_witness :
    ∃ symbol st', declareVariable sampleTokens "v" (Ty.scalar sampleTokens.VOID 0) nestedState =
        some (symbol, st') ∧
      st'.toplevel = nestedState.toplevel ∧
      st'.lookup "v" = some (some symbol) ∧
      (Scope.find { enclosing := some 0,
                    symbols := [{ name := "x", type := Ty.scalar sampleTokens.INT 0 }] } "v" = none →
        st'.reports = nestedState.reports ++ [report void_object "v"] ∧
        symbol = { name := "v", type := Ty.scalar sampleTokens.VOID 0 }) :=
  declareVariable_void sampleTokens "v" nestedState 1
    { enclosing := some 0, symbols := [{ name := "x", type := Ty.scalar sampleTokens.INT 0 }] }
    rfl rfl

/-! ## Identifier lookup along the scope chain -/

theorem lookupFrom_null (scopes : List Scope) (fuel : Nat) (name : String) :
    lookupFrom scopes fuel none name = some none := by
  cases fuel <;> rfl

theorem lookupFrom_succ (scopes : List Scope) (fuel i : Nat) (name : String) (sc : Scope)
    (hsc : scopes[i]? = some sc) :
    lookupFrom scopes (fuel + 1) (some i) name =
      match sc.find name with
      | some symbol => some (some symbol)
      | none => lookupFrom scopes fuel sc.enclosing name := by
  simp [lookupFrom, hsc]

/-- In an ordered store the walk from scope `i` finishes with any fuel above
`i`, and its result depends neither on the fuel nor on the scopes stored
after position `i`. -/
theorem lookupFrom_congr (scopes scopes' : List Scope) (name : String) (hord : Ordered scopes) :
    ∀ (i f f' : Nat), i < f → i < f' → i < scopes.length →
      (∀ k, k ≤ i → scopes'[k]? = scopes[k]?) →
      lookupFrom scopes' f' (some i) name = lookupFrom scopes f (some i) name ∧
      ∃ r, lookupFrom scopes f (some i) name = some r := by
  intro i
  induction i using Nat.strong_induction_on with
  | _ i ih =>
    intro f f' hf hf' hlen hsame
    cases f with
    | zero => exact absurd hf (Nat.not_lt_zero i)
    | succ g =>
    cases f' with
    | zero => exact absurd hf' (Nat.not_lt_zero i)
    | succ g' =>
    obtain ⟨sc, hsc⟩ : ∃ sc, scopes[i]? = some sc := ⟨scopes[i], List.getElem?_eq_getElem hlen⟩
    have hsc' : scopes'[i]? = some sc := by rw [hsame i (Nat.le_refl i)]; exact hsc
    rw [lookupFrom_succ scopes' g' i name sc hsc', lookupFrom_succ scopes g i name sc hsc]
    cases hfind : sc.find name with
    | some symbol => exact ⟨rfl, _, rfl⟩
    | none =>
      cases henc : sc.enclosing with
      | none =>
        refine ⟨?_, _, lookupFrom_null _ _ _⟩
        rw [lookupFrom_null, lookupFrom_null]
      | some j =>
        have hj : j < i := hord i sc hsc j henc
        exact ih j hj g g' (by omega) (by omega) (by omega)
          (fun k hk => hsame k (by omega))

theorem Checker.lookup_eq (st : Checker) (top : Nat) (name : String)
    (htop : st.toplevel = some top) :
    st.lookup name = lookupFrom st.scopes st.scopes.length (some top) name := by
  simp [Checker.lookup, htop]

theorem Scope.find_insert_other (sc : Scope) (symbol : Symbol) (name : String)
    (h : symbol.name ≠ name) : (sc.insert symbol).find name = sc.find name := by
  unfold Scope.find
  simp [Scope.insert, List.find?_append, h]

theorem checkIdentifier_of_lookup_none (y : String) (st : Checker) (top : Nat) (sc : Scope)
    (htop : st.toplevel = some top) (hsc : st.scopes[top]? = some sc)
    (hno : st.lookup y = some none) :
    checkIdentifier y st =
      some ({ name := y, type := Ty.error },
        (st.report undeclared y).setScope top (sc.insert { name := y, type := Ty.error })) := by
  simp [checkIdentifier, htop, hsc, hno]

theorem checkIdentifier_of_lookup_some (y : String) (st : Checker) (top : Nat) (sc : Scope)
    (symbol : Symbol)
    (htop : st.toplevel = some top) (hsc : st.scopes[top]? = some sc)
    (hyes : st.lookup y = some (some symbol)) :
    checkIdentifier y st = some (symbol, st) := by
  simp [checkIdentifier, htop, hsc, hyes]

/-- C11: in a state with an open top-level scope where no scope of the chain
binds `y`, the first `checkIdentifier(y)` reports "'y' undeclared" exactly once
and returns a symbol of the error type; a second `checkIdentifier(y)` right
after it returns the same symbol and leaves the whole state (reports and scope
chain) unchanged. -/
theorem checkIdentifier_undeclared (y : String) (st : Checker) (top : Nat) (sc : Scope)
    (htop : st.toplevel = some top) (hsc : st.scopes[top]? = some sc)
    (hno : st.lookup y = some none) :
    ∃ st1, checkIdentifier y st = some ({ name := y, type := Ty.error }, st1) ∧
      st1.reports = st.reports ++ [report undeclared y] ∧
      st1.toplevel = st.toplevel ∧ st1.outermost = st.outermost ∧
      checkIdentifier y st1 = some ({ name := y, type := Ty.error }, st1) := by
  have hlt : top < st.scopes.length := (List.getElem?_eq_some_iff.1 hsc).1
  obtain ⟨n, hn⟩ : ∃ n, st.scopes.length = n + 1 := ⟨st.scopes.length - 1, by omega⟩
  have hfind : sc.find y = none := by
    rw [Checker.lookup_eq st top y htop, hn, lookupFrom_succ st.scopes n top y sc hsc] at hno
    cases h : sc.find y with
    | none => rfl
    | some s => rw [h] at hno; cases hno
  have hst1 : ∃ st1, st1 = (st.report undeclared y).setScope top
      (sc.insert { name := y, type := Ty.error }) := ⟨_, rfl⟩
  obtain ⟨st1, hdef⟩ := hst1
  have hsc1 : st1.scopes[top]? = some (sc.insert { name := y, type := Ty.error }) := by
    simp [hdef, Checker.setScope, Checker.report, hlt]
  have hlen : st1.scopes.length = n + 1 := by
    simp [hdef, Checker.setScope, Checker.report, hn]
  have htop1 : st1.toplevel = some top := by rw [hdef]; exact htop
  refine ⟨st1, ?_, by rw [hdef]; rfl, by rw [hdef]; rfl, by rw [hdef]; rfl, ?_⟩
  · rw [hdef]
    exact checkIdentifier_of_lookup_none y st top sc htop hsc hno
  · apply checkIdentifier_of_lookup_some y st1 top _ _ htop1 hsc1
    rw [Checker.lookup_eq st1 top y htop1, hlen, lookupFrom_succ _ n top y _ hsc1,
      Scope.find_insert_of_find_none sc { name := y, type := Ty.error } hfind]

theorem checkIdentifier_undeclared_witness :
    ∃ st1, checkIdentifier "y" nestedState = some ({ name := "y", type := Ty.error }, st1) ∧
      st1.reports = nestedState.reports ++ [report undeclared "y"] ∧
      st1.toplevel = nestedState.toplevel ∧ st1.outermost = nestedState.outermost ∧
      checkIdentifier "y" st1 = some ({ name := "y", type := Ty.error }, st1) :=
  checkIdentifier_undeclared "y" nestedState 1
    { enclosing := some 0, symbols := [{ name := "x", type := Ty.scalar sampleTokens.INT 0 }] }
    rfl rfl rfl

/-! ## Declarations only touch the top-level scope -/

theorem Checker.sameButTop_refl_scopes (st1 st2 : Checker) (top : Nat) (name : String)
    (sc : Scope) (hsc : st1.scopes[top]? = some sc)
    (h1 : st2.toplevel = st1.toplevel) (h2 : st2.outermost = st1.outermost)
    (h3 : st2.scopes = st1.scopes) : st1.SameButTop st2 top name := by
  refine ⟨h1, h2, by rw [h3], fun i _ => by rw [h3], sc, sc, hsc, by rw [h3]; exact hsc, rfl,
    Or.inl rfl⟩

theorem Checker.sameButTop_insert (st1 st2 : Checker) (top : Nat) (name : String) (type : Ty)
    (sc : Scope) (hsc : st1.scopes[top]? = some sc) (hfind : sc.find name = none)
    (h1 : st2.toplevel = st1.toplevel) (h2 : st2.outermost = st1.outermost)
    (h3 : st2.scopes = st1.scopes.set top (sc.insert { name := name, type := type })) :
    st1.SameButTop st2 top name := by
  have hlt : top < st1.scopes.length := (List.getElem?_eq_some_iff.1 hsc).1
  refine ⟨h1, h2, by rw [h3, List.length_set], ?_, sc,
    sc.insert { name := name, type := type }, hsc, ?_, rfl, Or.inr ⟨type, hfind, rfl⟩⟩
  · intro i hi
    rw [h3, List.getElem?_set_ne (Ne.symm hi)]
  · rw [h3]
    simp [hlt]

theorem declareVariable_sameButTop (tk : Tokens) (name : String) (type : Ty) (st : Checker)
    (top : Nat) (sc : Scope)
    (htop : st.toplevel = some top) (hsc : st.scopes[top]? = some sc) :
    ∃ symbol st', declareVariable tk name type st = some (symbol, st') ∧
      st.SameButTop st' top name := by
  cases hfind : sc.find name with
  | some symbol =>
    obtain ⟨st', h1, h2, h3, h4, _⟩ :=
      declareVariable_of_find_some tk name type st top sc symbol htop hsc hfind
    exact ⟨symbol, st', h1, Checker.sameButTop_refl_scopes st st' top name sc hsc h3 h4 h2⟩
  | none =>
    by_cases hv : type.specifier = tk.VOID ∧ type.indirection = 0
    · refine ⟨{ name := name, type := type },
        ((st.print name type).report void_object name).setScope top
          (sc.insert { name := name, type := type }), ?_, ?_⟩
      · simp [declareVariable, Checker.print, htop, hsc, hfind, hv]
      · exact Checker.sameButTop_insert st _ top name type sc hsc hfind rfl rfl rfl
    · refine ⟨{ name := name, type := type },
        (st.print name type).setScope top (sc.insert { name := name, type := type }), ?_, ?_⟩
      · simp only [declareVariable, Checker.print, htop, hsc, hfind]
        rw [if_neg hv]
      · exact Checker.sameButTop_insert st _ top name type sc hsc hfind rfl rfl rfl

theorem checkIdentifier_sameButTop (name : String) (st : Checker) (top : Nat) (sc : Scope)
    (r : Option Symbol)
    (htop : st.toplevel = some top) (hsc : st.scopes[top]? = some sc)
    (hr : st.lookup name = some r) :
    ∃ symbol st', checkIdentifier name st = some (symbol, st') ∧
      st.SameButTop st' top name := by
  cases r with
  | some symbol =>
    exact ⟨symbol, st, checkIdentifier_of_lookup_some name st top sc symbol htop hsc hr,
      Checker.sameButTop_refl_scopes st st top name sc hsc rfl rfl rfl⟩
  | none =>
    have hlt : top < st.scopes.length := (List.getElem?_eq_some_iff.1 hsc).1
    obtain ⟨n, hn⟩ : ∃ n, st.scopes.length = n + 1 := ⟨st.scopes.length - 1, by omega⟩
    have hfind : sc.find name = none := by
      rw [Checker.lookup_eq st top name htop, hn, lookupFrom_succ st.scopes n top name sc hsc]
        at hr
      cases h : sc.find name with
      | none => rfl
      | some s => rw [h] at hr; cases hr
    exact ⟨_, _, checkIdentifier_of_lookup_none name st top sc htop hsc hr,
      Checker.sameButTop_insert st _ top name Ty.error sc hsc hfind rfl rfl rfl⟩

/-- C20: in a state with an open top-level scope at position `top`,
`declareVariable(name, type)` and `checkIdentifier(name)` (whenever its lookup
finishes, as it does in an ordered store) return a symbol and leave every scope
other than the top-level one exactly as it was, leave `outermost` and
`toplevel` unchanged, and add at most one binding, for `name`, to the
top-level scope. -/
theorem declarations_write_toplevel_only (tk : Tokens) (name : String) (type : Ty)
    (st : Checker) (top : Nat) (sc : Scope)
    (htop : st.toplevel = some top) (hsc : st.scopes[top]? = some sc) :
    (∃ symbol st', declareVariable tk name type st = some (symbol, st') ∧
      st.SameButTop st' top name) ∧
    (∀ r, st.lookup name = some r →
      ∃ symbol st', checkIdentifier name st = some (symbol, st') ∧
        st.SameButTop st' top name) ∧
    (Ordered st.scopes → ∃ r, st.lookup name = some r) := by
  refine ⟨declareVariable_sameButTop tk name type st top sc htop hsc,
    fun r hr => checkIdentifier_sameButTop name st top sc r htop hsc hr, ?_⟩
  intro hord
  have hlt : top < st.scopes.length := (List.getElem?_eq_some_iff.1 hsc).1
  rw [Checker.lookup_eq st top name htop]
  exact (lookupFrom_congr st.scopes st.scopes name hord top st.scopes.length st.scopes.length
    hlt hlt hlt (fun _ _ => rfl)).2

theorem declarations_write_toplevel_only_witness :
    ∃ symbol st', declareVariable sampleTokens "y" (Ty.scalar sampleTokens.CHAR 1) nestedState =
        some (symbol, st') ∧ nestedState.SameButTop st' 1 "y" :=
  (declarations_write_toplevel_only sampleTokens "y" (Ty.scalar sampleTokens.CHAR 1) nestedState 1
    { enclosing := some 0, symbols := [{ name := "x", type := Ty.scalar sampleTokens.INT 0 }] }
    rfl rfl).1

/-! ## Opening and closing a scope -/

theorem openScope_scopes (st : Checker) :
    (openScope st).2.scopes = st.scopes ++ [{ enclosing := st.toplevel, symbols := [] }] := by
  unfold openScope
  simp only []
  split_ifs <;> rfl

theorem openScope_toplevel (st : Checker) :
    (openScope st).2.toplevel = some st.scopes.length := by
  unfold openScope
  simp only []
  split_ifs <;> rfl

theorem openScope_fst (st : Checker) : (openScope st).1 = some st.scopes.length :=
  openScope_toplevel st

theorem closeScope_of_toplevel (st : Checker) (top : Nat) (sc : Scope)
    (htop : st.toplevel = some top) (hsc : st.scopes[top]? = some sc) :
    closeScope st = some (some top, { st with toplevel := sc.enclosing }) := by
  simp [closeScope, htop, hsc]

theorem openScope_new_scope (st : Checker) :
    (openScope st).2.scopes[st.scopes.length]? =
      some { enclosing := st.toplevel, symbols := [] } := by
  rw [openScope_scopes]
  simp

theorem openScope_old_scope (st : Checker) (k : Nat) (hk : k < st.scopes.length) :
    (openScope st).2.scopes[k]? = st.scopes[k]? := by
  rw [openScope_scopes, List.getElem?_append_left hk]

/-- Closing the scope opened by `openScope` after a change confined to that
scope: the old top-level scope is back and lookups from it are what they were
before `openScope`. -/
theorem closeScope_after_openScope (st st1 : Checker) (top : Nat) (name changed : String)
    (hord : Ordered st.scopes) (htop : st.toplevel = some top) (hlt : top < st.scopes.length)
    (hsame : (openScope st).2.SameButTop st1 st.scopes.length changed) :
    ∃ st2, closeScope st1 = some ((openScope st).1, st2) ∧ st2.toplevel = st.toplevel ∧
      st2.lookup name = st.lookup name := by
  obtain ⟨h1, _, h3, h4, sc1, sc2, hsc1, hsc2, henc, _⟩ := hsame
  rw [openScope_new_scope] at hsc1
  have hsc1' : sc1 = { enclosing := st.toplevel, symbols := [] } := by
    injection hsc1 with h; exact h.symm
  have htop1 : st1.toplevel = some st.scopes.length := by rw [h1, openScope_toplevel]
  have henc2 : sc2.enclosing = some top := by rw [henc, hsc1', ← htop]
  refine ⟨{ st1 with toplevel := sc2.enclosing }, ?_, ?_, ?_⟩
  · rw [openScope_fst]
    exact closeScope_of_toplevel st1 st.scopes.length sc2 htop1 hsc2
  · show sc2.enclosing = st.toplevel
    rw [henc2, htop]
  · have htop2 : ({ st1 with toplevel := sc2.enclosing } : Checker).toplevel = some top := henc2
    rw [Checker.lookup_eq _ top name htop2, Checker.lookup_eq st top name htop]
    have hlen : ({ st1 with toplevel := sc2.enclosing } : Checker).scopes.length =
        st.scopes.length + 1 := by
      show st1.scopes.length = _
      rw [h3, openScope_scopes]
      simp
    rw [hlen]
    refine (lookupFrom_congr st.scopes _ name hord top st.scopes.length (st.scopes.length + 1)
      hlt (by omega) hlt ?_).1
    intro k hk
    show st1.scopes[k]? = st.scopes[k]?
    rw [h4 k (by omega), openScope_old_scope st k (by omega)]

theorem openScope_lookup (st : Checker) (top : Nat) (name : String)
    (hord : Ordered st.scopes) (htop : st.toplevel = some top) (hlt : top < st.scopes.length) :
    (openScope st).2.lookup name = st.lookup name ∧ ∃ r, st.lookup name = some r := by
  rw [Checker.lookup_eq _ _ name (openScope_toplevel st), Checker.lookup_eq st top name htop]
  have hlen : (openScope st).2.scopes.length = st.scopes.length + 1 := by
    rw [openScope_scopes]; simp
  rw [hlen, lookupFrom_succ _ _ _ name _ (openScope_new_scope st)]
  have hnone : Scope.find { enclosing := st.toplevel, symbols := [] } name = none := rfl
  rw [hnone]
  simp only [htop]
  exact lookupFrom_congr st.scopes _ name hord top st.scopes.length st.scopes.length
    hlt hlt hlt (fun k hk => openScope_old_scope st k (by omega))

/-- C12: in an ordered store with top-level scope `S`, `closeScope()` right
after `openScope()` returns the scope just opened and makes `S` the top-level
scope again; the same holds when `declareVariable(name, type)` or
`checkIdentifier(name)` is called in between, and then `lookup(name)` from the
top-level scope gives exactly what it gave before `openScope()`: nothing, or
the binding of an enclosing scope. -/
theorem openScope_closeScope (tk : Tokens) (st : Checker) (top : Nat) (name : String)
    (type : Ty) (hord : Ordered st.scopes) (htop : st.toplevel = some top)
    (hlt : top < st.scopes.length) :
    (∃ st2, closeScope (openScope st).2 = some ((openScope st).1, st2) ∧
      st2.toplevel = st.toplevel) ∧
    (∃ symbol st1 st2, declareVariable tk name type (openScope st).2 = some (symbol, st1) ∧
      symbol.name = name ∧
      closeScope st1 = some ((openScope st).1, st2) ∧ st2.toplevel = st.toplevel ∧
      st2.lookup name = st.lookup name) ∧
    (∃ symbol st1 st2, checkIdentifier name (openScope st).2 = some (symbol, st1) ∧
      closeScope st1 = some ((openScope st).1, st2) ∧ st2.toplevel = st.toplevel ∧
      st2.lookup name = st.lookup name) ∧
    (∃ r, st.lookup name = some r) := by
  have hopen := openScope_lookup st top name hord htop hlt
  refine ⟨?_, ?_, ?_, hopen.2⟩
  · obtain ⟨st2, h1, h2, _⟩ := closeScope_after_openScope st (openScope st).2 top name name
      hord htop hlt (Checker.sameButTop_refl_scopes _ _ _ name _ (openScope_new_scope st)
        rfl rfl rfl)
    exact ⟨st2, h1, h2⟩
  · have hdecl : declareVariable tk name type (openScope st).2 =
        some ({ name := name, type := type },
          (if type.specifier = tk.VOID ∧ type.indirection = 0 then
            ((openScope st).2.print name type).report void_object name
           else (openScope st).2.print name type).setScope st.scopes.length
            (Scope.insert { enclosing := st.toplevel, symbols := [] }
              { name := name, type := type })) := by
      have h := openScope_new_scope st
      have hnone : Scope.find { enclosing := st.toplevel, symbols := [] } name = none := rfl
      simp only [declareVariable, Checker.print, openScope_toplevel, h, hnone]
    have hsame : (openScope st).2.SameButTop
        ((if type.specifier = tk.VOID ∧ type.indirection = 0 then
            ((openScope st).2.print name type).report void_object name
           else (openScope st).2.print name type).setScope st.scopes.length
            (Scope.insert { enclosing := st.toplevel, symbols := [] }
              { name := name, type := type })) st.scopes.length name := by
      apply Checker.sameButTop_insert _ _ _ name type _ (openScope_new_scope st) rfl
      · split_ifs <;> rfl
      · split_ifs <;> rfl
      · split_ifs <;> rfl
    obtain ⟨st2, h1, h2, h3⟩ := closeScope_after_openScope st _ top name name hord htop hlt hsame
    exact ⟨_, _, st2, hdecl, rfl, h1, h2, h3⟩
  · obtain ⟨r, hr⟩ := hopen.2
    obtain ⟨symbol, st1, hc, hsame⟩ := checkIdentifier_sameButTop name (openScope st).2
      st.scopes.length _ r (openScope_toplevel st) (openScope_new_scope st)
      (by rw [hopen.1]; exact hr)
    obtain ⟨st2, h1, h2, h3⟩ := closeScope_after_openScope st st1 top name name hord htop hlt hsame
    exact ⟨symbol, st1, st2, hc, h1, h2, h3⟩

theorem openScope_closeScope_witness :
    ∃ symbol st1 st2,
      declareVariable sampleTokens "x" (Ty.scalar sampleTokens.CHAR 0) (openScope nestedState).2 =
        some (symbol, st1) ∧
      symbol.name = "x" ∧
      closeScope st1 = some ((openScope nestedState).1, st2) ∧
      st2.toplevel = nestedState.toplevel ∧
      st2.lookup "x" = nestedState.lookup "x" :=
  (openScope_closeScope sampleTokens nestedState 1 "x" (Ty.scalar sampleTokens.CHAR 0)
    (by
      intro i sc hsc j hj
      match i, hsc with
      | 0, hsc => simp [nestedState] at hsc; subst hsc; simp at hj
      | 1, hsc => simp [nestedState] at hsc; subst hsc; simp at hj; omega
      | (n + 2), hsc => simp [nestedState] at hsc)
    rfl (by decide)).2.1

/-! ## Declaring and defining functions -/

theorem find_eraseP_self (name : String) :
    ∀ l : List Symbol, (l.map Symbol.name).Nodup →
      (l.eraseP (fun s => decide (s.name = name))).find? (fun s => decide (s.name = name)) =
        none
  | [], _ => rfl
  | x :: xs, h => by
    have hx : x.name ∉ xs.map Symbol.name := (List.nodup_cons.1 h).1
    have hxs : (xs.map Symbol.name).Nodup := (List.nodup_cons.1 h).2
    by_cases hp : x.name = name
    · have : List.eraseP (fun s => decide (s.name = name)) (x :: xs) = xs := by
        simp [List.eraseP_cons, hp]
      rw [this, List.find?_eq_none]
      intro y hy
      simp only [decide_eq_true_eq]
      intro hyn
      exact hx (by rw [hp, ← hyn]; exact List.mem_map_of_mem _ hy)
    · have : List.eraseP (fun s => decide (s.name = name)) (x :: xs) =
          x :: List.eraseP (fun s => decide (s.name = name)) xs := by
        simp [List.eraseP_cons, hp]
      rw [this, List.find?_cons_of_neg _ (by simpa using hp)]
      exact find_eraseP_self name xs hxs

theorem find_eraseP_other (name other : String) (hne : other ≠ name) :
    ∀ l : List Symbol,
      (l.eraseP (fun s => decide (s.name = name))).find? (fun s => decide (s.name = other)) =
        l.find? (fun s => decide (s.name = other))
  | [] => rfl
  | x :: xs => by
    by_cases hp : x.name = name
    · have h1 : List.eraseP (fun s => decide (s.name = name)) (x :: xs) = xs := by
        simp [List.eraseP_cons, hp]
      have h2 : ¬ x.name = other := by rw [hp]; exact fun h => hne h.symm
      rw [h1, List.find?_cons_of_neg _ (by simpa using h2)]
    · have h1 : List.eraseP (fun s => decide (s.name = name)) (x :: xs) =
          x :: List.eraseP (fun s => decide (s.name = name)) xs := by
        simp [List.eraseP_cons, hp]
      rw [h1]
      by_cases hq : x.name = other
      · rw [List.find?_cons_of_pos _ (by simpa using hq),
          List.find?_cons_of_pos _ (by simpa using hq)]
      · rw [List.find?_cons_of_neg _ (by simpa using hq),
          List.find?_cons_of_neg _ (by simpa using hq)]
        exact find_eraseP_other name other hne xs

theorem Scope.find_remove_insert (sc : Scope) (name : String) (type : Ty) (hu : sc.Unique) :
    ((sc.remove name).insert { name := name, type := type }).find name =
      some { name := name, type := type } := by
  apply Scope.find_insert_of_find_none (sc.remove name) { name := name, type := type }
  exact find_eraseP_self name sc.symbols hu

theorem Scope.find_remove_insert_other (sc : Scope) (name other : String) (type : Ty)
    (hne : other ≠ name) :
    ((sc.remove name).insert { name := name, type := type }).find other = sc.find other := by
  rw [Scope.find_insert_other _ _ _ (fun h => hne h.symm)]
  exact find_eraseP_other name other hne sc.symbols

/-- C13: in a state whose outermost scope exists (at position `out`, with
unique names), `defineFunction(name, type)` returns the new symbol, and
afterwards the outermost scope binds `name` to a symbol whose type is exactly
`type`, whatever was bound before and whatever the top-level scope is; every
other name of the outermost scope is bound as before, every other scope is
unchanged and so are the `toplevel` and `outermost` pointers. -/
theorem defineFunction_binds (name : String) (type : Ty) (st : Checker) (out : Nat)
    (sc : Scope) (hout : st.outermost = some out) (hsc : st.scopes[out]? = some sc)
    (hu : sc.Unique) :
    ∃ st' sc', defineFunction name type st = some ({ name := name, type := type }, st') ∧
      st'.toplevel = st.toplevel ∧ st'.outermost = st.outermost ∧
      st'.scopes.length = st.scopes.length ∧
      (∀ i : Nat, i ≠ out → st'.scopes[i]? = st.scopes[i]?) ∧
      st'.scopes[out]? = some sc' ∧ sc'.enclosing = sc.enclosing ∧
      sc'.find name = some { name := name, type := type } ∧
      (∀ other : String, other ≠ name → sc'.find other = sc.find other) := by
  have hlt : out < st.scopes.length := (List.getElem?_eq_some_iff.1 hsc).1
  cases hfind : sc.find name with
  | none =>
    refine ⟨(st.print name type).setScope out (sc.insert { name := name, type := type }),
      sc.insert { name := name, type := type }, ?_, rfl, rfl, ?_, ?_, ?_, rfl, ?_, ?_⟩
    · simp [defineFunction, Checker.print, hout, hsc, hfind]
    · simp [Checker.setScope, Checker.print]
    · intro i hi
      simp [Checker.setScope, Checker.print, List.getElem?_set_ne (Ne.symm hi)]
    · simp [Checker.setScope, Checker.print, hlt]
    · exact Scope.find_insert_of_find_none sc { name := name, type := type } hfind
    · intro other hne
      exact Scope.find_insert_other sc _ other (fun h => hne h.symm)
  | some old =>
    refine ⟨((if (old.type.isFunction && old.type.parameters.isSome) = true then
          (st.print name type).report redefined name
        else if type.ne old.type = true then (st.print name type).report conflicting name
        else st.print name type).setScope out
          ((sc.remove name).insert { name := name, type := type })),
      (sc.remove name).insert { name := name, type := type }, ?_, ?_, ?_, ?_, ?_, ?_, rfl,
      Scope.find_remove_insert sc name type hu,
      fun other hne => Scope.find_remove_insert_other sc name other type hne⟩
    · simp only [defineFunction, Checker.print, hout, hsc, hfind]
    · simp only [Checker.setScope]; split_ifs <;> rfl
    · simp only [Checker.setScope]; split_ifs <;> rfl
    · simp only [Checker.setScope, List.length_set]; split_ifs <;> rfl
    · intro i hi
      simp only [Checker.setScope, List.getElem?_set_ne (Ne.symm hi)]
      split_ifs <;> rfl
    · simp only [Checker.setScope]
      split_ifs <;> simp [Checker.report, Checker.print, hlt]

theorem defineFunction_binds_witness :
    ∃ st' sc', defineFunction "v" (Ty.function sampleTokens.INT 0 (some [])) voidBoundState =
        some ({ name := "v", type := Ty.function sampleTokens.INT 0 (some []) }, st') ∧
      st'.toplevel = voidBoundState.toplevel ∧ st'.outermost = voidBoundState.outermost ∧
      st'.scopes.length = voidBoundState.scopes.length ∧
      (∀ i : Nat, i ≠ 0 → st'.scopes[i]? = voidBoundState.scopes[i]?) ∧
      st'.scopes[0]? = some sc' ∧
      sc'.enclosing = none ∧
      sc'.find "v" = some { name := "v", type := Ty.function sampleTokens.INT 0 (some []) } ∧
      (∀ other : String, other ≠ "v" → sc'.find other =
        Scope.find ⟨none, [⟨"v", Ty.scalar sampleTokens.VOID 0⟩]⟩ other) :=
  defineFunction_binds "v" (Ty.function sampleTokens.INT 0 (some [])) voidBoundState 0
    { enclosing := none, symbols := [{ name := "v", type := Ty.scalar sampleTokens.VOID 0 }] }
    rfl rfl (by simp [Scope.Unique])

theorem declareFunction_cases (name : String) (type : Ty) (st : Checker) (out : Nat)
    (sc : Scope) (hout : st.outermost = some out) (hsc : st.scopes[out]? = some sc) :
    (∀ symbol, sc.find name = some symbol →
      ∃ st', declareFunction name type st = some (symbol, st') ∧
        st'.scopes = st.scopes ∧ st'.toplevel = st.toplevel ∧ st'.outermost = st.outermost ∧
        st'.reports = st.reports ++
          (if type.ne symbol.type = true then [report conflicting name] else [])) ∧
    (sc.find name = none →
      ∃ st', declareFunction name type st = some ({ name := name, type := type }, st') ∧
        st'.reports = st.reports ∧
        st'.toplevel = st.toplevel ∧ st'.outermost = st.outermost ∧
        st'.scopes = st.scopes.set out (sc.insert { name := name, type := type }) ∧
        (sc.insert { name := name, type := type }).find name =
          some { name := name, type := type }) := by
  constructor
  · intro symbol hfind
    by_cases hne : type.ne symbol.type = true
    · refine ⟨(st.print name type).report conflicting name, ?_, rfl, rfl, rfl, ?_⟩
      · simp [declareFunction, Checker.print, hout, hsc, hfind, hne]
      · simp [Checker.report, Checker.print, hne]
    · refine ⟨st.print name type, ?_, rfl, rfl, rfl, ?_⟩
      · simp [declareFunction, Checker.print, hout, hsc, hfind, hne]
      · simp [Checker.print, hne]
  · intro hfind
    refine ⟨(st.print name type).setScope out (sc.insert { name := name, type := type }),
      ?_, rfl, rfl, rfl, rfl,
      Scope.find_insert_of_find_none sc { name := name, type := type } hfind⟩
    simp [declareFunction, Checker.print, hout, hsc, hfind]

/-- C14: when `name` is already bound in the outermost scope,
`declareFunction(name, type)` returns the existing symbol and changes no scope
and no scope pointer; it reports exactly "conflicting types for 'name'" when
`type` differs from the bound type and nothing when they are equal.  When
`name` is not bound in the outermost scope it is inserted there with `type`
and nothing is reported. -/
theorem declareFunction_first_wins (name : String) (type : Ty) (st : Checker) (out : Nat)
    (sc : Scope) (hout : st.outermost = some out) (hsc : st.scopes[out]? = some sc) :
    (∀ symbol, sc.find name = some symbol →
      ∃ st', declareFunction name type st = some (symbol, st') ∧
        st'.scopes = st.scopes ∧ st'.toplevel = st.toplevel ∧ st'.outermost = st.outermost ∧
        st'.reports = st.reports ++
          (if type.ne symbol.type = true then [report conflicting name] else [])) ∧
    (sc.find name = none →
      ∃ st', declareFunction name type st = some ({ name := name, type := type }, st') ∧
        st'.reports = st.reports ∧
        st'.toplevel = st.toplevel ∧ st'.outermost = st.outermost ∧
        st'.scopes = st.scopes.set out (sc.insert { name := name, type := type }) ∧
        (sc.insert { name := name, type := type }).find name =
          some { name := name, type := type }) :=
  declareFunction_cases name type st out sc hout hsc

theorem declareFunction_first_wins_witness :
    ∃ st', declareFunction "v" (Ty.function sampleTokens.INT 0 none) voidBoundState =
        some ({ name := "v", type := Ty.scalar sampleTokens.VOID 0 }, st') ∧
      st'.scopes = voidBoundState.scopes ∧ st'.toplevel = voidBoundState.toplevel ∧
      st'.outermost = voidBoundState.outermost ∧
      st'.reports = voidBoundState.reports ++
        (if (Ty.function sampleTokens.INT 0 none).ne (Ty.scalar sampleTokens.VOID 0) = true then
          [report conflicting "v"] else []) :=
  (declareFunction_first_wins "v" (Ty.function sampleTokens.INT 0 none) voidBoundState 0
    { enclosing := none, symbols := [{ name := "v", type := Ty.scalar sampleTokens.VOID 0 }] }
    rfl rfl).1 { name := "v", type := Ty.scalar sampleTokens.VOID 0 } rfl

/-! ## Promotion twice -/

mutual
theorem Ty.eq_self : ∀ t : Ty, Ty.eq t t = true
  | Ty.mk s i l p k => by
    have hp := Ty.eqParams_self p
    simp [Ty.eq, hp]
theorem Ty.eqParams_self : ∀ p : Option (List Ty), Ty.eqParams p p = true
  | none => by simp [Ty.eqParams]
  | some xs => by
    have h := Ty.eqList_self xs
    simpa [Ty.eqParams] using h
theorem Ty.eqList_self : ∀ xs : List Ty, Ty.eqList xs xs = true
  | [] => by simp [Ty.eqList]
  | x :: xs => by
    have h1 := Ty.eq_self x
    have h2 := Ty.eqList_self xs
    simp [Ty.eqList, h1, h2]
end

theorem Ty.promote_promote (tk : Tokens) (t : Ty)
    (h : t.kind = Kind.ARRAY → t.specifier = tk.CHAR → (t.indirection + 1) % Ty.UMAX ≠ 0) :
    (t.promote tk).promote tk = t.promote tk := by
  by_cases h1 : t.kind = Kind.ARRAY
  · have hp : t.promote tk = Ty.scalar t.specifier ((t.indirection + 1) % Ty.UMAX) := by
      simp [Ty.promote, h1]
    rw [hp]
    unfold Ty.promote
    split_ifs with h2 h3
    · simp [Ty.scalar, Ty.kind] at h2
    · exact absurd h3.2.2 (h h1 h3.2.1)
    · rfl
  · by_cases h2 : t.kind = Kind.SCALAR ∧ t.specifier = tk.CHAR ∧ t.indirection = 0
    · have hp : t.promote tk = Ty.scalar tk.INT 0 := by
        simp [Ty.promote, h2]
      rw [hp, Ty.promote_scalar_int]
    · have hp : t.promote tk = t := by
        unfold Ty.promote
        rw [if_neg h1, if_neg h2]
      rw [hp, hp]

/-- C15, where the claim fails: for the array type `Type(Char, 4294967295, 3)`
promotion gives the scalar `Type(Char, 0)` (the `unsigned` indirection wraps
from `2^32 - 1` to `0`) and promoting that gives `Type(Int, 0)`, which
`operator==` tells apart from `Type(Char, 0)`. -/
theorem promote_twice_wraps :
    (Ty.array sampleTokens.CHAR 4294967295 3).InRange ∧
    (Ty.array sampleTokens.CHAR 4294967295 3).promote sampleTokens =
      Ty.scalar sampleTokens.CHAR 0 ∧
    ((Ty.array sampleTokens.CHAR 4294967295 3).promote sampleTokens).promote sampleTokens =
      Ty.scalar sampleTokens.INT 0 ∧
    Ty.eq (((Ty.array sampleTokens.CHAR 4294967295 3).promote sampleTokens).promote sampleTokens)
      ((Ty.array sampleTokens.CHAR 4294967295 3).promote sampleTokens) = false := by
  refine ⟨by decide, by rfl, by rfl, by rfl⟩

/-- C15 as amended: for every Type `t` whose `unsigned` members are in range,
other than an array with specifier `Char` and indirection `2^32 - 1`,
`t.promote().promote() == t.promote()`; the two are the same Type. -/
theorem promote_idempotent (tk : Tokens) (t : Ty) (hr : t.InRange)
    (h : ¬ (t.kind = Kind.ARRAY ∧ t.specifier = tk.CHAR ∧ t.indirection = 4294967295)) :
    Ty.eq ((t.promote tk).promote tk) (t.promote tk) = true ∧
    (t.promote tk).promote tk = t.promote tk := by
  have hpp : (t.promote tk).promote tk = t.promote tk := by
    apply Ty.promote_promote
    intro h1 h2 h3
    apply h
    refine ⟨h1, h2, ?_⟩
    have := hr.1
    unfold Ty.UMAX at this h3
    omega
  refine ⟨?_, hpp⟩
  rw [hpp]
  exact Ty.eq_self _

theorem promote_idempotent_witness :
    Ty.eq (((Ty.array sampleTokens.CHAR 0 3).promote sampleTokens).promote sampleTokens)
      ((Ty.array sampleTokens.CHAR 0 3).promote sampleTokens) = true ∧
    ((Ty.array sampleTokens.CHAR 0 3).promote sampleTokens).promote sampleTokens =
      (Ty.array sampleTokens.CHAR 0 3).promote sampleTokens :=
  promote_idempotent sampleTokens (Ty.array sampleTokens.CHAR 0 3) (by decide)
    (by intro h; exact absurd h.2.2 (by decide))

/-! ## The unary rules `!`, `-` and `sizeof` -/

/-- C19: `checkNot`, `checkNeg` and `checkSizeof` leave the lvalue flag false
whatever the operand and the incoming flag; `checkNot` and `checkSizeof` return
`Type(Int)` without a diagnostic exactly when the unpromoted operand is a value
type, `checkNeg` exactly when `operand.promote()` is an integer; otherwise each
returns the error type and reports one "invalid operand to unary" diagnostic
naming `!`, `-` or `sizeof`. -/
theorem unary_rules (tk : Tokens) (operand : Ty) (lvalue : Bool) :
    (checkNot tk operand lvalue).2.1 = false ∧
    (checkNeg tk operand lvalue).2.1 = false ∧
    (checkSizeof tk operand lvalue).2.1 = false ∧
    (checkNot tk operand lvalue = (Ty.scalar tk.INT 0, false, []) ↔
      operand.isValue = true) ∧
    (¬ operand.isValue = true →
      checkNot tk operand lvalue = (Ty.error, false, [report bad_unary "!"])) ∧
    (checkNeg tk operand lvalue = (Ty.scalar tk.INT 0, false, []) ↔
      (operand.promote tk).isInteger tk = true) ∧
    (¬ (operand.promote tk).isInteger tk = true →
      checkNeg tk operand lvalue = (Ty.error, false, [report bad_unary "-"])) ∧
    (checkSizeof tk operand lvalue = (Ty.scalar tk.INT 0, false, []) ↔
      operand.isValue = true) ∧
    (¬ operand.isValue = true →
      checkSizeof tk operand lvalue = (Ty.error, false, [report bad_unary "sizeof"])) := by
  have hne : ∀ (b : Bool) (d : List Diag) (d' : List Diag),
      ((Ty.error, b, d) : Ty × Bool × List Diag) ≠ (Ty.scalar tk.INT 0, false, d') := by
    intro b d d' h
    exact Ty.scalar_ne_error _ _ (congrArg Prod.fst h).symm
  refine ⟨?_, ?_, ?_, ⟨?_, ?_⟩, ?_, ⟨?_, ?_⟩, ?_, ⟨?_, ?_⟩, ?_⟩
  · unfold checkNot; split_ifs <;> rfl
  · unfold checkNeg; split_ifs <;> rfl
  · unfold checkSizeof; split_ifs <;> rfl
  · intro h
    by_contra hc
    simp only [checkNot, if_neg hc] at h
    exact hne _ _ _ h
  · intro h
    simp [checkNot, h]
  · intro h
    simp [checkNot, h]
  · intro h
    by_contra hc
    simp only [checkNeg, if_neg hc] at h
    exact hne _ _ _ h
  · intro h
    simp [checkNeg, h]
  · intro h
    simp [checkNeg, h]
  · intro h
    by_contra hc
    simp only [checkSizeof, if_neg hc] at h
    exact hne _ _ _ h
  · intro h
    simp [checkSizeof, h]
  · intro h
    simp [checkSizeof, h]

theorem unary_rules_witness :
    checkNeg sampleTokens (Ty.scalar sampleTokens.INT 1) true =
      (Ty.error, false, [report bad_unary "-"]) :=
  (unary_rules sampleTokens (Ty.scalar sampleTokens.INT 1) true).2.2.2.2.2.2.1 (by decide)

/-! ## The parser on sample programs -/

theorem Except.ok_bind {ε α β : Type} (value : α) (rest : α → Except ε β) :
    (Except.ok value >>= rest) = rest value := by
  rfl

theorem globalOrFunction_first (strtoul : String → Nat) (junk : Nat → Ty) :
    globalOrFunction (sampleEnv strtoul junk) 16
        ⟨translationUnitInput, (openScope Checker.init).2⟩ =
      Except.ok ⟨secondDeclaration, afterFirstDeclaration⟩ := by
  rfl

theorem globalOrFunction_second (strtoul : String → Nat) (junk : Nat → Ty) :
    globalOrFunction (sampleEnv strtoul junk) 16 ⟨secondDeclaration, afterFirstDeclaration⟩ =
      Except.ok ⟨functionDefinition, globalsState⟩ := by
  rfl

theorem globalOrFunction_third (strtoul : String → Nat) (junk : Nat → Ty) :
    globalOrFunction (sampleEnv strtoul junk) 16 ⟨functionDefinition, globalsState⟩ =
      Except.ok ⟨[], { bodyState with
        toplevel := some 0,
        reports := (checkAdditive sampleTokens (junk 2) (Ty.scalar sampleTokens.INT 0) "+").2 }⟩ := by
  rfl

theorem translationUnit_third (strtoul : String → Nat) (junk : Nat → Ty) :
    translationUnit (sampleEnv strtoul junk) 16 14 ⟨functionDefinition, globalsState⟩ =
      Except.ok ⟨[], { bodyState with
        toplevel := some 0,
        reports := (checkAdditive sampleTokens (junk 2) (Ty.scalar sampleTokens.INT 0) "+").2 }⟩ := by
  rw [translationUnit, globalOrFunction_third]
  rfl

theorem translationUnit_second (strtoul : String → Nat) (junk : Nat → Ty) :
    translationUnit (sampleEnv strtoul junk) 16 15 ⟨secondDeclaration, afterFirstDeclaration⟩ =
      Except.ok ⟨[], { bodyState with
        toplevel := some 0,
        reports := (checkAdditive sampleTokens (junk 2) (Ty.scalar sampleTokens.INT 0) "+").2 }⟩ := by
  rw [translationUnit, globalOrFunction_second, if_pos (by decide), Except.ok_bind]
  exact translationUnit_third strtoul junk

theorem translationUnit_first (strtoul : String → Nat) (junk : Nat → Ty) :
    translationUnit (sampleEnv strtoul junk) 16 16
        ⟨translationUnitInput, (openScope Checker.init).2⟩ =
      Except.ok ⟨[], { bodyState with
        toplevel := some 0,
        reports := (checkAdditive sampleTokens (junk 2) (Ty.scalar sampleTokens.INT 0) "+").2 }⟩ := by
  rw [translationUnit, globalOrFunction_first, if_pos (by decide), Except.ok_bind]
  exact translationUnit_second strtoul junk

theorem main_translationUnitInput (strtoul : String → Nat) (junk : Nat → Ty) :
    main (sampleEnv strtoul junk) 16 translationUnitInput =
      Except.ok ⟨[], { bodyState with
        toplevel := none,
        reports := (checkAdditive sampleTokens (junk 2) (Ty.scalar sampleTokens.INT 0) "+").2 }⟩ := by
  unfold main
  simp only []
  rw [translationUnit_first, Except.ok_bind]
  rfl

theorem checkDeref_int_pointer (lvalue : Bool) :
    checkDeref sampleTokens (Ty.scalar sampleTokens.INT 1) lvalue =
      (Ty.scalar sampleTokens.INT 0, true, []) := by
  rfl

theorem expression_rightHandSide (strtoul : String → Nat) (junk : Nat → Ty) :
    expression (sampleEnv strtoul junk) 12 false ⟨rightHandSide, bodyState⟩ =
      Except.ok (Ty.scalar sampleTokens.INT 0, false,
        ⟨[⟨Token.ch ';', ";"⟩, ⟨Token.ch '}', "\x7d"⟩], { bodyState with
          reports :=
            (checkAdditive sampleTokens (junk 2) (Ty.scalar sampleTokens.INT 0) "+").2 }⟩) := by
  have h : expression (sampleEnv strtoul junk) 12 false ⟨rightHandSide, bodyState⟩ =
      Except.ok ((checkDeref sampleTokens (Ty.scalar sampleTokens.INT 1) true).1, false,
        ⟨[⟨Token.ch ';', ";"⟩, ⟨Token.ch '}', "\x7d"⟩], { bodyState with
          reports :=
            (checkAdditive sampleTokens (junk 2) (Ty.scalar sampleTokens.INT 0) "+").2 }⟩) := by
    rfl
  rw [checkDeref_int_pointer] at h
  exact h

/-- C16: evaluation of the parser on `int a; int *p; int f(void) { a = *p + 1; }`.
The type synthesized for `*p + 1` is `Type(Int,0)`, the type of the first
operand `*p`.  The only reports of the whole run are those of
`checkAdditive(left, Type(Int), "+")` where `left` is the new, uninitialised
local declared at parser.cpp:443 and not the type of `*p`: with the error type
in that storage the statement is reported as "invalid operands to binary +",
with `Type(Int)` in it nothing is reported. -/
theorem parse_assignment_statement (strtoul : String → Nat) (junk : Nat → Ty) :
    (defineFunction "f" (Ty.function sampleTokens.INT 0 (some []))
        (openScope globalsState).2).map (fun r => r.2) = some bodyState ∧
    (expression (sampleEnv strtoul junk) 12 false ⟨rightHandSide, bodyState⟩).map
        (fun r => r.1) = Except.ok (Ty.scalar sampleTokens.INT 0) ∧
    (main (sampleEnv strtoul junk) 16 translationUnitInput).map
        (fun p => (p.input, p.checker.reports)) =
      Except.ok ([],
        (checkAdditive sampleTokens (junk 2) (Ty.scalar sampleTokens.INT 0) "+").2) ∧
    (checkAdditive sampleTokens Ty.error (Ty.scalar sampleTokens.INT 0) "+").2 =
      [report bad_binary "+"] ∧
    (checkAdditive sampleTokens (Ty.scalar sampleTokens.INT 0)
      (Ty.scalar sampleTokens.INT 0) "+").2 = [] := by
  refine ⟨by rfl, ?_, ?_, by rfl, by rfl⟩
  · rw [expression_rightHandSide]
    rfl
  · rw [main_translationUnitInput]
    rfl

/-! ## The binary levels of the parser -/

theorem Except.bind_eq_ok {ε α β : Type} (step : Except ε α) (rest : α → Except ε β)
    (result : β) (h : (step >>= rest) = Except.ok result) :
    ∃ value, step = Except.ok value ∧ rest value = Except.ok result :=
  match step, h with
  | Except.ok value, h => ⟨value, rfl, h⟩

/-- Whatever follows, the loop of `multiplicativeExpression` returns the type it
was entered with: the type of the first operand. -/
theorem multiplicativeLoop_left (env : Env) :
    ∀ (fuel : Nat) (left : Ty) (lvalue : Bool) (p : Parser) (r : Ty × Bool × Parser),
      multiplicativeLoop env fuel left lvalue p = Except.ok r → r.1 = left := by
  intro fuel
  induction fuel with
  | zero =>
    intro left lvalue p r h
    rw [multiplicativeLoop] at h
    cases h
  | succ n ih =>
    intro left lvalue p r h
    rw [multiplicativeLoop] at h
    split_ifs at h with h1 h2 h3
    · obtain ⟨p1, _, h⟩ := Except.bind_eq_ok _ _ _ h
      obtain ⟨⟨right, lv, p2⟩, _, h⟩ := Except.bind_eq_ok _ _ _ h
      exact ih _ _ _ _ h
    · obtain ⟨p1, _, h⟩ := Except.bind_eq_ok _ _ _ h
      obtain ⟨⟨right, lv, p2⟩, _, h⟩ := Except.bind_eq_ok _ _ _ h
      exact ih _ _ _ _ h
    · obtain ⟨p1, _, h⟩ := Except.bind_eq_ok _ _ _ h
      obtain ⟨⟨right, lv, p2⟩, _, h⟩ := Except.bind_eq_ok _ _ _ h
      exact ih _ _ _ _ h
    · cases h
      rfl

/-- Whatever follows, the loop of `additiveExpression` returns the type it was
entered with. -/
theorem additiveLoop_left (env : Env) :
    ∀ (fuel : Nat) (left : Ty) (lvalue : Bool) (p : Parser) (r : Ty × Bool × Parser),
      additiveLoop env fuel left lvalue p = Except.ok r → r.1 = left := by
  intro fuel
  induction fuel with
  | zero =>
    intro left lvalue p r h
    rw [additiveLoop] at h
    cases h
  | succ n ih =>
    intro left lvalue p r h
    rw [additiveLoop] at h
    split_ifs at h with h1 h2
    · obtain ⟨p1, _, h⟩ := Except.bind_eq_ok _ _ _ h
      obtain ⟨⟨right, lv, p2⟩, _, h⟩ := Except.bind_eq_ok _ _ _ h
      exact ih _ _ _ _ h
    · obtain ⟨p1, _, h⟩ := Except.bind_eq_ok _ _ _ h
      obtain ⟨⟨right, lv, p2⟩, _, h⟩ := Except.bind_eq_ok _ _ _ h
      exact ih _ _ _ _ h
    · cases h
      rfl

/-- Whatever follows, the loop of `relationalExpression` returns the type it was
entered with. -/
theorem relationalLoop_left (env : Env) :
    ∀ (fuel : Nat) (left : Ty) (lvalue : Bool) (p : Parser) (r : Ty × Bool × Parser),
      relationalLoop env fuel left lvalue p = Except.ok r → r.1 = left := by
  intro fuel
  induction fuel with
  | zero =>
    intro left lvalue p r h
    rw [relationalLoop] at h
    cases h
  | succ n ih =>
    intro left lvalue p r h
    rw [relationalLoop] at h
    split_ifs at h with h1 h2 h3 h4
    · obtain ⟨p1, _, h⟩ := Except.bind_eq_ok _ _ _ h
      obtain ⟨⟨right, lv, p2⟩, _, h⟩ := Except.bind_eq_ok _ _ _ h
      exact ih _ _ _ _ h
    · obtain ⟨p1, _, h⟩ := Except.bind_eq_ok _ _ _ h
      obtain ⟨⟨right, lv, p2⟩, _, h⟩ := Except.bind_eq_ok _ _ _ h
      exact ih _ _ _ _ h
    · obtain ⟨p1, _, h⟩ := Except.bind_eq_ok _ _ _ h
      obtain ⟨⟨right, lv, p2⟩, _, h⟩ := Except.bind_eq_ok _ _ _ h
      exact ih _ _ _ _ h
    · obtain ⟨p1, _, h⟩ := Except.bind_eq_ok _ _ _ h
      obtain ⟨⟨right, lv, p2⟩, _, h⟩ := Except.bind_eq_ok _ _ _ h
      exact ih _ _ _ _ h
    · cases h
      rfl

/-- C17: evaluation of the parser where the claim fails.  In a state where `p`
and `q` are `int *` and `a` is an `int`, whatever the indeterminate values are:
`additiveExpression` returns `Type(Int,1)`, the type of `p`, for `p - q`
(where `checkAdditive` gives `Type(Int)`) and for the chain `p - q - a`;
`relationalExpression` returns `Type(Int,1)` for `p < q` (where
`checkRelational` gives `Type(Int)`); `multiplicativeExpression` returns
`Type(Int,1)` for `p * a` (where `checkMultiplicative` gives the error
type). -/
theorem binary_levels_return_first_operand (strtoul : String → Nat) (junk : Nat → Ty) :
    (additiveExpression (sampleEnv strtoul junk) 10 false ⟨pointerDifference, pointerState⟩).map
        (fun r => r.1) = Except.ok (Ty.scalar sampleTokens.INT 1) ∧
    checkAdditive sampleTokens (Ty.scalar sampleTokens.INT 1) (Ty.scalar sampleTokens.INT 1) "-" =
      (Ty.scalar sampleTokens.INT 0, []) ∧
    (additiveExpression (sampleEnv strtoul junk) 10 false ⟨differenceChain, pointerState⟩).map
        (fun r => r.1) = Except.ok (Ty.scalar sampleTokens.INT 1) ∧
    (relationalExpression (sampleEnv strtoul junk) 10 false ⟨pointerComparison, pointerState⟩).map
        (fun r => r.1) = Except.ok (Ty.scalar sampleTokens.INT 1) ∧
    checkRelational sampleTokens (Ty.scalar sampleTokens.INT 1) (Ty.scalar sampleTokens.INT 1)
      "<" = (Ty.scalar sampleTokens.INT 0, []) ∧
    (multiplicativeExpression (sampleEnv strtoul junk) 10 false
        ⟨pointerProduct, pointerState⟩).map (fun r => r.1) =
      Except.ok (Ty.scalar sampleTokens.INT 1) ∧
    checkMultiplicative sampleTokens (Ty.scalar sampleTokens.INT 1) (Ty.scalar sampleTokens.INT 0)
      "*" = (Ty.error, [report bad_binary "*"]) := by
  refine ⟨by rfl, by rfl, by rfl, by rfl, by rfl, by rfl, by rfl⟩

theorem checkRelational_right_function (tk : Tokens) (left : Ty) (s : Int) (i : Nat)
    (ps : Option (List Ty)) (op : String) :
    checkRelational tk left (Ty.function s i ps) op = (Ty.error, [report bad_binary op]) := by
  have hp : (Ty.function s i ps).promote tk = Ty.function s i ps := by
    simp [Ty.promote, Ty.function, Ty.kind]
  have hv : (Ty.function s i ps).isValue = false := by
    simp [Ty.isValue, Ty.function, Ty.kind]
  simp [checkRelational, hp, hv]

/-- C18: evaluation of the parser where the claim fails.  In a state where `a`
is an `int` and `b` a function, the comparison `a > b` fails whatever the
indeterminate value is, and the one report made is
"invalid operands to binary <": the branch for `>` passes the spelling "<"
(parser.cpp:490). -/
theorem greater_than_reported_as_less (strtoul : String → Nat) (junk : Nat → Ty) :
    (relationalExpression (sampleEnv strtoul junk) 10 false ⟨greaterThan, pointerState⟩).map
        (fun r => (r.2.2.input, r.2.2.checker.reports)) =
      Except.ok ([⟨Token.ch ';', ";"⟩], [report bad_binary "<"]) ∧
    report bad_binary "<" ≠ report bad_binary ">" := by
  constructor
  · have h : (relationalExpression (sampleEnv strtoul junk) 10 false
          ⟨greaterThan, pointerState⟩).map (fun r => (r.2.2.input, r.2.2.checker.reports)) =
        Except.ok ([⟨Token.ch ';', ";"⟩],
          (checkRelational sampleTokens (junk 1) (Ty.function sampleTokens.INT 0 none) "<").2) := by
      rfl
    rw [checkRelational_right_function] at h
    exact h
  · decide

/-! ## Symmetry of `+` and the subtraction in `checkDeref` -/

/-- C21: for all types `a` and `b`, `checkAdditive(a, b, "+")` and
`checkAdditive(b, a, "+")` return the same type (both the error type, or the
same `Int` or pointer type) and the same reports, so one reports a diagnostic
exactly when the other does. -/
theorem checkAdditive_plus_comm (tk : Tokens) (a b : Ty) :
    checkAdditive tk a b "+" = checkAdditive tk b a "+" ∧
    ((checkAdditive tk a b "+").2 = [] ↔ (checkAdditive tk b a "+").2 = []) := by
  have hmain : checkAdditive tk a b "+" = checkAdditive tk b a "+" := by
    have hl := Ty.isPointer_isInteger tk (a.promote tk)
    have hr := Ty.isPointer_isInteger tk (b.promote tk)
    unfold checkAdditive
    simp only []
    cases h1 : (a.promote tk).isPointer <;> cases h2 : (b.promote tk).isPointer <;>
      cases h3 : (a.promote tk).isInteger tk <;> cases h4 : (b.promote tk).isInteger tk <;>
      by_cases h5 : (a.promote tk).specifier = tk.VOID <;>
      by_cases h6 : (b.promote tk).specifier = tk.VOID <;>
      simp_all
  exact ⟨hmain, by rw [hmain]⟩

theorem Ty.promote_indirection_le (tk : Tokens) (t : Ty) :
    (t.promote tk).indirection ≤ t.indirection + 1 := by
  unfold Ty.promote
  split_ifs with h1 h2
  · simp only [Ty.scalar, Ty.indirection]
    exact Nat.mod_le _ _
  · simp [Ty.scalar, Ty.indirection]
  · exact Nat.le_succ _

/-- C22: whenever `checkDeref` takes its success branch (the promoted operand
is a pointer with a non-void specifier; the `unsigned` members of the operand
are in range), the promoted operand's indirection is at least 1, so the
`unsigned` subtraction does not wrap: the returned type is a Scalar with the
promoted, non-void specifier whose indirection is exactly one less than the
promoted operand's and at most the operand's own. -/
theorem checkDeref_no_wrap (tk : Tokens) (operand : Ty) (lvalue : Bool)
    (hr : operand.InRange)
    (hp : (operand.promote tk).isPointer = true ∧ (operand.promote tk).specifier ≠ tk.VOID) :
    1 ≤ (operand.promote tk).indirection ∧
    ((operand.promote tk).indirection + Ty.UMAX - 1) % Ty.UMAX =
      (operand.promote tk).indirection - 1 ∧
    (checkDeref tk operand lvalue).1.indirection + 1 = (operand.promote tk).indirection ∧
    (checkDeref tk operand lvalue).1.indirection ≤ operand.indirection ∧
    (checkDeref tk operand lvalue).1.kind = Kind.SCALAR ∧
    (checkDeref tk operand lvalue).1.specifier = (operand.promote tk).specifier ∧
    (checkDeref tk operand lvalue).1.specifier ≠ tk.VOID := by
  obtain ⟨heq, hpos⟩ := checkDeref_of_pointer tk operand lvalue hr hp
  have hlt := Ty.promote_indirection_lt tk operand hr.1
  have hle := Ty.promote_indirection_le tk operand
  have harith : ((operand.promote tk).indirection + Ty.UMAX - 1) % Ty.UMAX =
      (operand.promote tk).indirection - 1 := by
    unfold Ty.UMAX at hlt ⊢
    omega
  rw [heq]
  refine ⟨hpos, harith, ?_, ?_, rfl, rfl, hp.2⟩
  · show (operand.promote tk).indirection - 1 + 1 = (operand.promote tk).indirection
    omega
  · show (operand.promote tk).indirection - 1 ≤ operand.indirection
    omega

theorem checkDeref_no_wrap_witness :
    1 ≤ ((Ty.array sampleTokens.INT 0 5).promote sampleTokens).indirection ∧
    (((Ty.array sampleTokens.INT 0 5).promote sampleTokens).indirection + Ty.UMAX - 1) % Ty.UMAX =
      ((Ty.array sampleTokens.INT 0 5).promote sampleTokens).indirection - 1 ∧
    (checkDeref sampleTokens (Ty.array sampleTokens.INT 0 5) false).1.indirection + 1 =
      ((Ty.array sampleTokens.INT 0 5).promote sampleTokens).indirection ∧
    (checkDeref sampleTokens (Ty.array sampleTokens.INT 0 5) false).1.indirection ≤
      (Ty.array sampleTokens.INT 0 5).indirection ∧
    (checkDeref sampleTokens (Ty.array sampleTokens.INT 0 5) false).1.kind = Kind.SCALAR ∧
    (checkDeref sampleTokens (Ty.array sampleTokens.INT 0 5) false).1.specifier =
      ((Ty.array sampleTokens.INT 0 5).promote sampleTokens).specifier ∧
    (checkDeref sampleTokens (Ty.array sampleTokens.INT 0 5) false).1.specifier ≠
      sampleTokens.VOID :=
  checkDeref_no_wrap sampleTokens (Ty.array sampleTokens.INT 0 5) false (by decide)
    ⟨by rfl, by decide⟩

/-! ## Function calls in the parser -/

theorem checkAddr_function_lvalue :
    checkAddr (Ty.function sampleTokens.INT 0 (some [])) true =
      (Ty.scalar sampleTokens.INT 1, false, []) := by
  rfl

/-- C23: evaluation of the parser where the claim fails.  In a state where `b`
is a function, `primaryExpression` on the call `b()` with no argument returns
with the lvalue flag true (it is set at the identifier and only cleared after
an argument), so `&b()` is accepted by `checkAddr`: the result is the pointer
type `Type(Int,1)` and nothing is reported.  With one argument the flag is
false and `&b(a)` is reported as "invalid operand to unary &". -/
theorem call_without_arguments_is_lvalue (strtoul : String → Nat) (junk : Nat → Ty) :
    (primaryExpression (sampleEnv strtoul junk) 12 false ⟨callNoArguments, pointerState⟩).map
        (fun r => (r.2.1, r.2.2.input, r.2.2.checker.reports)) =
      Except.ok (true, [⟨Token.ch ';', ";"⟩], []) ∧
    prefixExpression (sampleEnv strtoul junk) 14 false ⟨addressOfCall, pointerState⟩ =
      Except.ok (Ty.scalar sampleTokens.INT 1, false,
        ⟨[⟨Token.ch ';', ";"⟩], pointerState⟩) ∧
    (prefixExpression (sampleEnv strtoul junk) 24 false
        ⟨addressOfCallWithArgument, pointerState⟩).map
        (fun r => (r.2.1, r.2.2.input, r.2.2.checker.reports)) =
      Except.ok (false, [⟨Token.ch ';', ";"⟩], [report bad_unary "&"]) := by
  refine ⟨by rfl, ?_, by rfl⟩
  have h : prefixExpression (sampleEnv strtoul junk) 14 false ⟨addressOfCall, pointerState⟩ =
      Except.ok ((checkAddr (Ty.function sampleTokens.INT 0 (some [])) true).1,
        (checkAddr (Ty.function sampleTokens.INT 0 (some [])) true).2.1,
        Parser.reported ⟨[⟨Token.ch ';', ";"⟩], pointerState⟩
          (checkAddr (Ty.function sampleTokens.INT 0 (some [])) true).2.2) := by
    rfl
  rw [checkAddr_function_lvalue] at h
  exact h

/-- C24: evaluation of the parser where the claim fails.  In a state where `b`
is declared `int b()`, the type synthesized by `primaryExpression` for the
call `b()` is built by `Type(specifier, indirection, &params)`
(parser.cpp:293): a Function-kind type, not the Scalar `Type(Int)`.  It is not
a value type and does not promote to an integer, so `!b()` and `-b()` return
the error type and report "invalid operand to unary !" and
"invalid operand to unary -". -/
theorem call_has_function_type (strtoul : String → Nat) (junk : Nat → Ty) :
    (primaryExpression (sampleEnv strtoul junk) 12 false ⟨callNoArguments, pointerState⟩).map
        (fun r => r.1) = Except.ok (Ty.function sampleTokens.INT 0 (some [])) ∧
    (Ty.function sampleTokens.INT 0 (some [])).kind = Kind.FUNCTION ∧
    (Ty.function sampleTokens.INT 0 (some [])).isValue = false ∧
    ((Ty.function sampleTokens.INT 0 (some [])).promote sampleTokens).isInteger sampleTokens =
      false ∧
    (prefixExpression (sampleEnv strtoul junk) 14 false ⟨notCall, pointerState⟩).map
        (fun r => (r.1.kind, r.2.2.checker.reports)) =
      Except.ok (Kind.ERROR, [report bad_unary "!"]) ∧
    (prefixExpression (sampleEnv strtoul junk) 14 false ⟨negatedCall, pointerState⟩).map
        (fun r => (r.1.kind, r.2.2.checker.reports)) =
      Except.ok (Kind.ERROR, [report bad_unary "-"]) := by
  refine ⟨by rfl, by rfl, by rfl, by rfl, by rfl, by rfl⟩

/-! ## Scope balance: the checker -/

theorem Checker.Balanced.refl (c : Checker) : c.Balanced c :=
  ⟨rfl, rfl, Nat.le_refl _, fun _ _ => rfl⟩

theorem Checker.Balanced.trans {c1 c2 c3 : Checker} (h12 : c1.Balanced c2)
    (h23 : c2.Balanced c3) : c1.Balanced c3 := by
  obtain ⟨a1, a2, a3, a4⟩ := h12
  obtain ⟨b1, b2, b3, b4⟩ := h23
  refine ⟨by rw [b1, a1], by rw [b2, a2], Nat.le_trans a3 b3, ?_⟩
  intro i hi
  rw [b4 i (Nat.lt_of_lt_of_le hi a3), a4 i hi]

theorem Checker.Balanced.of_scopes_eq {c1 c2 : Checker} (h1 : c2.toplevel = c1.toplevel)
    (h2 : c2.outermost = c1.outermost) (h3 : c2.scopes = c1.scopes) : c1.Balanced c2 :=
  ⟨h1, h2, by rw [h3], fun _ _ => by rw [h3]⟩

theorem Checker.Balanced.of_set {c1 c2 : Checker} (i : Nat) (sc1 sc2 : Scope)
    (h1 : c2.toplevel = c1.toplevel) (h2 : c2.outermost = c1.outermost)
    (hsc : c1.scopes[i]? = some sc1) (henc : sc2.enclosing = sc1.enclosing)
    (h3 : c2.scopes = c1.scopes.set i sc2) : c1.Balanced c2 := by
  have hlt : i < c1.scopes.length := (List.getElem?_eq_some_iff.1 hsc).1
  refine ⟨h1, h2, by rw [h3, List.length_set], ?_⟩
  intro k _
  rw [h3]
  by_cases hk : i = k
  · subst hk
    rw [hsc]
    simp [hlt, henc]
  · rw [List.getElem?_set_ne hk]

theorem checkIdentifier_balanced (name : String) (c1 c2 : Checker) (symbol : Symbol)
    (h : checkIdentifier name c1 = some (symbol, c2)) : c1.Balanced c2 := by
  unfold checkIdentifier at h
  cases htop : c1.toplevel with
  | none => simp [htop] at h
  | some top =>
    cases hsc : c1.scopes[top]? with
    | none => simp [htop, hsc] at h
    | some sc =>
      cases hl : c1.lookup name with
      | none => simp [htop, hsc, hl] at h
      | some found =>
        cases found with
        | some s =>
          simp only [htop, hsc, hl, Option.some.injEq, Prod.mk.injEq] at h
          rw [← h.2]
          exact Checker.Balanced.refl c1
        | none =>
          simp only [htop, hsc, hl, Option.some.injEq, Prod.mk.injEq] at h
          rw [← h.2]
          exact Checker.Balanced.of_set top sc (sc.insert ⟨name, Ty.error⟩) rfl rfl hsc rfl rfl

theorem declareVariable_balanced (tk : Tokens) (name : String) (type : Ty) (c1 c2 : Checker)
    (symbol : Symbol) (h : declareVariable tk name type c1 = some (symbol, c2)) :
    c1.Balanced c2 := by
  cases htop : c1.toplevel with
  | none => simp [declareVariable, Checker.print, htop] at h
  | some top =>
    cases hsc : c1.scopes[top]? with
    | none => simp [declareVariable, Checker.print, htop, hsc] at h
    | some sc =>
      obtain ⟨s2, c3, h3, hsame⟩ := declareVariable_sameButTop tk name type c1 top sc htop hsc
      rw [h3] at h
      simp only [Option.some.injEq, Prod.mk.injEq] at h
      rw [← h.2]
      obtain ⟨a1, a2, a3, a4, sc1, sc2, hsc1, hsc2, henc, _⟩ := hsame
      refine ⟨a1, a2, by rw [a3], ?_⟩
      intro k _
      by_cases hk : k = top
      · rw [hk, hsc1, hsc2]
        simp [henc]
      · rw [a4 k hk]

theorem declareFunction_balanced (name : String) (type : Ty) (c1 c2 : Checker)
    (symbol : Symbol) (h : declareFunction name type c1 = some (symbol, c2)) :
    c1.Balanced c2 := by
  cases hout : c1.outermost with
  | none => simp [declareFunction, Checker.print, hout] at h
  | some out =>
    cases hsc : c1.scopes[out]? with
    | none => simp [declareFunction, Checker.print, hout, hsc] at h
    | some sc =>
      obtain ⟨hfound, hnew⟩ := declareFunction_cases name type c1 out sc hout hsc
      cases hfind : sc.find name with
      | none =>
        obtain ⟨c3, h3, _, h5, h6, h7, _⟩ := hnew hfind
        rw [h3] at h
        simp only [Option.some.injEq, Prod.mk.injEq] at h
        rw [← h.2]
        exact Checker.Balanced.of_set out sc (sc.insert ⟨name, type⟩) h5 h6 hsc rfl h7
      | some old =>
        obtain ⟨c3, h3, h4, h5, h6, _⟩ := hfound old hfind
        rw [h3] at h
        simp only [Option.some.injEq, Prod.mk.injEq] at h
        rw [← h.2]
        exact Checker.Balanced.of_scopes_eq h5 h6 h4

theorem defineFunction_balanced (name : String) (type : Ty) (c1 c2 : Checker)
    (symbol : Symbol) (h : defineFunction name type c1 = some (symbol, c2)) :
    c1.Balanced c2 := by
  unfold defineFunction at h
  cases hout : c1.outermost with
  | none => simp [Checker.print, hout] at h
  | some out =>
    cases hsc : c1.scopes[out]? with
    | none => simp [Checker.print, hout, hsc] at h
    | some sc =>
      have hout0 : (c1.print name type).outermost = some out := hout
      have hsc0 : (c1.print name type).scopes[out]? = some sc := hsc
      simp only [hout0, hsc0] at h
      cases hfind : sc.find name with
      | none =>
        simp only [hfind, Option.some.injEq, Prod.mk.injEq] at h
        rw [← h.2]
        exact Checker.Balanced.of_set out sc (sc.insert ⟨name, type⟩) rfl rfl hsc rfl rfl
      | some old =>
        simp only [hfind, Option.some.injEq, Prod.mk.injEq] at h
        rw [← h.2]
        refine Checker.Balanced.of_set out sc ((sc.remove name).insert ⟨name, type⟩) ?_ ?_ hsc
          rfl ?_
        · simp only [Checker.setScope]; split_ifs <;> rfl
        · simp only [Checker.setScope]; split_ifs <;> rfl
        · simp only [Checker.setScope]; split_ifs <;> rfl

/-- Closing the scope that `openScope` opened, after a balanced body, gives a
state balanced with the one before `openScope`. -/
theorem closeScope_balanced (c c2 c3 : Checker) (popped : Option Nat)
    (hout : c.outermost ≠ none) (hbody : (openScope c).2.Balanced c2)
    (hclose : closeScope c2 = some (popped, c3)) : c.Balanced c3 := by
  obtain ⟨b1, b2, b3, b4⟩ := hbody
  have hlen : (openScope c).2.scopes.length = c.scopes.length + 1 := by
    rw [openScope_scopes]; simp
  have hnew := b4 c.scopes.length (by rw [hlen]; exact Nat.lt_succ_self _)
  rw [openScope_new_scope] at hnew
  cases hsc2 : c2.scopes[c.scopes.length]? with
  | none => rw [hsc2] at hnew; simp at hnew
  | some sc2 =>
    rw [hsc2] at hnew
    simp only [Option.map_some', Option.some.injEq] at hnew
    have htop2 : c2.toplevel = some c.scopes.length := by rw [b1, openScope_toplevel]
    rw [closeScope_of_toplevel c2 c.scopes.length sc2 htop2 hsc2] at hclose
    simp only [Option.some.injEq, Prod.mk.injEq] at hclose
    rw [← hclose.2]
    have hout1 : (openScope c).2.outermost = c.outermost := by
      unfold openScope
      simp only []
      rw [if_neg hout]
    refine ⟨hnew, by show c2.outermost = c.outermost; rw [b2, hout1], ?_, ?_⟩
    · show c.scopes.length ≤ c2.scopes.length
      omega
    · intro k hk
      show (c2.scopes[k]?).map Scope.enclosing = _
      rw [b4 k (by omega), openScope_old_scope c k hk]

/-! ## Scope balance: steps of the parser -/

theorem Parser.error_ne_ok {α : Type} (p : Parser) (a : α) :
    (p.error : Except Halt α) ≠ Except.ok a := by
  unfold Parser.error
  split_ifs <;> exact fun h => by cases h

theorem Parser.matchToken_checker (p p1 : Parser) (t : Token)
    (h : p.matchToken t = Except.ok p1) : p1.checker = p.checker := by
  unfold Parser.matchToken at h
  split_ifs at h
  · exact absurd h (Parser.error_ne_ok p p1)
  · cases h
    rfl

theorem matchToken_step {α : Type} (c : Checker) (p : Parser) (t : Token)
    (k : Parser → Except Halt α) (r : α) (hb : c.Balanced p.checker)
    (h : (p.matchToken t >>= k) = Except.ok r) :
    ∃ p1, c.Balanced p1.checker ∧ k p1 = Except.ok r := by
  obtain ⟨p1, h1, h2⟩ := Except.bind_eq_ok _ _ _ h
  exact ⟨p1, by rw [Parser.matchToken_checker p p1 t h1]; exact hb, h2⟩

theorem matchToken_last (c : Checker) (p r : Parser) (t : Token)
    (hb : c.Balanced p.checker) (h : p.matchToken t = Except.ok r) :
    c.Balanced r.checker := by
  rw [Parser.matchToken_checker p r t h]
  exact hb

theorem identifier_step {α : Type} (c : Checker) (p : Parser)
    (k : String × Parser → Except Halt α) (r : α) (hb : c.Balanced p.checker)
    (h : (p.identifier >>= k) = Except.ok r) :
    ∃ a : String × Parser, c.Balanced a.2.checker ∧ k a = Except.ok r := by
  obtain ⟨a, h1, h2⟩ := Except.bind_eq_ok _ _ _ h
  refine ⟨a, ?_, h2⟩
  unfold Parser.identifier at h1
  cases hm : p.matchToken Token.ID with
  | error e => rw [hm] at h1; cases h1
  | ok p1 =>
    rw [hm] at h1
    cases h1
    rw [Parser.matchToken_checker p p1 _ hm]
    exact hb

theorem number_step {α : Type} (env : Env) (c : Checker) (p : Parser)
    (k : Nat × Parser → Except Halt α) (r : α) (hb : c.Balanced p.checker)
    (h : (p.number env >>= k) = Except.ok r) :
    ∃ a : Nat × Parser, c.Balanced a.2.checker ∧ k a = Except.ok r := by
  obtain ⟨a, h1, h2⟩ := Except.bind_eq_ok _ _ _ h
  refine ⟨a, ?_, h2⟩
  unfold Parser.number at h1
  cases hm : p.matchToken Token.NUM with
  | error e => rw [hm] at h1; cases h1
  | ok p1 =>
    rw [hm] at h1
    cases h1
    rw [Parser.matchToken_checker p p1 _ hm]
    exact hb

theorem specifier_step {α : Type} (env : Env) (c : Checker) (p : Parser)
    (k : Int × Parser → Except Halt α) (r : α) (hb : c.Balanced p.checker)
    (h : (specifier env p >>= k) = Except.ok r) :
    ∃ a : Int × Parser, c.Balanced a.2.checker ∧ k a = Except.ok r := by
  obtain ⟨a, h1, h2⟩ := Except.bind_eq_ok _ _ _ h
  refine ⟨a, ?_, h2⟩
  unfold specifier at h1
  split_ifs at h1
  · cases hm : p.matchToken p.lookahead with
    | error e => rw [hm] at h1; cases h1
    | ok p1 =>
      rw [hm] at h1
      cases h1
      rw [Parser.matchToken_checker p p1 _ hm]
      exact hb
  · exact absurd h1 (Parser.error_ne_ok p a)

theorem check_step {α β : Type} (f : Checker → Option (β × Checker))
    (hf : ∀ (c0 : Checker) (b : β) (c1 : Checker), f c0 = some (b, c1) → c0.Balanced c1)
    (c : Checker) (p : Parser) (k : β × Parser → Except Halt α) (r : α)
    (hb : c.Balanced p.checker) (h : (p.check f >>= k) = Except.ok r) :
    ∃ a : β × Parser, c.Balanced a.2.checker ∧ k a = Except.ok r := by
  obtain ⟨a, h1, h2⟩ := Except.bind_eq_ok _ _ _ h
  refine ⟨a, ?_, h2⟩
  unfold Parser.check at h1
  cases hc : f p.checker with
  | none => rw [hc] at h1; cases h1
  | some res =>
    obtain ⟨b, c1⟩ := res
    rw [hc] at h1
    cases h1
    exact Checker.Balanced.trans hb (hf p.checker b c1 hc)

theorem reported_balanced (c : Checker) (p : Parser) (ds : List Diag)
    (hb : c.Balanced p.checker) : c.Balanced (p.reported ds).checker :=
  Checker.Balanced.trans hb (Checker.Balanced.of_scopes_eq rfl rfl rfl)

theorem expression_step {α : Type} (f : Bool → Parser → Except Halt (Ty × Bool × Parser))
    (hf : KeepsExpression f) (c : Checker) (lvalue : Bool) (p : Parser)
    (k : Ty × Bool × Parser → Except Halt α) (r : α)
    (hb : c.Balanced p.checker) (h : (f lvalue p >>= k) = Except.ok r) :
    ∃ a : Ty × Bool × Parser, c.Balanced a.2.2.checker ∧ k a = Except.ok r := by
  obtain ⟨a, h1, h2⟩ := Except.bind_eq_ok _ _ _ h
  exact ⟨a, hf c lvalue p a hb h1, h2⟩

theorem arguments_step {α : Type}
    (f : List Ty → Parser → Except Halt (List Ty × Bool × Parser))
    (hf : KeepsArguments f) (c : Checker) (params : List Ty) (p : Parser)
    (k : List Ty × Bool × Parser → Except Halt α) (r : α)
    (hb : c.Balanced p.checker) (h : (f params p >>= k) = Except.ok r) :
    ∃ a : List Ty × Bool × Parser, c.Balanced a.2.2.checker ∧ k a = Except.ok r := by
  obtain ⟨a, h1, h2⟩ := Except.bind_eq_ok _ _ _ h
  exact ⟨a, hf c params p a hb h1, h2⟩

/-! ## Scope balance: expressions -/

theorem primaryExpression_zero_balanced (env : Env) : KeepsExpression (primaryExpression env 0) := by
  intro c lvalue p r hb h
  rw [primaryExpression] at h
  cases h

theorem remainingArguments_zero_balanced (env : Env) : KeepsArguments (remainingArguments env 0) := by
  intro c params p r hb h
  rw [remainingArguments] at h
  cases h

theorem postfixExpression_zero_balanced (env : Env) : KeepsExpression (postfixExpression env 0) := by
  intro c lvalue p r hb h
  rw [postfixExpression] at h
  cases h

theorem postfixLoop_zero_balanced (env : Env) : KeepsLoop (postfixLoop env 0) := by
  intro c left lvalue p r hb h
  rw [postfixLoop] at h
  cases h

theorem prefixExpression_zero_balanced (env : Env) : KeepsExpression (prefixExpression env 0) := by
  intro c lvalue p r hb h
  rw [prefixExpression] at h
  cases h

theorem multiplicativeExpression_zero_balanced (env : Env) : KeepsExpression (multiplicativeExpression env 0) := by
  intro c lvalue p r hb h
  rw [multiplicativeExpression] at h
  cases h

theorem multiplicativeLoop_zero_balanced (env : Env) : KeepsLoop (multiplicativeLoop env 0) := by
  intro c left lvalue p r hb h
  rw [multiplicativeLoop] at h
  cases h

theorem additiveExpression_zero_balanced (env : Env) : KeepsExpression (additiveExpression env 0) := by
  intro c lvalue p r hb h
  rw [additiveExpression] at h
  cases h

theorem additiveLoop_zero_balanced (env : Env) : KeepsLoop (additiveLoop env 0) := by
  intro c left lvalue p r hb h
  rw [additiveLoop] at h
  cases h

theorem relationalExpression_zero_balanced (env : Env) : KeepsExpression (relationalExpression env 0) := by
  intro c lvalue p r hb h
  rw [relationalExpression] at h
  cases h

theorem relationalLoop_zero_balanced (env : Env) : KeepsLoop (relationalLoop env 0) := by
  intro c left lvalue p r hb h
  rw [relationalLoop] at h
  cases h

theorem equalityExpression_zero_balanced (env : Env) : KeepsExpression (equalityExpression env 0) := by
  intro c lvalue p r hb h
  rw [equalityExpression] at h
  cases h

theorem equalityLoop_zero_balanced (env : Env) : KeepsLoop (equalityLoop env 0) := by
  intro c left lvalue p r hb h
  rw [equalityLoop] at h
  cases h

theorem logicalAndExpression_zero_balanced (env : Env) : KeepsExpression (logicalAndExpression env 0) := by
  intro c lvalue p r hb h
  rw [logicalAndExpression] at h
  cases h

theorem logicalAndLoop_zero_balanced (env : Env) : KeepsLoop (logicalAndLoop env 0) := by
  intro c left lvalue p r hb h
  rw [logicalAndLoop] at h
  cases h

theorem expression_zero_balanced (env : Env) : KeepsExpression (expression env 0) := by
  intro c lvalue p r hb h
  rw [expression] at h
  cases h

theorem expressionLoop_zero_balanced (env : Env) : KeepsLoop (expressionLoop env 0) := by
  intro c left lvalue p r hb h
  rw [expressionLoop] at h
  cases h

theorem primaryExpression_succ_balanced (env : Env) (fuel : Nat)
    (hexpr : KeepsExpression (expression env fuel))
    (hargs : KeepsArguments (remainingArguments env fuel)) :
    KeepsExpression (primaryExpression env (fuel + 1)) := by
  intro c lvalue p r hb h
  rw [primaryExpression] at h
  split_ifs at h with h1 h2 h3 h4
  · obtain ⟨p1, hb, h⟩ := matchToken_step c p _ _ r hb h
    obtain ⟨⟨expr, lv, p2⟩, hb, h⟩ := expression_step _ hexpr c lvalue p1 _ r hb h
    obtain ⟨p3, hb, h⟩ := matchToken_step c p2 _ _ r hb h
    cases h
    exact hb
  · obtain ⟨p1, hb, h⟩ := matchToken_step c p _ _ r hb h
    cases h
    exact hb
  · obtain ⟨p1, hb, h⟩ := matchToken_step c p _ _ r hb h
    cases h
    exact hb
  · obtain ⟨⟨name, p1⟩, hb, h⟩ := identifier_step c p _ r hb h
    obtain ⟨⟨id, p2⟩, hb, h⟩ := check_step (checkIdentifier name)
      (fun c0 b c1 hc => checkIdentifier_balanced name c0 c1 b hc) c p1 _ r hb h
    dsimp only at h
    split_ifs at h with h5
    · obtain ⟨p3, hb, h⟩ := matchToken_step c p2 _ _ r hb h
      split_ifs at h with h6
      · obtain ⟨⟨arg, lv1, p5⟩, hb, h⟩ := expression_step _ hexpr c true p3 _ r hb h
        obtain ⟨⟨params, lv2, p6⟩, hb, h⟩ := arguments_step _ hargs c _ p5 _ r hb h
        obtain ⟨p7, hb, h⟩ := matchToken_step c p6 _ _ r hb h
        cases h
        exact hb
      · obtain ⟨y, hy, h⟩ := Except.bind_eq_ok _ _ _ h
        cases hy
        obtain ⟨p7, hb, h⟩ := matchToken_step c p3 _ _ r hb h
        cases h
        exact hb
    · cases h
      exact hb
  · exact absurd h (Parser.error_ne_ok p r)

theorem remainingArguments_succ_balanced (env : Env) (fuel : Nat)
    (hexpr : KeepsExpression (expression env fuel))
    (ih : KeepsArguments (remainingArguments env fuel)) :
    KeepsArguments (remainingArguments env (fuel + 1)) := by
  intro c params p r hb h
  rw [remainingArguments] at h
  split_ifs at h with h1
  · obtain ⟨p1, hb, h⟩ := matchToken_step c p _ _ r hb h
    obtain ⟨⟨arg, lv, p2⟩, hb, h⟩ := expression_step _ hexpr c false p1 _ r hb h
    exact ih c _ p2 r hb h
  · cases h
    exact hb

theorem postfixLoop_succ_balanced (env : Env) (fuel : Nat)
    (hexpr : KeepsExpression (expression env fuel))
    (ih : KeepsLoop (postfixLoop env fuel)) :
    KeepsLoop (postfixLoop env (fuel + 1)) := by
  intro c left lvalue p r hb h
  rw [postfixLoop] at h
  split_ifs at h with h1
  · obtain ⟨p1, hb, h⟩ := matchToken_step c p _ _ r hb h
    obtain ⟨⟨index, lv, p2⟩, hb, h⟩ := expression_step _ hexpr c lvalue p1 _ r hb h
    obtain ⟨p3, hb, h⟩ := matchToken_step c p2 _ _ r hb h
    exact ih c _ _ _ r (reported_balanced c p3 _ hb) h
  · cases h
    exact hb

theorem prefixExpression_succ_balanced (env : Env) (fuel : Nat)
    (hpost : KeepsExpression (postfixExpression env fuel))
    (ih : KeepsExpression (prefixExpression env fuel)) :
    KeepsExpression (prefixExpression env (fuel + 1)) := by
  intro c lvalue p r hb h
  rw [prefixExpression] at h
  split_ifs at h with h1 h2 h3 h4 h5
  · obtain ⟨p1, hb, h⟩ := matchToken_step c p _ _ r hb h
    obtain ⟨⟨expr, lv, p2⟩, hb, h⟩ := expression_step _ ih c lvalue p1 _ r hb h
    cases h
    exact reported_balanced c p2 _ hb
  · obtain ⟨p1, hb, h⟩ := matchToken_step c p _ _ r hb h
    obtain ⟨⟨expr, lv, p2⟩, hb, h⟩ := expression_step _ ih c lvalue p1 _ r hb h
    cases h
    exact reported_balanced c p2 _ hb
  · obtain ⟨p1, hb, h⟩ := matchToken_step c p _ _ r hb h
    obtain ⟨⟨expr, lv, p2⟩, hb, h⟩ := expression_step _ ih c lvalue p1 _ r hb h
    cases h
    exact reported_balanced c p2 _ hb
  · obtain ⟨p1, hb, h⟩ := matchToken_step c p _ _ r hb h
    obtain ⟨⟨expr, lv, p2⟩, hb, h⟩ := expression_step _ ih c lvalue p1 _ r hb h
    cases h
    exact reported_balanced c p2 _ hb
  · obtain ⟨p1, hb, h⟩ := matchToken_step c p _ _ r hb h
    obtain ⟨⟨expr, lv, p2⟩, hb, h⟩ := expression_step _ ih c lvalue p1 _ r hb h
    cases h
    exact reported_balanced c p2 _ hb
  · exact hpost c lvalue p r hb h

theorem postfixExpression_succ_balanced (env : Env) (fuel : Nat)
    (hsub : KeepsExpression (primaryExpression env fuel)) (hloop : KeepsLoop (postfixLoop env fuel)) :
    KeepsExpression (postfixExpression env (fuel + 1)) := by
  intro c lvalue p r hb h
  rw [postfixExpression] at h
  obtain ⟨⟨left, lv, p1⟩, hb, h⟩ := expression_step _ hsub c lvalue p _ r hb h
  exact hloop c left lv p1 r hb h

theorem multiplicativeExpression_succ_balanced (env : Env) (fuel : Nat)
    (hsub : KeepsExpression (prefixExpression env fuel)) (hloop : KeepsLoop (multiplicativeLoop env fuel)) :
    KeepsExpression (multiplicativeExpression env (fuel + 1)) := by
  intro c lvalue p r hb h
  rw [multiplicativeExpression] at h
  obtain ⟨⟨left, lv, p1⟩, hb, h⟩ := expression_step _ hsub c lvalue p _ r hb h
  exact hloop c left lv p1 r hb h

theorem multiplicativeLoop_succ_balanced (env : Env) (fuel : Nat)
    (hsub : KeepsExpression (prefixExpression env fuel)) (ih : KeepsLoop (multiplicativeLoop env fuel)) :
    KeepsLoop (multiplicativeLoop env (fuel + 1)) := by
  intro c left lvalue p r hb h
  rw [multiplicativeLoop] at h
  split_ifs at h with h1 h2 h3
  · obtain ⟨p1, hb, h⟩ := matchToken_step c p _ _ r hb h
    obtain ⟨⟨right, lv, p2⟩, hb, h⟩ := expression_step _ hsub c lvalue p1 _ r hb h
    exact ih c _ _ _ r (reported_balanced c p2 _ hb) h
  · obtain ⟨p1, hb, h⟩ := matchToken_step c p _ _ r hb h
    obtain ⟨⟨right, lv, p2⟩, hb, h⟩ := expression_step _ hsub c lvalue p1 _ r hb h
    exact ih c _ _ _ r (reported_balanced c p2 _ hb) h
  · obtain ⟨p1, hb, h⟩ := matchToken_step c p _ _ r hb h
    obtain ⟨⟨right, lv, p2⟩, hb, h⟩ := expression_step _ hsub c lvalue p1 _ r hb h
    exact ih c _ _ _ r (reported_balanced c p2 _ hb) h
  · cases h
    exact hb

theorem additiveExpression_succ_balanced (env : Env) (fuel : Nat)
    (hsub : KeepsExpression (multiplicativeExpression env fuel)) (hloop : KeepsLoop (additiveLoop env fuel)) :
    KeepsExpression (additiveExpression env (fuel + 1)) := by
  intro c lvalue p r hb h
  rw [additiveExpression] at h
  obtain ⟨⟨left, lv, p1⟩, hb, h⟩ := expression_step _ hsub c lvalue p _ r hb h
  exact hloop c left lv p1 r hb h

theorem additiveLoop_succ_balanced (env : Env) (fuel : Nat)
    (hsub : KeepsExpression (multiplicativeExpression env fuel)) (ih : KeepsLoop (additiveLoop env fuel)) :
    KeepsLoop (additiveLoop env (fuel + 1)) := by
  intro c left lvalue p r hb h
  rw [additiveLoop] at h
  split_ifs at h with h1 h2
  · obtain ⟨p1, hb, h⟩ := matchToken_step c p _ _ r hb h
    obtain ⟨⟨right, lv, p2⟩, hb, h⟩ := expression_step _ hsub c lvalue p1 _ r hb h
    exact ih c _ _ _ r (reported_balanced c p2 _ hb) h
  · obtain ⟨p1, hb, h⟩ := matchToken_step c p _ _ r hb h
    obtain ⟨⟨right, lv, p2⟩, hb, h⟩ := expression_step _ hsub c lvalue p1 _ r hb h
    exact ih c _ _ _ r (reported_balanced c p2 _ hb) h
  · cases h
    exact hb

theorem relationalExpression_succ_balanced (env : Env) (fuel : Nat)
    (hsub : KeepsExpression (additiveExpression env fuel)) (hloop : KeepsLoop (relationalLoop env fuel)) :
    KeepsExpression (relationalExpression env (fuel + 1)) := by
  intro c lvalue p r hb h
  rw [relationalExpression] at h
  obtain ⟨⟨left, lv, p1⟩, hb, h⟩ := expression_step _ hsub c lvalue p _ r hb h
  exact hloop c left lv p1 r hb h

theorem relationalLoop_succ_balanced (env : Env) (fuel : Nat)
    (hsub : KeepsExpression (additiveExpression env fuel)) (ih : KeepsLoop (relationalLoop env fuel)) :
    KeepsLoop (relationalLoop env (fuel + 1)) := by
  intro c left lvalue p r hb h
  rw [relationalLoop] at h
  split_ifs at h with h1 h2 h3 h4
  · obtain ⟨p1, hb, h⟩ := matchToken_step c p _ _ r hb h
    obtain ⟨⟨right, lv, p2⟩, hb, h⟩ := expression_step _ hsub c lvalue p1 _ r hb h
    exact ih c _ _ _ r (reported_balanced c p2 _ hb) h
  · obtain ⟨p1, hb, h⟩ := matchToken_step c p _ _ r hb h
    obtain ⟨⟨right, lv, p2⟩, hb, h⟩ := expression_step _ hsub c lvalue p1 _ r hb h
    exact ih c _ _ _ r (reported_balanced c p2 _ hb) h
  · obtain ⟨p1, hb, h⟩ := matchToken_step c p _ _ r hb h
    obtain ⟨⟨right, lv, p2⟩, hb, h⟩ := expression_step _ hsub c lvalue p1 _ r hb h
    exact ih c _ _ _ r (reported_balanced c p2 _ hb) h
  · obtain ⟨p1, hb, h⟩ := matchToken_step c p _ _ r hb h
    obtain ⟨⟨right, lv, p2⟩, hb, h⟩ := expression_step _ hsub c lvalue p1 _ r hb h
    exact ih c _ _ _ r (reported_balanced c p2 _ hb) h
  · cases h
    exact hb

theorem equalityExpression_succ_balanced (env : Env) (fuel : Nat)
    (hsub : KeepsExpression (relationalExpression env fuel)) (hloop : KeepsLoop (equalityLoop env fuel)) :
    KeepsExpression (equalityExpression env (fuel + 1)) := by
  intro c lvalue p r hb h
  rw [equalityExpression] at h
  obtain ⟨⟨left, lv, p1⟩, hb, h⟩ := expression_step _ hsub c lvalue p _ r hb h
  exact hloop c left lv p1 r hb h

theorem equalityLoop_succ_balanced (env : Env) (fuel : Nat)
    (hsub : KeepsExpression (relationalExpression env fuel)) (ih : KeepsLoop (equalityLoop env fuel)) :
    KeepsLoop (equalityLoop env (fuel + 1)) := by
  intro c left lvalue p r hb h
  rw [equalityLoop] at h
  split_ifs at h with h1 h2
  · obtain ⟨p1, hb, h⟩ := matchToken_step c p _ _ r hb h
    obtain ⟨⟨right, lv, p2⟩, hb, h⟩ := expression_step _ hsub c lvalue p1 _ r hb h
    exact ih c _ _ _ r (reported_balanced c p2 _ hb) h
  · obtain ⟨p1, hb, h⟩ := matchToken_step c p _ _ r hb h
    obtain ⟨⟨right, lv, p2⟩, hb, h⟩ := expression_step _ hsub c lvalue p1 _ r hb h
    exact ih c _ _ _ r (reported_balanced c p2 _ hb) h
  · cases h
    exact hb

theorem logicalAndExpression_succ_balanced (env : Env) (fuel : Nat)
    (hsub : KeepsExpression (equalityExpression env fuel)) (hloop : KeepsLoop (logicalAndLoop env fuel)) :
    KeepsExpression (logicalAndExpression env (fuel + 1)) := by
  intro c lvalue p r hb h
  rw [logicalAndExpression] at h
  obtain ⟨⟨left, lv, p1⟩, hb, h⟩ := expression_step _ hsub c lvalue p _ r hb h
  exact hloop c left lv p1 r hb h

theorem logicalAndLoop_succ_balanced (env : Env) (fuel : Nat)
    (hsub : KeepsExpression (equalityExpression env fuel)) (ih : KeepsLoop (logicalAndLoop env fuel)) :
    KeepsLoop (logicalAndLoop env (fuel + 1)) := by
  intro c left lvalue p r hb h
  rw [logicalAndLoop] at h
  split_ifs at h with h1
  · obtain ⟨p1, hb, h⟩ := matchToken_step c p _ _ r hb h
    obtain ⟨⟨right, lv, p2⟩, hb, h⟩ := expression_step _ hsub c lvalue p1 _ r hb h
    exact ih c _ _ _ r (reported_balanced c p2 _ hb) h
  · cases h
    exact hb

theorem expression_succ_balanced (env : Env) (fuel : Nat)
    (hsub : KeepsExpression (logicalAndExpression env fuel)) (hloop : KeepsLoop (expressionLoop env fuel)) :
    KeepsExpression (expression env (fuel + 1)) := by
  intro c lvalue p r hb h
  rw [expression] at h
  obtain ⟨⟨left, lv, p1⟩, hb, h⟩ := expression_step _ hsub c lvalue p _ r hb h
  exact hloop c left lv p1 r hb h

theorem expressionLoop_succ_balanced (env : Env) (fuel : Nat)
    (hsub : KeepsExpression (logicalAndExpression env fuel)) (ih : KeepsLoop (expressionLoop env fuel)) :
    KeepsLoop (expressionLoop env (fuel + 1)) := by
  intro c left lvalue p r hb h
  rw [expressionLoop] at h
  split_ifs at h with h1
  · obtain ⟨p1, hb, h⟩ := matchToken_step c p _ _ r hb h
    obtain ⟨⟨right, lv, p2⟩, hb, h⟩ := expression_step _ hsub c lvalue p1 _ r hb h
    exact ih c _ _ _ r (reported_balanced c p2 _ hb) h
  · cases h
    exact hb

/-- Every expression-level function of the parser leaves the scopes balanced,
whatever the fuel. -/
theorem expressions_balanced (env : Env) (fuel : Nat) :
    KeepsExpression (primaryExpression env fuel) ∧
    KeepsArguments (remainingArguments env fuel) ∧
    KeepsExpression (postfixExpression env fuel) ∧
    KeepsLoop (postfixLoop env fuel) ∧
    KeepsExpression (prefixExpression env fuel) ∧
    KeepsExpression (multiplicativeExpression env fuel) ∧
    KeepsLoop (multiplicativeLoop env fuel) ∧
    KeepsExpression (additiveExpression env fuel) ∧
    KeepsLoop (additiveLoop env fuel) ∧
    KeepsExpression (relationalExpression env fuel) ∧
    KeepsLoop (relationalLoop env fuel) ∧
    KeepsExpression (equalityExpression env fuel) ∧
    KeepsLoop (equalityLoop env fuel) ∧
    KeepsExpression (logicalAndExpression env fuel) ∧
    KeepsLoop (logicalAndLoop env fuel) ∧
    KeepsExpression (expression env fuel) ∧
    KeepsLoop (expressionLoop env fuel) := by
  induction fuel with
  | zero =>
    exact ⟨primaryExpression_zero_balanced env, remainingArguments_zero_balanced env, postfixExpression_zero_balanced env, postfixLoop_zero_balanced env, prefixExpression_zero_balanced env, multiplicativeExpression_zero_balanced env, multiplicativeLoop_zero_balanced env, additiveExpression_zero_balanced env, additiveLoop_zero_balanced env, relationalExpression_zero_balanced env, relationalLoop_zero_balanced env, equalityExpression_zero_balanced env, equalityLoop_zero_balanced env, logicalAndExpression_zero_balanced env, logicalAndLoop_zero_balanced env, expression_zero_balanced env, expressionLoop_zero_balanced env⟩
  | succ n ih =>
    obtain ⟨i1, i2, i3, i4, i5, i6, i7, i8, i9, i10, i11, i12, i13, i14, i15, i16, i17⟩ := ih
    exact ⟨primaryExpression_succ_balanced env n i16 i2,
      remainingArguments_succ_balanced env n i16 i2,
      postfixExpression_succ_balanced env n i1 i4,
      postfixLoop_succ_balanced env n i16 i4,
      prefixExpression_succ_balanced env n i3 i5,
      multiplicativeExpression_succ_balanced env n i5 i7,
      multiplicativeLoop_succ_balanced env n i5 i7,
      additiveExpression_succ_balanced env n i6 i9,
      additiveLoop_succ_balanced env n i6 i9,
      relationalExpression_succ_balanced env n i8 i11,
      relationalLoop_succ_balanced env n i8 i11,
      equalityExpression_succ_balanced env n i10 i13,
      equalityLoop_succ_balanced env n i10 i13,
      logicalAndExpression_succ_balanced env n i12 i15,
      logicalAndLoop_succ_balanced env n i12 i15,
      expression_succ_balanced env n i14 i17,
      expressionLoop_succ_balanced env n i14 i17⟩

theorem expression_balanced (env : Env) (fuel : Nat) : KeepsExpression (expression env fuel) :=
  (expressions_balanced env fuel).2.2.2.2.2.2.2.2.2.2.2.2.2.2.2.1

/-! ## Scope balance: declarations and statements -/

theorem scopes_step {α : Type} (f : Parser → Except Halt Parser) (hf : KeepsScopes f)
    (c : Checker) (p : Parser) (k : Parser → Except Halt α) (r : α)
    (hout : c.outermost ≠ none) (hb : c.Balanced p.checker)
    (h : (f p >>= k) = Except.ok r) :
    ∃ p1, c.Balanced p1.checker ∧ k p1 = Except.ok r := by
  obtain ⟨a, h1, h2⟩ := Except.bind_eq_ok _ _ _ h
  exact ⟨a, hf c p a hout hb h1, h2⟩

theorem openScope_outermost_ne_none (c : Checker) : (openScope c).2.outermost ≠ none := by
  unfold openScope
  simp only []
  split_ifs with h
  · simp
  · exact h

theorem closeScope_step {α : Type} (c : Checker) (p1 p4 : Parser)
    (k : Option Nat × Parser → Except Halt α) (r : α)
    (hout : c.outermost ≠ none) (hb : c.Balanced p1.checker)
    (hbody : (openScope p1.checker).2.Balanced p4.checker)
    (h : (p4.check closeScope >>= k) = Except.ok r) :
    ∃ a : Option Nat × Parser, c.Balanced a.2.checker ∧ k a = Except.ok r := by
  obtain ⟨a, h1, h2⟩ := Except.bind_eq_ok _ _ _ h
  refine ⟨a, ?_, h2⟩
  unfold Parser.check at h1
  cases hc : closeScope p4.checker with
  | none => rw [hc] at h1; cases h1
  | some res =>
    obtain ⟨popped, c5⟩ := res
    rw [hc] at h1
    cases h1
    have hout1 : p1.checker.outermost ≠ none := by rw [hb.2.1]; exact hout
    exact Checker.Balanced.trans hb (closeScope_balanced p1.checker p4.checker c5 popped hout1
      hbody hc)

theorem declarator_balanced (env : Env) (typespec : Int) : KeepsScopes (declarator env typespec) := by
  intro c p r _ hb h
  unfold declarator at h
  dsimp only [pointers] at h
  obtain ⟨⟨name, p1⟩, hb, h⟩ := identifier_step c
    ⟨(pointersFrom p.input 0).2, p.checker⟩ _ r hb h
  dsimp only at h
  split_ifs at h with h1
  · obtain ⟨p2, hb, h⟩ := matchToken_step c p1 _ _ r hb h
    obtain ⟨⟨length, p3⟩, hb, h⟩ := number_step env c p2 _ r hb h
    obtain ⟨⟨symbol, p4⟩, hb, h⟩ := check_step _
      (fun c0 b c1 hc => declareVariable_balanced env.tk name _ c0 c1 b hc) c p3 _ r hb h
    exact matchToken_last c p4 r _ hb h
  · obtain ⟨⟨symbol, p4⟩, hb, h⟩ := check_step _
      (fun c0 b c1 hc => declareVariable_balanced env.tk name _ c0 c1 b hc) c p1 _ r hb h
    cases h
    exact hb

theorem declaratorList_balanced (env : Env) (typespec : Int) (fuel : Nat) :
    KeepsScopes (declaratorList env typespec fuel) := by
  induction fuel with
  | zero =>
    intro c p r _ hb h
    rw [declaratorList] at h
    cases h
  | succ n ih =>
    intro c p r hout hb h
    rw [declaratorList] at h
    split_ifs at h with h1
    · obtain ⟨p1, hb, h⟩ := matchToken_step c p _ _ r hb h
      obtain ⟨p2, hb, h⟩ := scopes_step _ (declarator_balanced env typespec) c p1 _ r hout hb h
      exact ih c p2 r hout hb h
    · cases h
      exact hb

theorem declaration_balanced (env : Env) (fuel : Nat) : KeepsScopes (declaration env fuel) := by
  intro c p r hout hb h
  unfold declaration at h
  obtain ⟨⟨typespec, p1⟩, hb, h⟩ := specifier_step env c p _ r hb h
  obtain ⟨p2, hb, h⟩ := scopes_step _ (declarator_balanced env typespec) c p1 _ r hout hb h
  obtain ⟨p3, hb, h⟩ := scopes_step _ (declaratorList_balanced env typespec fuel) c p2 _ r
    hout hb h
  exact matchToken_last c p3 r _ hb h

theorem declarations_balanced (env : Env) (fuel : Nat) : KeepsScopes (declarations env fuel) := by
  induction fuel with
  | zero =>
    intro c p r _ hb h
    rw [declarations] at h
    cases h
  | succ n ih =>
    intro c p r hout hb h
    rw [declarations] at h
    split_ifs at h with h1
    · obtain ⟨p1, hb, h⟩ := scopes_step _ (declaration_balanced env n) c p _ r hout hb h
      exact ih c p1 r hout hb h
    · cases h
      exact hb

theorem assignment_balanced (env : Env) (fuel : Nat) (c : Checker) (lvalue : Bool)
    (p : Parser) (r : Bool × Parser) (hb : c.Balanced p.checker)
    (h : assignment env fuel lvalue p = Except.ok r) : c.Balanced r.2.checker := by
  unfold assignment at h
  obtain ⟨⟨t1, lv1, p1⟩, hb, h⟩ := expression_step _ (expression_balanced env fuel) c lvalue p
    _ r hb h
  dsimp only at h
  split_ifs at h with h1
  · obtain ⟨p2, hb, h⟩ := matchToken_step c p1 _ _ r hb h
    obtain ⟨⟨t2, lv2, p3⟩, hb, h⟩ := expression_step _ (expression_balanced env fuel) c lv1 p2
      _ r hb h
    cases h
    exact hb
  · cases h
    exact hb

theorem assignment_step {α : Type} (env : Env) (fuel : Nat) (c : Checker) (lvalue : Bool)
    (p : Parser) (k : Bool × Parser → Except Halt α) (r : α) (hb : c.Balanced p.checker)
    (h : (assignment env fuel lvalue p >>= k) = Except.ok r) :
    ∃ a : Bool × Parser, c.Balanced a.2.checker ∧ k a = Except.ok r := by
  obtain ⟨a, h1, h2⟩ := Except.bind_eq_ok _ _ _ h
  exact ⟨a, assignment_balanced env fuel c lvalue p a hb h1, h2⟩

theorem statement_succ_balanced (env : Env) (fuel : Nat)
    (ih : KeepsScopes (statement env fuel)) (ihs : KeepsScopes (statements env fuel)) :
    KeepsScopes (statement env (fuel + 1)) := by
  intro c p r hout hb h
  rw [statement] at h
  split_ifs at h with h1 h2 h3 h4 h5
  · obtain ⟨p1, hb, h⟩ := matchToken_step c p _ _ r hb h
    dsimp only at h
    obtain ⟨p2, hb1, h⟩ := scopes_step _ (declarations_balanced env fuel)
      (openScope p1.checker).2 _ _ r (openScope_outermost_ne_none _)
      (Checker.Balanced.refl _) h
    obtain ⟨p3, hb1, h⟩ := scopes_step _ ihs (openScope p1.checker).2 p2 _ r
      (openScope_outermost_ne_none _) hb1 h
    obtain ⟨⟨popped, p4⟩, hb, h⟩ := closeScope_step c p1 p3 _ r hout hb hb1 h
    exact matchToken_last c p4 r _ hb h
  · obtain ⟨p1, hb, h⟩ := matchToken_step c p _ _ r hb h
    obtain ⟨⟨t, lv, p2⟩, hb, h⟩ := expression_step _ (expression_balanced env fuel) c false p1
      _ r hb h
    exact matchToken_last c p2 r _ hb h
  · obtain ⟨p1, hb, h⟩ := matchToken_step c p _ _ r hb h
    obtain ⟨p2, hb, h⟩ := matchToken_step c p1 _ _ r hb h
    obtain ⟨⟨t, lv, p3⟩, hb, h⟩ := expression_step _ (expression_balanced env fuel) c false p2
      _ r hb h
    obtain ⟨p4, hb, h⟩ := matchToken_step c p3 _ _ r hb h
    exact ih c p4 r hout hb h
  · obtain ⟨p1, hb, h⟩ := matchToken_step c p _ _ r hb h
    obtain ⟨p2, hb, h⟩ := matchToken_step c p1 _ _ r hb h
    obtain ⟨⟨lv1, p3⟩, hb, h⟩ := assignment_step env fuel c false p2 _ r hb h
    obtain ⟨p4, hb, h⟩ := matchToken_step c p3 _ _ r hb h
    obtain ⟨⟨t, lv2, p5⟩, hb, h⟩ := expression_step _ (expression_balanced env fuel) c lv1 p4
      _ r hb h
    obtain ⟨p6, hb, h⟩ := matchToken_step c p5 _ _ r hb h
    obtain ⟨⟨lv3, p7⟩, hb, h⟩ := assignment_step env fuel c lv2 p6 _ r hb h
    obtain ⟨p8, hb, h⟩ := matchToken_step c p7 _ _ r hb h
    exact ih c p8 r hout hb h
  · obtain ⟨p1, hb, h⟩ := matchToken_step c p _ _ r hb h
    obtain ⟨p2, hb, h⟩ := matchToken_step c p1 _ _ r hb h
    obtain ⟨⟨t, lv, p3⟩, hb, h⟩ := expression_step _ (expression_balanced env fuel) c false p2
      _ r hb h
    obtain ⟨p4, hb, h⟩ := matchToken_step c p3 _ _ r hb h
    obtain ⟨p5, hb, h⟩ := scopes_step _ ih c p4 _ r hout hb h
    split_ifs at h with h6
    · obtain ⟨p6, hb, h⟩ := matchToken_step c p5 _ _ r hb h
      exact ih c p6 r hout hb h
    · cases h
      exact hb
  · obtain ⟨⟨lv, p1⟩, hb, h⟩ := assignment_step env fuel c false p _ r hb h
    exact matchToken_last c p1 r _ hb h

theorem statements_succ_balanced (env : Env) (fuel : Nat)
    (ih : KeepsScopes (statement env fuel)) (ihs : KeepsScopes (statements env fuel)) :
    KeepsScopes (statements env (fuel + 1)) := by
  intro c p r hout hb h
  rw [statements] at h
  split_ifs at h with h1
  · obtain ⟨p1, hb, h⟩ := scopes_step _ ih c p _ r hout hb h
    exact ihs c p1 r hout hb h
  · cases h
    exact hb

theorem statements_balanced (env : Env) (fuel : Nat) :
    KeepsScopes (statement env fuel) ∧ KeepsScopes (statements env fuel) := by
  induction fuel with
  | zero =>
    constructor
    · intro c p r _ hb h
      rw [statement] at h
      cases h
    · intro c p r _ hb h
      rw [statements] at h
      cases h
  | succ n ih =>
    exact ⟨statement_succ_balanced env n ih.1 ih.2, statements_succ_balanced env n ih.1 ih.2⟩

/-! ## Scope balance: global declarations and functions -/

theorem parameter_balanced (env : Env) (c : Checker) (p : Parser) (r : Ty × Parser)
    (hb : c.Balanced p.checker) (h : parameter env p = Except.ok r) :
    c.Balanced r.2.checker := by
  unfold parameter at h
  obtain ⟨⟨typespec, p1⟩, hb, h⟩ := specifier_step env c p _ r hb h
  dsimp only [pointers] at h
  obtain ⟨⟨name, p2⟩, hb, h⟩ := identifier_step c
    ⟨(pointersFrom p1.input 0).2, p1.checker⟩ _ r hb h
  obtain ⟨⟨symbol, p3⟩, hb, h⟩ := check_step _
    (fun c0 b c1 hc => declareVariable_balanced env.tk name _ c0 c1 b hc) c p2 _ r hb h
  cases h
  exact hb

theorem remainingParameters_balanced (env : Env) (fuel : Nat) :
    ∀ (c : Checker) (params : List Ty) (p : Parser) (r : List Ty × Parser),
      c.Balanced p.checker → remainingParameters env fuel params p = Except.ok r →
      c.Balanced r.2.checker := by
  induction fuel with
  | zero =>
    intro c params p r hb h
    rw [remainingParameters] at h
    cases h
  | succ n ih =>
    intro c params p r hb h
    rw [remainingParameters] at h
    split_ifs at h with h1
    · obtain ⟨p1, hb, h⟩ := matchToken_step c p _ _ r hb h
      obtain ⟨⟨type, p2⟩, hpar, h⟩ := Except.bind_eq_ok _ _ _ h
      exact ih c _ p2 r (parameter_balanced env c p1 (type, p2) hb hpar) h
    · cases h
      exact hb

theorem parametersAfterSpecifier_balanced (env : Env) (fuel : Nat) (typespec : Int)
    (c : Checker) (p : Parser) (r : List Ty × Parser) (hb : c.Balanced p.checker)
    (h : parametersAfterSpecifier env fuel typespec p = Except.ok r) :
    c.Balanced r.2.checker := by
  unfold parametersAfterSpecifier at h
  dsimp only [pointers] at h
  obtain ⟨⟨name, p2⟩, hb, h⟩ := identifier_step c
    ⟨(pointersFrom p.input 0).2, p.checker⟩ _ r hb h
  obtain ⟨⟨symbol, p3⟩, hb, h⟩ := check_step _
    (fun c0 b c1 hc => declareVariable_balanced env.tk name _ c0 c1 b hc) c p2 _ r hb h
  exact remainingParameters_balanced env fuel c _ p3 r hb h

theorem parameters_balanced (env : Env) (fuel : Nat) (c : Checker) (p : Parser)
    (r : List Ty × Parser) (hb : c.Balanced p.checker)
    (h : parameters env fuel p = Except.ok r) : c.Balanced r.2.checker := by
  unfold parameters at h
  split_ifs at h with h1
  · obtain ⟨p1, hb, h⟩ := matchToken_step c p _ _ r hb h
    split_ifs at h with h2
    · cases h
      exact hb
    · exact parametersAfterSpecifier_balanced env fuel _ c p1 r hb h
  · obtain ⟨⟨typespec, p1⟩, hb, h⟩ := specifier_step env c p _ r hb h
    exact parametersAfterSpecifier_balanced env fuel typespec c p1 r hb h

theorem globalDeclarator_balanced (env : Env) (typespec : Int) :
    KeepsScopes (globalDeclarator env typespec) := by
  intro c p r _ hb h
  unfold globalDeclarator at h
  dsimp only [pointers] at h
  obtain ⟨⟨name, p1⟩, hb, h⟩ := identifier_step c
    ⟨(pointersFrom p.input 0).2, p.checker⟩ _ r hb h
  dsimp only at h
  split_ifs at h with h1 h2
  · obtain ⟨p2, hb, h⟩ := matchToken_step c p1 _ _ r hb h
    obtain ⟨⟨symbol, p3⟩, hb, h⟩ := check_step _
      (fun c0 b c1 hc => declareFunction_balanced name _ c0 c1 b hc) c p2 _ r hb h
    exact matchToken_last c p3 r _ hb h
  · obtain ⟨p2, hb, h⟩ := matchToken_step c p1 _ _ r hb h
    obtain ⟨⟨length, p3⟩, hb, h⟩ := number_step env c p2 _ r hb h
    obtain ⟨⟨symbol, p4⟩, hb, h⟩ := check_step _
      (fun c0 b c1 hc => declareVariable_balanced env.tk name _ c0 c1 b hc) c p3 _ r hb h
    exact matchToken_last c p4 r _ hb h
  · obtain ⟨⟨symbol, p4⟩, hb, h⟩ := check_step _
      (fun c0 b c1 hc => declareVariable_balanced env.tk name _ c0 c1 b hc) c p1 _ r hb h
    cases h
    exact hb

theorem remainingDeclarators_balanced (env : Env) (typespec : Int) (fuel : Nat) :
    KeepsScopes (remainingDeclarators env typespec fuel) := by
  induction fuel with
  | zero =>
    intro c p r _ hb h
    rw [remainingDeclarators] at h
    cases h
  | succ n ih =>
    intro c p r hout hb h
    rw [remainingDeclarators] at h
    split_ifs at h with h1
    · obtain ⟨p1, hb, h⟩ := matchToken_step c p _ _ r hb h
      obtain ⟨p2, hb, h⟩ := scopes_step _ (globalDeclarator_balanced env typespec) c p1 _ r
        hout hb h
      exact ih c p2 r hout hb h
    · exact matchToken_last c p r _ hb h

theorem globalOrFunction_balanced (env : Env) (fuel : Nat) :
    KeepsScopes (globalOrFunction env fuel) := by
  intro c p r hout hb h
  unfold globalOrFunction at h
  obtain ⟨⟨typespec, p0⟩, hb, h⟩ := specifier_step env c p _ r hb h
  dsimp only [pointers] at h
  obtain ⟨⟨name, p1⟩, hb, h⟩ := identifier_step c
    ⟨(pointersFrom p0.input 0).2, p0.checker⟩ _ r hb h
  dsimp only at h
  split_ifs at h with h1 h2
  · obtain ⟨p2, hb, h⟩ := matchToken_step c p1 _ _ r hb h
    obtain ⟨⟨length, p3⟩, hb, h⟩ := number_step env c p2 _ r hb h
    obtain ⟨⟨symbol, p4⟩, hb, h⟩ := check_step _
      (fun c0 b c1 hc => declareVariable_balanced env.tk name _ c0 c1 b hc) c p3 _ r hb h
    obtain ⟨p5, hb, h⟩ := matchToken_step c p4 _ _ r hb h
    exact remainingDeclarators_balanced env typespec fuel c p5 r hout hb h
  · obtain ⟨p2, hb, h⟩ := matchToken_step c p1 _ _ r hb h
    split_ifs at h with h3
    · obtain ⟨⟨symbol, p3⟩, hb, h⟩ := check_step _
        (fun c0 b c1 hc => declareFunction_balanced name _ c0 c1 b hc) c p2 _ r hb h
      obtain ⟨p4, hb, h⟩ := matchToken_step c p3 _ _ r hb h
      exact remainingDeclarators_balanced env typespec fuel c p4 r hout hb h
    · obtain ⟨⟨params, p3⟩, hpar, h⟩ := Except.bind_eq_ok _ _ _ h
      have hb1 : (openScope p2.checker).2.Balanced p3.checker :=
        parameters_balanced env fuel (openScope p2.checker).2
          ⟨p2.input, (openScope p2.checker).2⟩ (params, p3) (Checker.Balanced.refl _) hpar
      obtain ⟨⟨symbol, p4⟩, hb1, h⟩ := check_step _
        (fun c0 b c1 hc => defineFunction_balanced name _ c0 c1 b hc)
        (openScope p2.checker).2 p3 _ r hb1 h
      obtain ⟨p5, hb1, h⟩ := matchToken_step (openScope p2.checker).2 p4 _ _ r hb1 h
      obtain ⟨p6, hb1, h⟩ := matchToken_step (openScope p2.checker).2 p5 _ _ r hb1 h
      obtain ⟨p7, hb1, h⟩ := scopes_step _ (declarations_balanced env fuel)
        (openScope p2.checker).2 p6 _ r (openScope_outermost_ne_none _) hb1 h
      obtain ⟨p8, hb1, h⟩ := scopes_step _ (statements_balanced env fuel).2
        (openScope p2.checker).2 p7 _ r (openScope_outermost_ne_none _) hb1 h
      obtain ⟨⟨popped, p9⟩, hb, h⟩ := closeScope_step c p2 p8 _ r hout hb hb1 h
      exact matchToken_last c p9 r _ hb h
  · obtain ⟨⟨symbol, p4⟩, hb, h⟩ := check_step _
      (fun c0 b c1 hc => declareVariable_balanced env.tk name _ c0 c1 b hc) c p1 _ r hb h
    exact remainingDeclarators_balanced env typespec fuel c p4 r hout hb h

/-! ## Scope balance: what a lookup sees afterwards -/

/-- After a balanced run, a lookup from the top-level scope finishes and sees
only the scopes that were allocated before the run: the scopes opened (and
closed) meanwhile do not contribute. -/
theorem Checker.Balanced.lookup_old {c1 c2 : Checker} (hb : c1.Balanced c2)
    (hord : Ordered c1.scopes) (top : Nat) (htop : c1.toplevel = some top)
    (hlt : top < c1.scopes.length) (name : String) :
    c2.lookup name =
      lookupFrom (c2.scopes.take c1.scopes.length) c1.scopes.length (some top) name ∧
    ∃ found, c2.lookup name = some found := by
  obtain ⟨b1, _, b3, b4⟩ := hb
  have htop2 : c2.toplevel = some top := by rw [b1, htop]
  have hordTake : Ordered (c2.scopes.take c1.scopes.length) := by
    intro i sc hsc j hj
    have hi : i < c1.scopes.length := by
      have := (List.getElem?_eq_some_iff.1 hsc).1
      rw [List.length_take] at this
      omega
    rw [List.getElem?_take_of_lt hi] at hsc
    have hlink := b4 i hi
    rw [hsc] at hlink
    cases hsc1 : c1.scopes[i]? with
    | none => rw [hsc1] at hlink; simp at hlink
    | some sc1 =>
      rw [hsc1] at hlink
      simp only [Option.map_some', Option.some.injEq] at hlink
      exact hord i sc1 hsc1 j (by rw [← hlink]; exact hj)
  have hlenTake : (c2.scopes.take c1.scopes.length).length = c1.scopes.length := by
    rw [List.length_take]
    omega
  have hcongr := lookupFrom_congr (c2.scopes.take c1.scopes.length) c2.scopes name hordTake
    top c1.scopes.length c2.scopes.length hlt (by omega) (by rw [hlenTake]; exact hlt)
    (fun k hk => (List.getElem?_take_of_lt (by omega)).symm)
  rw [Checker.lookup_eq c2 top name htop2, hcongr.1]
  exact ⟨rfl, hcongr.2⟩

/-- In `afterCompound` the name `x`, declared inside the block, is not found by
a lookup from the top-level scope, although its scope is still in the store. -/
theorem afterCompound_lookup_x : afterCompound.lookup "x" = some none := rfl

/-- C25: for every token stream, fuel and checker state whose outermost scope
exists, if `statement()` (respectively `globalOrFunction()`) returns without a
syntax error then the top-level scope on return is the scope on entry and
`outermost` is unchanged; every scope that existed on entry is still in the
store with the same enclosing scope, and the scopes opened meanwhile were all
closed again: in an ordered store a lookup from the top-level scope afterwards
finishes and sees only the scopes that existed on entry, so no declaration
made inside a scope opened meanwhile is visible. -/
theorem scope_balance (env : Env) (fuel : Nat) (p r : Parser)
    (hout : p.checker.outermost ≠ none) :
    (statement env fuel p = Except.ok r → p.checker.Balanced r.checker) ∧
    (globalOrFunction env fuel p = Except.ok r → p.checker.Balanced r.checker) ∧
    (p.checker.Balanced r.checker →
      r.checker.toplevel = p.checker.toplevel ∧ r.checker.outermost = p.checker.outermost ∧
      (Ordered p.checker.scopes → ∀ top : Nat, p.checker.toplevel = some top →
        top < p.checker.scopes.length → ∀ name : String,
          r.checker.lookup name =
            lookupFrom (r.checker.scopes.take p.checker.scopes.length)
              p.checker.scopes.length (some top) name ∧
          ∃ found, r.checker.lookup name = some found)) := by
  refine ⟨?_, ?_, ?_⟩
  · intro h
    exact (statements_balanced env fuel).1 p.checker p r hout (Checker.Balanced.refl _) h
  · intro h
    exact globalOrFunction_balanced env fuel p.checker p r hout (Checker.Balanced.refl _) h
  · intro hb
    exact ⟨hb.1, hb.2.1, fun hord top htop hlt name => hb.lookup_old hord top htop hlt name⟩

theorem scope_balance_witness : bodyState.Balanced afterCompound :=
  (scope_balance (sampleEnv (fun _ => 0) (fun _ => Ty.error)) 6
    ⟨compoundStatement, bodyState⟩ ⟨[], afterCompound⟩ (by decide)).1 (by rfl)

end SimpleC
